import Mathlib

/-!
# x-ui inbound service: the reconciliation core of `web/service/inbound.go`

A shallow embedding of `InboundService`.

* The two tables (`inbounds`, `client_traffics`) are lists of rows in primary-key order;
  a query is a filter over the list, `Save` of rows that were just loaded rewrites those rows
  in place.  Storage failures are modelled where the service reacts to them: the unique
  constraint of the Ledger, and the failing statements of an accounting tick (`TickFaults`).
* A settings blob is modelled by the JSON document its text parses to (`none` when the text is
  not JSON); so is the stream-settings blob.  `encoding/json` is outside the repository: objects are association lists read by
  exact key (a Go `map[string]interface{}`), and numbers are the integers that a `float64`
  carries exactly.
* Everything the service reaches outside the store (the live engine, `strings.ToLower`,
  SQLite's text rendering, the process handle `p`) is a field of `Env`.
* A run-time panic (failed type assertion, index out of range) is the error `Err.panic`.
-/

set_option autoImplicit false

namespace XUI

/-! ## Data model -/

/-- A parsed JSON document, as `json.Unmarshal` delivers it into `interface{}`.  A number is
integer-valued and of a magnitude that `float64` carries exactly (below 2^53), so that the
typed reading into `int64` and the reading into `interface{}` agree on it. -/
inductive Json where
  | null
  | bool (b : Bool)
  | num (n : Int)
  | str (s : String)
  | arr (xs : List Json)
  | obj (kvs : List (String × Json))

/-- Go map read `m[k]` on a decoded object. -/
def lookupKey (k : String) : List (String × Json) → Option Json
  | [] => none
  | (k', v) :: rest => if k' = k then some v else lookupKey k rest

/-- Go map write `m[k] = v` on a decoded object. -/
def setKey (k : String) (v : Json) : List (String × Json) → List (String × Json)
  | [] => [(k, v)]
  | (k', v') :: rest => if k' = k then (k, v) :: rest else (k', v') :: setKey k v rest

/-- Modelled from the spec: `model.Client` is not among the sources; these are the persisted
client fields the spec lists (email, id, password, flow, enable, totalGB, expiryTime, reset,
tgId). -/
structure Client where
  id : String := ""
  password : String := ""
  flow : String := ""
  email : String := ""
  totalGB : Int := 0
  expiryTime : Int := 0
  enable : Bool := false
  tgId : String := ""
  reset : Int := 0
  deriving DecidableEq

/-- Modelled from the spec: a row of `client_traffics` (`xray.ClientTraffic` is not among the
sources).  The primary key is the position of the row in the table. -/
structure ClientTraffic where
  inboundId : Int
  enable : Bool
  email : String
  up : Int
  down : Int
  expiryTime : Int
  total : Int
  reset : Int
  deriving DecidableEq

/-- The fields of `model.Inbound` that the service reads or writes. -/
structure Inbound where
  id : Int
  up : Int := 0
  down : Int := 0
  total : Int := 0
  remark : String := ""
  enable : Bool := true
  expiryTime : Int := 0
  listen : String := ""
  port : Int
  protocol : String
  settings : Option Json
  streamSettings : Option Json := some (.obj [])
  tag : String := ""
  sniffing : String := ""
  clientStats : List ClientTraffic := []

/-- The persisted state: table `inbounds` and table `client_traffics` (the Ledger). -/
structure Store where
  inbounds : List Inbound
  traffics : List ClientTraffic

/-- A call on the live engine's control channel. -/
inductive ApiCall where
  | addInbound (tag : String)
  | delInbound (tag : String)
  | addUser (protocol : String) (tag : String) (email : String)
  | removeUser (tag : String) (email : String)
  deriving DecidableEq

/-- What a live call answers: success, the error text "User ... not found.", another error. -/
inductive ApiOutcome where
  | ok
  | userNotFound
  | failed
  deriving DecidableEq

/-- Errors the service returns; `panic` stands for a Go run-time panic. -/
inductive Err where
  | portExists (port : Int)
  | duplicateEmail (email : String)
  | emptyClientID
  | noClientRemained
  | settingIsNull
  | jsonError
  | recordNotFound
  | sqlError
  | uniqueViolation
  | panic
  deriving DecidableEq

/-- The collaborators outside the store. -/
structure Env where
  /-- Stands for `strings.ToLower`. -/
  toLower : String → String
  /-- The text SQLite hands to `Scan` for a JSON value that is neither a string nor null. -/
  sqlText : Json → String
  /-- Whether the process handle `p` is set (`p != nil`). -/
  hasProcess : Bool
  /-- Whether `xrayApi.Init` fails. -/
  initFails : Bool
  /-- Whether `json.MarshalIndent(GenXrayInboundConfig())` fails for the inbound with this tag. -/
  configFails : String → Bool
  /-- The answer of the live engine to a call. -/
  live : ApiCall → ApiOutcome
  /-- The auto-save of the `ClientStats` association by `tx.Save(inbound)`: table before, id of
  the saved inbound, the rows it arrived with; `none` when a constraint rejects it. -/
  saveClientStats : List ClientTraffic → Int → List ClientTraffic → Option (List ClientTraffic)

/-- The result of a service call: the store as persisted after commit or rollback, the live
calls issued in order, the restart-needed flag and the returned error. -/
structure Outcome where
  store : Store
  calls : List ApiCall
  needRestart : Bool
  err : Option Err

/-- A call that returns `err` before anything was written or sent. -/
def Outcome.fail (st : Store) (e : Err) : Outcome :=
  { store := st, calls := [], needRestart := false, err := some e }

/-- The validation errors of the spec's taxonomy. -/
def Err.isValidation : Err → Bool
  | .portExists _ => true
  | .duplicateEmail _ => true
  | .emptyClientID => true
  | .noClientRemained => true
  | _ => false

/-! ## Port collision check -/

/-- The "any address" listen values. -/
def isAnyAddr (listen : String) : Bool :=
  listen == "" || listen == "0.0.0.0" || listen == "::" || listen == "::0"

/-- Go `checkPortExist`: counts the inbounds on `port` whose listen collides with `listen`. -/
def checkPortExist (st : Store) (listen : String) (port : Int) (ignoreId : Int) : Bool :=
  let q : Inbound → Bool :=
    if listen == "" || listen == "0.0.0.0" || listen == "::" || listen == "::0" then
      fun ib => ib.port == port
    else
      fun ib => ib.port == port &&
        (ib.listen == listen || ib.listen == "" || ib.listen == "0.0.0.0" ||
          ib.listen == "::" || ib.listen == "::0")
  let q' : Inbound → Bool := if ignoreId > 0 then fun ib => q ib && ib.id != ignoreId else q
  decide ((st.inbounds.filter q').length > 0)

/-! ## Client-set codec -/

/-- Whether an integer fits a Go `int64`. -/
def inInt64 (n : Int) : Bool := decide (-(2 ^ 63) ≤ n ∧ n < 2 ^ 63)

/-- A string field of a client object; a missing key, a null or a value of another type leaves
the zero value (the type error is ignored by `GetClients`). -/
def strField (kvs : List (String × Json)) (k : String) : String :=
  match lookupKey k kvs with
  | some (.str s) => s
  | _ => ""

/-- An `int64` field of a client object. -/
def intField (kvs : List (String × Json)) (k : String) : Int :=
  match lookupKey k kvs with
  | some (.num n) => if inInt64 n then n else 0
  | _ => 0

/-- A `bool` field of a client object. -/
def boolField (kvs : List (String × Json)) (k : String) : Bool :=
  match lookupKey k kvs with
  | some (.bool b) => b
  | _ => false

/-- One element of `"clients"` decoded into `model.Client`.  The keys are read as written:
the matching of keys without regard to case, which `encoding/json` adds for struct fields, is
not modelled, so statements about the code's own reading of a client go through the raw
object (`rawClients`, `lookupKey`). -/
def decodeClient : Json → Client
  | .obj kvs =>
    { id := strField kvs "id", password := strField kvs "password", flow := strField kvs "flow",
      email := strField kvs "email", totalGB := intField kvs "totalGB",
      expiryTime := intField kvs "expiryTime", enable := boolField kvs "enable",
      tgId := strField kvs "tgId", reset := intField kvs "reset" }
  | _ => {}

/-- Go `GetClients`: `json.Unmarshal` into `map[string][]model.Client` with its error dropped;
only the document `null` leaves a nil map behind. -/
def GetClients (inbound : Inbound) : Except Err (List Client) :=
  match inbound.settings with
  | some .null => .error .settingIsNull
  | some (.obj kvs) =>
    match lookupKey "clients" kvs with
    | some (.arr xs) => .ok (xs.map decodeClient)
    | _ => .ok []
  | _ => .ok []

/-- The call `json.Unmarshal(text, &m)` for `m : map[string]interface{}`: the decoded object,
`none` for the nil map that the document `null` leaves. -/
def unmarshalMap : Option Json → Except Err (Option (List (String × Json)))
  | none => .error .jsonError
  | some .null => .ok none
  | some (.obj kvs) => .ok (some kvs)
  | some _ => .error .jsonError

/-- The assertion `settings["clients"].([]interface{})`, which panics unless the entry is a
list. -/
def clientsArr (m : Option (List (String × Json))) : Except Err (List Json) :=
  match m with
  | none => .error .panic
  | some kvs =>
    match lookupKey "clients" kvs with
    | some (.arr xs) => .ok xs
    | _ => .error .panic

/-- The protocol identifier of a client: password for trojan, email for shadowsocks, id
otherwise. -/
def clientKey (protocol : String) (c : Client) : String :=
  if protocol = "trojan" then c.password
  else if protocol = "shadowsocks" then c.email
  else c.id

/-- The loop "Secure client ID": whether some client has an empty protocol identifier. -/
def hasEmptyClientID (protocol : String) : List Client → Bool
  | [] => false
  | client :: rest =>
    if protocol = "trojan" then
      if client.password = "" then true else hasEmptyClientID protocol rest
    else if protocol = "shadowsocks" then
      if client.email = "" then true else hasEmptyClientID protocol rest
    else
      if client.id = "" then true else hasEmptyClientID protocol rest

/-! ## Email uniqueness -/

/-- The column `JSON_EXTRACT(client.value, '$.email')` for one element of `"clients"`: `none` is
SQL NULL.  An element that is not an object makes the query fail or yields NULL in SQLite;
both end in an error of the caller and are modelled as an error here. -/
def sqlEmail (env : Env) : Json → Except Err (Option String)
  | .obj kvs =>
    match lookupKey "email" kvs with
    | none => .ok none
    | some .null => .ok none
    | some (.str s) => .ok (some s)
    | some v => .ok (some (env.sqlText v))
  | _ => .error .sqlError

/-- The rows of `JSON_EACH(JSON_EXTRACT(inbounds.settings, '$.clients'))` for one inbound. -/
def sqlClients : Option Json → Except Err (List Json)
  | none => .error .sqlError
  | some (.obj kvs) =>
    match lookupKey "clients" kvs with
    | none => .ok []
    | some .null => .ok []
    | some (.arr xs) => .ok xs
    | some (.obj members) => .ok (members.map Prod.snd)
    | some _ => .error .sqlError
  | some _ => .ok []

/-- A list traversal that stops at the first error. -/
def mapE {α β : Type} (f : α → Except Err β) : List α → Except Err (List β)
  | [] => .ok []
  | a :: rest =>
    match f a with
    | .error e => .error e
    | .ok b =>
      match mapE f rest with
      | .error e => .error e
      | .ok bs => .ok (b :: bs)

/-- The sub-select shared by `getAllEmails` and the orphan sweep: the email column over every
client of every inbound. -/
def sqlEmailColumn (env : Env) (st : Store) : Except Err (List (Option String)) :=
  match mapE (fun ib =>
      match sqlClients ib.settings with
      | .error e => .error e
      | .ok cs => mapE (sqlEmail env) cs) st.inbounds with
  | .error e => .error e
  | .ok perInbound => .ok perInbound.flatten

/-- Go `getAllEmails`: `Scan` into `[]string` fails on a NULL. -/
def getAllEmails (env : Env) (st : Store) : Except Err (List String) :=
  match sqlEmailColumn env st with
  | .error e => .error e
  | .ok col =>
    mapE (fun v => match v with
      | some s => Except.ok s
      | none => Except.error Err.sqlError) col

/-- Go `contains`: membership up to `strings.ToLower`. -/
def contains (env : Env) (slice : List String) (str : String) : Bool :=
  slice.any (fun s => env.toLower s == env.toLower str)

/-- The loop shared by `checkEmailsExistForClients` and `checkEmailExistForInbound`; `emails`
collects the non-empty emails seen so far. -/
def checkEmailsLoop (env : Env) (allEmails : List String) : List String → List Client → String
  | _, [] => ""
  | emails, client :: rest =>
    if client.email ≠ "" then
      if contains env emails client.email then client.email
      else if contains env allEmails client.email then client.email
      else checkEmailsLoop env allEmails (emails ++ [client.email]) rest
    else checkEmailsLoop env allEmails emails rest

/-- Go `checkEmailsExistForClients`. -/
def checkEmailsExistForClients (env : Env) (st : Store) (clients : List Client) :
    Except Err String :=
  match getAllEmails env st with
  | .error e => .error e
  | .ok allEmails => .ok (checkEmailsLoop env allEmails [] clients)

/-- Go `checkEmailExistForInbound`. -/
def checkEmailExistForInbound (env : Env) (st : Store) (inbound : Inbound) :
    Except Err String :=
  match GetClients inbound with
  | .error e => .error e
  | .ok clients =>
    match getAllEmails env st with
    | .error e => .error e
    | .ok allEmails => .ok (checkEmailsLoop env allEmails [] clients)

/-! ## Ledger rows -/

/-- Go `AddClientStat`: `tx.Create` of a fresh row.  Modelled from the spec: the Ledger's email
is unique, so the insert fails when a row with that email exists. -/
def AddClientStat (tr : List ClientTraffic) (inboundId : Int) (client : Client) :
    Except Err (List ClientTraffic) :=
  if tr.any (fun r => r.email == client.email) then .error .uniqueViolation
  else .ok (tr ++ [{ inboundId := inboundId, email := client.email, total := client.totalGB,
                     expiryTime := client.expiryTime, enable := true, up := 0, down := 0,
                     reset := client.reset }])

/-- Go `UpdateClientStat`: rewrites the rows with `email`; renaming onto the email of another
row violates the unique constraint. -/
def UpdateClientStat (tr : List ClientTraffic) (email : String) (client : Client) :
    Except Err (List ClientTraffic) :=
  if client.email ≠ email ∧ tr.any (fun r => r.email == email) ∧
      tr.any (fun r => r.email == client.email) then .error .uniqueViolation
  else .ok (tr.map (fun r =>
    if r.email = email then
      { r with enable := true, email := client.email, total := client.totalGB,
               expiryTime := client.expiryTime, reset := client.reset }
    else r))

/-- Go `DelClientStat`. -/
def DelClientStat (tr : List ClientTraffic) (email : String) : List ClientTraffic :=
  tr.filter (fun r => r.email != email)

/-! ## Inbound rows -/

/-- Go `GetInbound`: `First(inbound, id)`. -/
def GetInbound (st : Store) (id : Int) : Option Inbound :=
  st.inbounds.find? (fun ib => ib.id == id)

/-- The call `tx.Save(oldInbound)` on a row that was loaded by `GetInbound`: the row with that
primary key is overwritten. -/
def saveInbound (inbounds : List Inbound) (ib : Inbound) : List Inbound :=
  inbounds.map (fun x => if x.id = ib.id then ib else x)

/-- The primary key that the insert of a new inbound receives. -/
def nextInboundId (st : Store) : Int :=
  st.inbounds.foldl (fun m ib => max m ib.id) 0 + 1

/-- The call `tx.Save(inbound)` of `AddInbound`: an insert under a fresh key when `Id` is zero,
otherwise an upsert under the given key.  The association column is not part of the row. -/
def insertInbound (st : Store) (inbound : Inbound) : Int × List Inbound :=
  if inbound.id = 0 then
    (nextInboundId st, st.inbounds ++ [{ inbound with id := nextInboundId st, clientStats := [] }])
  else if st.inbounds.any (fun x => x.id == inbound.id) then
    (inbound.id, saveInbound st.inbounds { inbound with clientStats := [] })
  else
    (inbound.id, st.inbounds ++ [{ inbound with clientStats := [] }])

/-! ## Mutation API -/

/-- The tag that `UpdateInbound` recomputes from listen and port. -/
def genTag (listen : String) (port : Int) : String :=
  if listen == "" || listen == "0.0.0.0" || listen == "::" || listen == "::0" then
    "inbound-" ++ toString port
  else
    "inbound-" ++ listen ++ ":" ++ toString port

/-- The loop of `AddInbound` over `AddClientStat`, whose error is dropped. -/
def addClientStats (inboundId : Int) : List ClientTraffic → List Client → List ClientTraffic
  | tr, [] => tr
  | tr, client :: rest =>
    match AddClientStat tr inboundId client with
    | .ok tr' => addClientStats inboundId tr' rest
    | .error _ => addClientStats inboundId tr rest

/-- Go `AddInbound`. -/
def AddInbound (env : Env) (st : Store) (inbound : Inbound) : Outcome :=
  if checkPortExist st inbound.listen inbound.port 0 then
    .fail st (.portExists inbound.port)
  else
    match checkEmailExistForInbound env st inbound with
    | .error e => .fail st e
    | .ok existEmail =>
      if existEmail ≠ "" then .fail st (.duplicateEmail existEmail)
      else
        match GetClients inbound with
        | .error e => .fail st e
        | .ok clients =>
          if hasEmptyClientID inbound.protocol clients then .fail st .emptyClientID
          else
            let saved := insertInbound st inbound
            match (if inbound.clientStats.length = 0 then some st.traffics
                   else env.saveClientStats st.traffics saved.1 inbound.clientStats) with
            | none => .fail st .uniqueViolation
            | some tr =>
              let tr' :=
                if inbound.clientStats.length = 0 then addClientStats saved.1 tr clients else tr
              { store := { inbounds := saved.2, traffics := tr' }
                calls := if inbound.enable then [.addInbound inbound.tag] else []
                needRestart := inbound.enable && env.live (.addInbound inbound.tag) != .ok
                err := none }

/-- The first loop of `updateClientTraffics`: rows of emails that only the old clients have are
deleted. -/
def delOldStats (newClients : List Client) : List ClientTraffic → List Client → List ClientTraffic
  | tr, [] => tr
  | tr, oldClient :: rest =>
    if newClients.any (fun newClient => oldClient.email == newClient.email) then
      delOldStats newClients tr rest
    else
      delOldStats newClients (DelClientStat tr oldClient.email) rest

/-- The second loop of `updateClientTraffics`: rows are created for emails that only the new
clients have; the first failing insert ends the call. -/
def addNewStats (inboundId : Int) (oldClients : List Client) :
    List ClientTraffic → List Client → Except Err (List ClientTraffic)
  | tr, [] => .ok tr
  | tr, newClient :: rest =>
    if oldClients.any (fun oldClient => newClient.email == oldClient.email) then
      addNewStats inboundId oldClients tr rest
    else
      match AddClientStat tr inboundId newClient with
      | .error e => .error e
      | .ok tr' => addNewStats inboundId oldClients tr' rest

/-- Go `updateClientTraffics`. -/
def updateClientTraffics (tr : List ClientTraffic) (oldInbound newInbound : Inbound) :
    Except Err (List ClientTraffic) :=
  match GetClients oldInbound with
  | .error e => .error e
  | .ok oldClients =>
    match GetClients newInbound with
    | .error e => .error e
    | .ok newClients =>
      addNewStats oldInbound.id oldClients (delOldStats newClients tr oldClients) newClients

/-- Go `UpdateInbound`. -/
def UpdateInbound (env : Env) (st : Store) (inbound : Inbound) : Outcome :=
  if checkPortExist st inbound.listen inbound.port inbound.id then
    .fail st (.portExists inbound.port)
  else
    match GetInbound st inbound.id with
    | none => .fail st .recordNotFound
    | some oldInbound =>
      match updateClientTraffics st.traffics oldInbound inbound with
      | .error e => .fail st e
      | .ok tr =>
        let updated : Inbound :=
          { oldInbound with
            up := inbound.up, down := inbound.down, total := inbound.total,
            remark := inbound.remark, enable := inbound.enable,
            expiryTime := inbound.expiryTime, listen := inbound.listen, port := inbound.port,
            protocol := inbound.protocol, settings := inbound.settings,
            streamSettings := inbound.streamSettings, sniffing := inbound.sniffing,
            tag := genTag inbound.listen inbound.port }
        { store := { inbounds := saveInbound st.inbounds updated, traffics := tr }
          calls := [.delInbound oldInbound.tag] ++
            (if inbound.enable && !env.configFails updated.tag then [.addInbound updated.tag]
             else [])
          needRestart := inbound.enable &&
            (env.configFails updated.tag || env.live (.addInbound updated.tag) != .ok)
          err := none }

/-- The assertion `oldSettings["method"].(string)` succeeds. -/
def methodIsString (oldSettings : List (String × Json)) : Bool :=
  match lookupKey "method" oldSettings with
  | some (.str _) => true
  | _ => false

/-- What the client loops of the mutation calls carry: the Ledger inside the transaction, the
live calls sent so far, the restart-needed flag. -/
structure LoopState where
  tr : List ClientTraffic
  calls : List ApiCall
  needRestart : Bool

/-- The client loop of `AddInboundClient`; the second component tells that the loop panicked
on the cipher assertion. -/
def addClientsLoop (env : Env) (oldInbound : Inbound) (oldSettings : List (String × Json))
    (inboundId : Int) : LoopState → List Client → LoopState × Bool
  | s, [] => (s, false)
  | s, client :: rest =>
    if client.email ≠ "" then
      let tr :=
        match AddClientStat s.tr inboundId client with
        | .ok tr' => tr'
        | .error _ => s.tr
      if client.enable then
        if oldInbound.protocol = "shadowsocks" ∧ methodIsString oldSettings = false then
          ({ s with tr := tr }, true)
        else
          let call := ApiCall.addUser oldInbound.protocol oldInbound.tag client.email
          addClientsLoop env oldInbound oldSettings inboundId
            { tr := tr, calls := s.calls ++ [call],
              needRestart := s.needRestart || env.live call != .ok } rest
      else
        addClientsLoop env oldInbound oldSettings inboundId { s with tr := tr } rest
    else
      addClientsLoop env oldInbound oldSettings inboundId { s with needRestart := true } rest

/-- Go `AddInboundClient`. -/
def AddInboundClient (env : Env) (st : Store) (data : Inbound) : Outcome :=
  match GetClients data with
  | .error e => .fail st e
  | .ok clients =>
  match unmarshalMap data.settings with
  | .error e => .fail st e
  | .ok settings =>
  match clientsArr settings with
  | .error e => .fail st e
  | .ok interfaceClients =>
  match checkEmailsExistForClients env st clients with
  | .error e => .fail st e
  | .ok existEmail =>
  if existEmail ≠ "" then .fail st (.duplicateEmail existEmail)
  else
  match GetInbound st data.id with
  | none => .fail st .recordNotFound
  | some oldInbound =>
  if hasEmptyClientID oldInbound.protocol clients then .fail st .emptyClientID
  else
  match unmarshalMap oldInbound.settings with
  | .error e => .fail st e
  | .ok none => .fail st .panic
  | .ok (some oldSettings) =>
  match clientsArr (some oldSettings) with
  | .error e => .fail st e
  | .ok oldClients =>
    let newSettings := setKey "clients" (.arr (oldClients ++ interfaceClients)) oldSettings
    let saved : Inbound := { oldInbound with settings := some (.obj newSettings) }
    match addClientsLoop env oldInbound newSettings data.id
        { tr := st.traffics, calls := [], needRestart := false } clients with
    | (s, true) =>
      { store := { inbounds := st.inbounds, traffics := s.tr }
        calls := s.calls, needRestart := false, err := some .panic }
    | (s, false) =>
      { store := { inbounds := saveInbound st.inbounds saved, traffics := s.tr }
        calls := s.calls, needRestart := s.needRestart, err := none }

/-- The protocol identifier key of `DelInboundClient`. -/
def clientKeyName (protocol : String) : String :=
  if protocol = "shadowsocks" then "email"
  else if protocol = "trojan" then "password"
  else "id"

/-- What the loop of `DelInboundClient` carries: the clients kept, the email and the enable
flag of the last client matched. -/
structure DelState where
  newClients : List Json
  email : String
  needApiDel : Bool

/-- The loop of `DelInboundClient` over the raw client list; `none` is a panic on a failed
type assertion. -/
def delClientLoop (client_key clientId : String) : DelState → List Json → Option DelState
  | s, [] => some s
  | s, client :: rest =>
    match client with
    | .obj c =>
      match lookupKey client_key c with
      | some (.str c_id) =>
        if c_id = clientId then
          delClientLoop client_key clientId
            { s with
              email := (match lookupKey "email" c with
                | some (.str e) => e
                | _ => "")
              needApiDel := (match lookupKey "enable" c with
                | some (.bool b) => b
                | _ => false) } rest
        else
          delClientLoop client_key clientId { s with newClients := s.newClients ++ [client] } rest
      | _ => none
    | _ => none

/-- Go `DelInboundClient`. -/
def DelInboundClient (env : Env) (st : Store) (inboundId : Int) (clientId : String) : Outcome :=
  match GetInbound st inboundId with
  | none => .fail st .recordNotFound
  | some oldInbound =>
  match unmarshalMap oldInbound.settings with
  | .error e => .fail st e
  | .ok none => .fail st .panic
  | .ok (some settings) =>
  match clientsArr (some settings) with
  | .error e => .fail st e
  | .ok interfaceClients =>
  match delClientLoop (clientKeyName oldInbound.protocol) clientId
      { newClients := [], email := "", needApiDel := false } interfaceClients with
  | none => .fail st .panic
  | some s =>
    if s.newClients.length = 0 then .fail st .noClientRemained
    else
      let saved : Inbound :=
        { oldInbound with settings := some (.obj (setKey "clients" (.arr s.newClients) settings)) }
      if s.email ≠ "" then
        match st.traffics.find? (fun r => r.email == s.email) with
        | none => .fail st .recordNotFound
        | some row =>
          let notDepleted := row.enable
          let tr := DelClientStat st.traffics s.email
          let call := ApiCall.removeUser oldInbound.tag s.email
          { store := { inbounds := saveInbound st.inbounds saved, traffics := tr }
            calls := if s.needApiDel && notDepleted then [call] else []
            needRestart := s.needApiDel && notDepleted && env.live call == .failed
            err := none }
      else
        { store := { inbounds := saveInbound st.inbounds saved, traffics := st.traffics }
          calls := [], needRestart := false, err := none }

/-- The search loop of `UpdateInboundClient`: index and email of the first old client whose
protocol identifier is `clientId`. -/
def findClientIndex (protocol clientId : String) : Nat → List Client → Option (Nat × String)
  | _, [] => none
  | index, oldClient :: rest =>
    if clientId = clientKey protocol oldClient then some (index, oldClient.email)
    else findClientIndex protocol clientId (index + 1) rest

/-- Go `UpdateInboundClient`. -/
def UpdateInboundClient (env : Env) (st : Store) (data : Inbound) (clientId : String) :
    Outcome :=
  match GetClients data with
  | .error e => .fail st e
  | .ok clients =>
  match unmarshalMap data.settings with
  | .error e => .fail st e
  | .ok settings =>
  match clientsArr settings with
  | .error e => .fail st e
  | .ok interfaceClients =>
  match GetInbound st data.id with
  | none => .fail st .recordNotFound
  | some oldInbound =>
  match GetClients oldInbound with
  | .error e => .fail st e
  | .ok oldClients =>
  match oldClients, clients with
  | [], _ => .fail st .emptyClientID
  | _ :: _, [] => .fail st .panic
  | _ :: _, newClient :: _ =>
  match findClientIndex oldInbound.protocol clientId 0 oldClients with
  | none => .fail st .emptyClientID
  | some (clientIndex, oldEmail) =>
  if clientKey oldInbound.protocol newClient = "" then .fail st .emptyClientID
  else
  match (if newClient.email ≠ "" ∧ newClient.email ≠ oldEmail then
           checkEmailsExistForClients env st clients else Except.ok "") with
  | .error e => .fail st e
  | .ok existEmail =>
  if existEmail ≠ "" then .fail st (.duplicateEmail existEmail)
  else
  match unmarshalMap oldInbound.settings with
  | .error e => .fail st e
  | .ok none => .fail st .panic
  | .ok (some oldSettings) =>
  match clientsArr (some oldSettings) with
  | .error e => .fail st e
  | .ok settingsClients =>
  match interfaceClients with
  | [] => .fail st .panic
  | newEntry :: _ =>
  if settingsClients.length ≤ clientIndex then .fail st .panic
  else
    let newSettings := setKey "clients" (.arr (settingsClients.set clientIndex newEntry)) oldSettings
    let saved : Inbound := { oldInbound with settings := some (.obj newSettings) }
    match (if newClient.email ≠ "" then
             if oldEmail ≠ "" then UpdateClientStat st.traffics oldEmail newClient
             else
               match AddClientStat st.traffics data.id newClient with
               | .ok tr' => Except.ok tr'
               | .error _ => Except.ok st.traffics
           else Except.ok (DelClientStat st.traffics oldEmail)) with
    | .error e => .fail st e
    | .ok tr =>
      if oldEmail ≠ "" then
        let oldEnable := (oldClients.getD clientIndex {}).enable
        let removeCall := ApiCall.removeUser oldInbound.tag oldEmail
        let addCall := ApiCall.addUser oldInbound.protocol oldInbound.tag newClient.email
        let calls1 := if oldEnable then [removeCall] else []
        let restart1 := oldEnable && env.live removeCall == .failed
        if newClient.enable then
          if oldInbound.protocol = "shadowsocks" ∧ methodIsString newSettings = false then
            { store := { inbounds := st.inbounds, traffics := tr }
              calls := calls1, needRestart := false, err := some .panic }
          else
            { store := { inbounds := saveInbound st.inbounds saved, traffics := tr }
              calls := calls1 ++ [addCall]
              needRestart := restart1 || env.live addCall != .ok
              err := none }
        else
          { store := { inbounds := saveInbound st.inbounds saved, traffics := tr }
            calls := calls1, needRestart := restart1, err := none }
      else
        { store := { inbounds := saveInbound st.inbounds saved, traffics := tr }
          calls := [], needRestart := true, err := none }

/-- The collision relation of the spec: same port, and equal listens or a wildcard on either
side. -/
def collides (a : Inbound) (listen : String) (port : Int) : Prop :=
  a.port = port ∧ (a.listen = listen ∨ isAnyAddr a.listen = true ∨ isAnyAddr listen = true)

/-- The non-empty emails of a client list, in list order. -/
def nonEmptyEmails (clients : List Client) : List String :=
  (clients.map (fun c => c.email)).filter (fun e => e ≠ "")

/-- Lower-casing of the ASCII letters, the part of `strings.ToLower` used in examples. -/
def asciiLower (s : String) : String :=
  String.mk (s.data.map Char.toLower)

/-- An environment for examples: the engine accepts every call. -/
def env0 : Env :=
  { toLower := asciiLower
    sqlText := fun _ => ""
    hasProcess := true
    initFails := false
    configFails := fun _ => false
    live := fun _ => .ok
    saveClientStats := fun tr _ _ => some tr }

/-- Example clients whose emails differ by case only. -/
def clientUpper : Client := { id := "1", email := "A" }

/-- The second example client. -/
def clientLower : Client := { id := "2", email := "a" }

/-- A store with one vless inbound that holds one client, email "a". -/
def storeOneClient : Store :=
  { inbounds :=
      [{ id := 1, port := 443, protocol := "vless", tag := "inbound-443",
         settings := some (.obj [("clients", .arr [.obj [("id", .str "u1"), ("email", .str "a"),
           ("enable", .bool true), ("totalGB", .num 0), ("expiryTime", .num 0),
           ("reset", .num 0)]])]) }]
    traffics :=
      [{ inboundId := 1, enable := true, email := "a", up := 0, down := 0, expiryTime := 0,
         total := 0, reset := 0 }] }

/-- An inbound that asks for the port of the stored one. -/
def inboundSamePort : Inbound :=
  { id := 0, port := 443, protocol := "vless", tag := "inbound-443",
    settings := some (.obj [("clients", .arr [.obj [("id", .str "u2"), ("email", .str "b")]])]) }

/-- The raw client list of an inbound, as the mutation calls read it
(`settings["clients"].([]interface{})`). -/
def rawClients (ib : Inbound) : Except Err (List Json) :=
  match unmarshalMap ib.settings with
  | .error e => .error e
  | .ok m => clientsArr m

/-- The inbound with `oldSettings["clients"]` replaced by `l` and re-encoded, as the client
mutation calls build it before `Save`. -/
def withClients (ib : Inbound) (kvs : List (String × Json)) (l : List Json) : Inbound :=
  { ib with settings := some (.obj (setKey "clients" (.arr l) kvs)) }

/-- A request that replaces the client of the stored inbound (same email, new id and quota). -/
def requestReplace : Inbound :=
  { id := 1, port := 443, protocol := "vless", tag := "inbound-443",
    settings := some (.obj [("clients", .arr [.obj [("id", .str "u9"), ("email", .str "a"),
      ("enable", .bool true), ("totalGB", .num 100), ("expiryTime", .num 0),
      ("reset", .num 0)]])]) }

/-- The result of one pass of the accounting tick. -/
structure TickOutcome where
  store : Store
  calls : List ApiCall
  needRestart : Bool
  count : Nat
  err : Option Err

/-- How a loop of the tick ends: normally, in a panic, or not within the given fuel. -/
inductive Run (α : Type) where
  | done (a : α)
  | panic
  | outOfFuel

/-- Go `int64` arithmetic wraps around. -/
def wrap64 (x : Int) : Int := (x + 2 ^ 63) % 2 ^ 64 - 2 ^ 63

/-- The rows a query loads, each with its position in the table (its primary key).  They
are listed in table order; the order in which the engine answers is its own choice, and the
statements about the loaded rows go by position or by membership. -/
def selectRows (p : ClientTraffic → Bool) (tr : List ClientTraffic) :
    List (Nat × ClientTraffic) :=
  tr.enum.filter (fun ir => p ir.2)

/-- The call `tx.Save(traffics)` on loaded rows: each is written back under its key. -/
def saveRows (tr : List ClientTraffic) (rows : List (Nat × ClientTraffic)) :
    List ClientTraffic :=
  rows.foldl (fun t ir => t.set ir.1 ir.2) tr

/-- The loop `for newExpiryTime < now { newExpiryTime += int64(traffic.Reset) * 86400000 }`;
`none` when it has not ended within `fuel` rounds. -/
def renewLoop : Nat → Int → Int → Int → Option Int
  | 0, _, _, _ => none
  | fuel + 1, newExpiryTime, now, reset =>
    if newExpiryTime < now then
      renewLoop fuel (wrap64 (newExpiryTime + wrap64 (reset * 86400000))) now reset
    else some newExpiryTime

/-- The selection of `autoRenewClients`. -/
def renewable (now : Int) (r : ClientTraffic) : Bool :=
  decide (r.reset > 0) && decide (r.expiryTime > 0) && decide (r.expiryTime ≤ now)

/-- The inner loop of `autoRenewClients` over the loaded Ledger rows for one client email: the
first row with that email is renewed.  Answers the rows, the new expiry time and whether the
row had been disabled. -/
def renewTraffic (fuel : Nat) (now : Int) (email : String) :
    List (Nat × ClientTraffic) → Run (Option (List (Nat × ClientTraffic) × Int × Bool))
  | [] => .done none
  | (i, traffic) :: rest =>
    if traffic.email = email then
      match renewLoop fuel traffic.expiryTime now traffic.reset with
      | none => .outOfFuel
      | some newExpiryTime =>
        .done (some ((i, { traffic with expiryTime := newExpiryTime, down := 0, up := 0,
                                        enable := true }) :: rest,
                     newExpiryTime, !traffic.enable))
    else
      match renewTraffic fuel now email rest with
      | .done none => .done none
      | .done (some (rest', e, b)) => .done (some ((i, traffic) :: rest', e, b))
      | .panic => .panic
      | .outOfFuel => .outOfFuel

/-- What the loops of `autoRenewClients` carry: the loaded Ledger rows and the queued add-user
calls. -/
structure RenewState where
  traffics : List (Nat × ClientTraffic)
  clientsToAdd : List ApiCall

/-- The client loop of `autoRenewClients` for one inbound; answers the rewritten client list.
The loaded rows are not empty here, so the assertion `c["email"].(string)` is reached for
every client. -/
def renewClients (fuel : Nat) (now : Int) (protocol tag : String) :
    RenewState → List Json → Run (RenewState × List Json)
  | s, [] => .done (s, [])
  | s, client :: rest =>
    match client with
    | .obj c =>
      match lookupKey "email" c with
      | some (.str email) =>
        match renewTraffic fuel now email s.traffics with
        | .panic => .panic
        | .outOfFuel => .outOfFuel
        | .done none =>
          match renewClients fuel now protocol tag s rest with
          | .done (s', rest') => .done (s', client :: rest')
          | .panic => .panic
          | .outOfFuel => .outOfFuel
        | .done (some (traffics', newExpiryTime, wasDisabled)) =>
          let s1 : RenewState :=
            { traffics := traffics'
              clientsToAdd :=
                if wasDisabled then s.clientsToAdd ++ [.addUser protocol tag email]
                else s.clientsToAdd }
          match renewClients fuel now protocol tag s1 rest with
          | .done (s', rest') =>
            .done (s', .obj (setKey "expiryTime" (.num newExpiryTime) c) :: rest')
          | .panic => .panic
          | .outOfFuel => .outOfFuel
      | _ => .panic
    | _ => .panic

/-- The inbound loop of `autoRenewClients` over the table; only the inbounds whose id is among
`inboundIds` were loaded. -/
def renewInbounds (fuel : Nat) (now : Int) (inboundIds : List Int) :
    RenewState → List Inbound → Run (RenewState × List Inbound)
  | s, [] => .done (s, [])
  | s, ib :: rest =>
    if inboundIds.contains ib.id then
      match ib.settings with
      | some (.obj settings) =>
        match lookupKey "clients" settings with
        | some (.arr clients) =>
          match renewClients fuel now ib.protocol ib.tag s clients with
          | .panic => .panic
          | .outOfFuel => .outOfFuel
          | .done (s1, clients') =>
            match renewInbounds fuel now inboundIds s1 rest with
            | .done (s', rest') => .done (s', withClients ib settings clients' :: rest')
            | .panic => .panic
            | .outOfFuel => .outOfFuel
        | _ => .panic
      | _ => .panic
    else
      match renewInbounds fuel now inboundIds s rest with
      | .done (s', rest') => .done (s', ib :: rest')
      | .panic => .panic
      | .outOfFuel => .outOfFuel

/-- Go `autoRenewClients` at time `now`; `none` when a renewal loop has not ended within
`fuel` rounds. -/
def autoRenewClients (env : Env) (fuel : Nat) (st : Store) (now : Int) : Option TickOutcome :=
  let traffics := selectRows (renewable now) st.traffics
  if traffics.length = 0 then
    some { store := st, calls := [], needRestart := false, count := 0, err := none }
  else
    match renewInbounds fuel now (traffics.map (fun ir => ir.2.inboundId))
        { traffics := traffics, clientsToAdd := [] } st.inbounds with
    | .outOfFuel => none
    | .panic => some { store := st, calls := [], needRestart := false, count := 0,
                       err := some .panic }
    | .done (s, inbounds) =>
      let store : Store := { inbounds := inbounds, traffics := saveRows st.traffics s.traffics }
      if env.hasProcess then
        if env.initFails then
          some { store := store, calls := [], needRestart := true, count := s.traffics.length,
                 err := none }
        else
          some { store := store, calls := s.clientsToAdd
                 needRestart := s.clientsToAdd.any (fun call => env.live call != .ok)
                 count := s.traffics.length, err := none }
      else
        some { store := store, calls := [], needRestart := false, count := s.traffics.length,
               err := none }

/-- The predicate of `disableInvalidClients`: quota used up or expiry passed, and enabled.
SQLite does not wrap `up + down` around, so the sum is taken in the integers. -/
def invalidClient (now : Int) (r : ClientTraffic) : Bool :=
  ((decide (r.total > 0) && decide (r.up + r.down ≥ r.total)) ||
    (decide (r.expiryTime > 0) && decide (r.expiryTime ≤ now))) && r.enable

/-- The join of `disableInvalidClients`: one (tag, email) pair for every invalid Ledger row
and every inbound whose id is the row's `inbound_id`.  SQL leaves the order of the pairs open;
they are listed by Ledger row. -/
def invalidClientPairs (st : Store) (now : Int) : List (String × String) :=
  (st.traffics.filter (invalidClient now)).flatMap (fun r =>
    (st.inbounds.filter (fun ib => ib.id == r.inboundId)).map (fun ib => (ib.tag, r.email)))

/-- Go `disableInvalidClients` at time `now`. -/
def disableInvalidClients (env : Env) (st : Store) (now : Int) : TickOutcome :=
  let results := if env.hasProcess then invalidClientPairs st now else []
  let calls := results.map (fun result => ApiCall.removeUser result.1 result.2)
  { store :=
      { inbounds := st.inbounds
        traffics := st.traffics.map (fun r =>
          if invalidClient now r then { r with enable := false } else r) }
    calls := calls
    needRestart := calls.any (fun call => env.live call == .failed)
    count := (st.traffics.filter (invalidClient now)).length
    err := none }

/-- The time of the example ticks, in epoch milliseconds. -/
def tickNow : Int := 1700000000000

/-- A store whose only client renews daily and expires exactly at `tickNow`. -/
def storeRenewBoundary : Store :=
  { inbounds :=
      [{ id := 1, port := 443, protocol := "vless", tag := "inbound-443",
         settings := some (.obj [("clients", .arr [.obj [("id", .str "u1"), ("email", .str "a"),
           ("enable", .bool true), ("totalGB", .num 0), ("expiryTime", .num 1700000000000),
           ("reset", .num 1)]])]) }]
    traffics :=
      [{ inboundId := 1, enable := true, email := "a", up := 10, down := 20,
         expiryTime := 1700000000000, total := 0, reset := 1 }] }

/-- The spec's renewal example: reset 30 days, expired 5 days before `tickNow`, disabled. -/
def storeRenewExample : Store :=
  { inbounds :=
      [{ id := 1, port := 443, protocol := "vless", tag := "inbound-443",
         settings := some (.obj [("clients", .arr [.obj [("id", .str "u1"), ("email", .str "a"),
           ("enable", .bool true), ("totalGB", .num 0),
           ("expiryTime", .num (1700000000000 - 5 * 86400000)), ("reset", .num 30)]])]) }]
    traffics :=
      [{ inboundId := 1, enable := false, email := "a", up := 10, down := 20,
         expiryTime := 1700000000000 - 5 * 86400000, total := 0, reset := 30 }] }

/-- A Ledger row over quota whose `inbound_id` names no stored inbound. -/
def storeOrphanRow : Store :=
  { inbounds := []
    traffics :=
      [{ inboundId := 1, enable := true, email := "a", up := 600, down := 500,
         expiryTime := 0, total := 1000, reset := 0 }] }

/-- The spec's quota example: total 1000, up 600, down 500, inbound stored. -/
def storeOverQuota : Store :=
  { inbounds :=
      [{ id := 1, port := 443, protocol := "vless", tag := "inbound-443",
         settings := some (.obj [("clients", .arr [.obj [("id", .str "u1"), ("email", .str "a"),
           ("enable", .bool true), ("totalGB", .num 1000), ("expiryTime", .num 0),
           ("reset", .num 0)]])]) }]
    traffics :=
      [{ inboundId := 1, enable := true, email := "a", up := 600, down := 500,
         expiryTime := 0, total := 1000, reset := 0 }] }

/-! ## Maintenance passes -/

/-- Go `delete(m, k)` on a decoded object. -/
def delKey (k : String) (kvs : List (String × Json)) : List (String × Json) :=
  kvs.filter (fun kv => kv.1 != k)

/-- The client fix of `MigrationRequirements`: a missing email becomes "", the flow
"xtls-rprx-direct" is cleared; `none` is the panic of `clients[i].(map[string]interface{})`. -/
def normalizeClient : Json → Option Json
  | .obj c =>
    let c1 := if (lookupKey "email" c).isNone then setKey "email" (.str "") c else c
    match lookupKey "flow" c1 with
    | some (.str flow) =>
      if flow = "xtls-rprx-direct" then some (.obj (setKey "flow" (.str "") c1))
      else some (.obj c1)
    | _ => some (.obj c1)
  | _ => none

/-- The client loop of `MigrationRequirements`. -/
def normalizeClients : List Json → Option (List Json)
  | [] => some []
  | client :: rest =>
    match normalizeClient client with
    | none => none
    | some c =>
      match normalizeClients rest with
      | none => none
      | some rest' => some (c :: rest')

/-- The settings rewrite of `MigrationRequirements` for one inbound; settings that hold no
client list are left as they are. -/
def normalizeSettings (ib : Inbound) : Option Inbound :=
  match ib.settings with
  | some (.obj settings) =>
    match lookupKey "clients" settings with
    | some (.arr clients) =>
      match normalizeClients clients with
      | none => none
      | some newClients => some (withClients ib settings newClients)
    | _ => some ib
  | _ => some ib

/-- The Ledger loop of `MigrationRequirements`: a row is created for every emailed client
whose email no row carries yet. -/
def addMissingStats (inboundId : Int) : List ClientTraffic → List Client → List ClientTraffic
  | tr, [] => tr
  | tr, modelClient :: rest =>
    if modelClient.email ≠ "" then
      if (tr.filter (fun r => r.email == modelClient.email)).length = 0 then
        match AddClientStat tr inboundId modelClient with
        | .ok tr' => addMissingStats inboundId tr' rest
        | .error _ => addMissingStats inboundId tr rest
      else addMissingStats inboundId tr rest
    else addMissingStats inboundId tr rest

/-- The protocols `MigrationRequirements` loads. -/
def isMigrated (ib : Inbound) : Bool :=
  ib.protocol == "vmess" || ib.protocol == "vless" || ib.protocol == "trojan"

/-- The inbound loop of `MigrationRequirements` over the table.  It answers the Ledger inside
the transaction and, when the loop ran to its end, the rewritten inbounds; an error marks the
early `return` (GetClients failed) or a panic, both of which leave `tx.Save(inbounds)`
unreached. -/
def migrateInbounds :
    List ClientTraffic → List Inbound → List ClientTraffic × Except Err (List Inbound)
  | tr, [] => (tr, .ok [])
  | tr, ib :: rest =>
    if isMigrated ib then
      match normalizeSettings ib with
      | none => (tr, .error .panic)
      | some ib' =>
        match GetClients ib' with
        | .error e => (tr, .error e)
        | .ok modelClients =>
          match migrateInbounds (addMissingStats ib'.id tr modelClients) rest with
          | (tr', .ok rest') => (tr', .ok (ib' :: rest'))
          | (tr', .error e) => (tr', .error e)
    else
      match migrateInbounds tr rest with
      | (tr', .ok rest') => (tr', .ok (ib :: rest'))
      | (tr', .error e) => (tr', .error e)

/-- The value at `$.tlsSettings.settings.domains` of a stream-settings document, if the path
exists. -/
def streamDomains (stream : List (String × Json)) : Option Json :=
  match lookupKey "tlsSettings" stream with
  | some (.obj tlsSettings) =>
    match lookupKey "settings" tlsSettings with
    | some (.obj settings) => lookupKey "domains" settings
    | _ => none
  | _ => none

/-- The WHERE clause of the external-proxy query for one inbound: `none` when SQLite rejects
the stream settings as malformed JSON. -/
def needsExternalProxy (ib : Inbound) : Option Bool :=
  if isMigrated ib then
    match ib.streamSettings with
    | none => none
    | some (.obj stream) =>
      match lookupKey "security" stream, streamDomains stream with
      | some (.str security), some domains =>
        match domains with
        | .null => some false
        | _ => some (security == "tls")
      | _, _ => some false
    | some _ => some false
  else some false

/-- The rewrite of one entry of `domains`; `none` is the panic of
`domainMap["domain"].(string)`. -/
def migrateDomain (port : Int) : Json → Option Json
  | .obj domainMap =>
    match lookupKey "domain" domainMap with
    | some (.str domain) =>
      some (.obj (delKey "domain"
        (setKey "dest" (.str domain)
          (setKey "port" (.num port) (setKey "forceTls" (.str "same") domainMap)))))
    | _ => none
  | other => some other

/-- The loop over `domains`. -/
def migrateDomains (port : Int) : List Json → Option (List Json)
  | [] => some []
  | domain :: rest =>
    match migrateDomain port domain with
    | none => none
    | some d =>
      match migrateDomains port rest with
      | none => none
      | some rest' => some (d :: rest')

/-- The stream-settings rewrite for one selected inbound: the domains move to
`externalProxy`; `none` is a panic (a failed assertion, or the write into the nil map that a
document other than an object leaves). -/
def migrateStream (ib : Inbound) : Option Inbound :=
  match ib.streamSettings with
  | some (.obj stream) =>
    match lookupKey "tlsSettings" stream with
    | some (.obj tlsSettings) =>
      match lookupKey "settings" tlsSettings with
      | some (.obj settings) =>
        match (match lookupKey "domains" settings with
               | some (.arr domains) =>
                 match migrateDomains ib.port domains with
                 | none => none
                 | some ds => some (some (Json.arr ds))
               | other => some other) with
        | none => none
        | some reverses =>
          let settings' := delKey "domains" settings
          let tlsSettings' := setKey "settings" (.obj settings') tlsSettings
          let stream' := setKey "externalProxy" (reverses.getD .null)
            (setKey "tlsSettings" (.obj tlsSettings') stream)
          some { ib with streamSettings := some (.obj stream') }
      | _ => some { ib with streamSettings := some (.obj (setKey "externalProxy" .null stream)) }
    | _ => some { ib with streamSettings := some (.obj (setKey "externalProxy" .null stream)) }
  | _ => none

/-- The loop over the selected inbounds; a panic keeps what was updated before it. -/
def migrateStreams : List Inbound → List Inbound × Bool
  | [] => ([], false)
  | ib :: rest =>
    if needsExternalProxy ib = some true then
      match migrateStream ib with
      | none => (ib :: rest, true)
      | some ib' =>
        match migrateStreams rest with
        | (rest', panicked) => (ib' :: rest', panicked)
    else
      match migrateStreams rest with
      | (rest', panicked) => (ib :: rest', panicked)

/-- The store after a maintenance pass, with the error that ended it early, if any. -/
structure MigrationOutcome where
  store : Store
  err : Option Err

/-- Go `MigrationRequirements`.  The deferred function commits unless the function-level `err`
is set, which only the external-proxy query does. -/
def MigrationRequirements (st : Store) : MigrationOutcome :=
  match migrateInbounds st.traffics st.inbounds with
  | (tr, .error e) => { store := { inbounds := st.inbounds, traffics := tr }, err := some e }
  | (tr, .ok inbounds) =>
    let tr' := tr.filter (fun r => r.inboundId != 0)
    if inbounds.any (fun ib => needsExternalProxy ib == none) then
      { store := st, err := some .sqlError }
    else
      match migrateStreams inbounds with
      | (inbounds', true) =>
        { store := { inbounds := inbounds', traffics := tr' }, err := some .panic }
      | (inbounds', false) =>
        { store := { inbounds := inbounds', traffics := tr' }, err := none }

/-- Go `MigrationRemoveOrphanedTraffics`: `DELETE ... WHERE email NOT IN (sub-select)`.  A NULL
in the sub-select keeps every row that matches no value; a failing statement deletes
nothing. -/
def MigrationRemoveOrphanedTraffics (env : Env) (st : Store) : Store :=
  match sqlEmailColumn env st with
  | .error _ => st
  | .ok col =>
    { inbounds := st.inbounds
      traffics := st.traffics.filter (fun r =>
        !(col.all (fun v => match v with
          | some s => s != r.email
          | none => false))) }

/-- A legacy store: the client's only Ledger row carries `inbound_id = 0`. -/
def storeLegacyRow : Store :=
  { inbounds :=
      [{ id := 5, port := 443, protocol := "vless", tag := "inbound-443",
         settings := some (.obj [("clients", .arr [.obj [("id", .str "u1"), ("email", .str "e"),
           ("enable", .bool true), ("totalGB", .num 0), ("expiryTime", .num 0),
           ("reset", .num 0)]])]) }]
    traffics :=
      [{ inboundId := 0, enable := true, email := "e", up := 7, down := 9, expiryTime := 0,
         total := 0, reset := 0 }] }

/-- A request that keeps the stored client and its email and raises its quota. -/
def requestQuota : Inbound :=
  { id := 1, port := 443, protocol := "vless", tag := "inbound-443",
    settings := some (.obj [("clients", .arr [.obj [("id", .str "u1"), ("email", .str "a"),
      ("enable", .bool true), ("totalGB", .num 100), ("expiryTime", .num 0),
      ("reset", .num 0)]])]) }

/-! ## Examples for the live-sync and decode claims -/

/-- A store without rows. -/
def storeEmpty : Store := { inbounds := [], traffics := [] }

/-- A vless inbound whose only client has an id and an empty email. -/
def inboundNoEmail : Inbound :=
  { id := 0, port := 8443, protocol := "vless", tag := "inbound-8443",
    settings := some (.obj [("clients", .arr [.obj [("id", .str "u1"), ("email", .str ""),
      ("enable", .bool true), ("totalGB", .num 0), ("expiryTime", .num 0),
      ("reset", .num 0)]])]) }

/-- A store whose only client has no email and no Ledger row. -/
def storeNoEmail : Store :=
  { inbounds := [{ inboundNoEmail with id := 1 }], traffics := [] }

/-- A request that gives the client of `storeNoEmail` the email "b". -/
def requestGiveEmail : Inbound :=
  { id := 1, port := 8443, protocol := "vless", tag := "inbound-8443",
    settings := some (.obj [("clients", .arr [.obj [("id", .str "u1"), ("email", .str "b"),
      ("enable", .bool true), ("totalGB", .num 0), ("expiryTime", .num 0),
      ("reset", .num 0)]])]) }

/-- An environment in which every remove-inbound call fails and every other call succeeds. -/
def envRemoveFails : Env :=
  { env0 with
    live := fun call =>
      match call with
      | .delInbound _ => .failed
      | _ => .ok }

/-! ## Traffic reconciliation: the accounting tick -/

/-- The fields of an inbound-level batch entry (`xray.Traffic`) that the service reads. -/
structure Traffic where
  isInbound : Bool
  tag : String
  up : Int
  down : Int

/-- The fields of a client-level batch entry (`xray.ClientTraffic` as reported by the engine)
that the service reads. -/
structure ClientDelta where
  email : String
  up : Int
  down : Int
  deriving DecidableEq

/-- Go `addInboundTraffic`: `up` and `down` of the inbounds with the entry's tag grow by the
entry's values (SQL arithmetic, which does not wrap around). -/
def addInboundTraffic (inbounds : List Inbound) : List Traffic → List Inbound
  | [] => inbounds
  | traffic :: rest =>
    if traffic.isInbound then
      addInboundTraffic
        (inbounds.map (fun ib =>
          if ib.tag = traffic.tag then
            { ib with up := ib.up + traffic.up, down := ib.down + traffic.down }
          else ib)) rest
    else addInboundTraffic inbounds rest

/-- The comparison `c["email"] == traffic.Email` of an `interface{}` with a string. -/
def emailIs (c : List (String × Json)) (email : String) : Bool :=
  match lookupKey "email" c with
  | some (.str e) => e == email
  | _ => false

/-- The inner loop of `adjustTraffics` over the loaded Ledger rows for one client object `c`:
the first row with a negative expiry time and the client's email is resolved to
`now - int64(c["expiryTime"])`.  Answers the rows and the new expiry time; the error is the
panic of `c["expiryTime"].(float64)`. -/
def adjustRows (now : Int) (c : List (String × Json)) :
    List (Nat × ClientTraffic) → Except Err (Option (List (Nat × ClientTraffic) × Int))
  | [] => .ok none
  | (i, traffic) :: rest =>
    if traffic.expiryTime < 0 ∧ emailIs c traffic.email = true then
      match lookupKey "expiryTime" c with
      | some (.num oldExpiryTime) =>
        .ok (some ((i, { traffic with expiryTime := wrap64 (now - oldExpiryTime) }) :: rest,
                   wrap64 (now - oldExpiryTime)))
      | _ => .error .panic
    else
      match adjustRows now c rest with
      | .error e => .error e
      | .ok none => .ok none
      | .ok (some (rest', newExpiryTime)) => .ok (some ((i, traffic) :: rest', newExpiryTime))

/-- The client loop of `adjustTraffics` for one inbound; the error is the panic of
`clients[i].(map[string]interface{})` or of the inner loop. -/
def adjustClients (now : Int) :
    List (Nat × ClientTraffic) → List Json →
      Except Err (List (Nat × ClientTraffic) × List Json)
  | rows, [] => .ok (rows, [])
  | rows, client :: rest =>
    match client with
    | .obj c =>
      match adjustRows now c rows with
      | .error e => .error e
      | .ok none =>
        match adjustClients now rows rest with
        | .error e => .error e
        | .ok (rows', rest') => .ok (rows', client :: rest')
      | .ok (some (rows1, newExpiryTime)) =>
        match adjustClients now rows1 rest with
        | .error e => .error e
        | .ok (rows', rest') =>
          .ok (rows', .obj (setKey "expiryTime" (.num newExpiryTime) c) :: rest')
    | _ => .error .panic

/-- The inbound loop of `adjustTraffics` over the table; only the inbounds whose id is among
`inboundIds` were loaded, and settings without a client list are left as they are. -/
def adjustInbounds (now : Int) (inboundIds : List Int) :
    List (Nat × ClientTraffic) → List Inbound →
      Except Err (List (Nat × ClientTraffic) × List Inbound)
  | rows, [] => .ok (rows, [])
  | rows, ib :: rest =>
    match (if inboundIds.contains ib.id then
             match ib.settings with
             | some (.obj settings) =>
               match lookupKey "clients" settings with
               | some (.arr clients) =>
                 match adjustClients now rows clients with
                 | .error e => Except.error e
                 | .ok (rows1, clients') => Except.ok (rows1, withClients ib settings clients')
               | _ => Except.ok (rows, ib)
             | _ => Except.ok (rows, ib)
           else Except.ok (rows, ib)) with
    | .error e => .error e
    | .ok (rows1, ib') =>
      match adjustInbounds now inboundIds rows1 rest with
      | .error e => .error e
      | .ok (rows', rest') => .ok (rows', ib' :: rest')

/-- Go `adjustTraffics` at time `now`, on the loaded Ledger rows: answers the inbounds as
saved and the rows as adjusted. -/
def adjustTraffics (inbounds : List Inbound) (dbClientTraffics : List (Nat × ClientTraffic))
    (now : Int) : Except Err (List Inbound × List (Nat × ClientTraffic)) :=
  let inboundIds :=
    (dbClientTraffics.filter (fun ir => decide (ir.2.expiryTime < 0))).map
      (fun ir => ir.2.inboundId)
  if inboundIds.length > 0 then
    match adjustInbounds now inboundIds dbClientTraffics inbounds with
    | .error e => .error e
    | .ok (rows, inbounds') => .ok (inbounds', rows)
  else .ok (inbounds, dbClientTraffics)

/-- The accounting loops of `addClientTraffic`: each loaded row takes the values of the first
batch entry with its email (`int64` additions), and that email is reported online when the
entry's `up + down` is positive. -/
def applyDeltas (traffics : List ClientDelta) :
    List (Nat × ClientTraffic) → List (Nat × ClientTraffic) × List String
  | [] => ([], [])
  | (i, row) :: rest =>
    match traffics.find? (fun t => row.email == t.email) with
    | some t =>
      ((i, { row with up := wrap64 (row.up + t.up), down := wrap64 (row.down + t.down) }) ::
          (applyDeltas traffics rest).1,
        if wrap64 (t.up + t.down) > 0 then t.email :: (applyDeltas traffics rest).2
        else (applyDeltas traffics rest).2)
    | none => ((i, row) :: (applyDeltas traffics rest).1, (applyDeltas traffics rest).2)

/-- Storage failures of one accounting tick: each flag makes the first statement of the named
step fail. -/
structure TickFaults where
  inboundTraffic : Bool := false
  clientLoad : Bool := false
  clientSave : Bool := false
  renew : Bool := false
  disableClients : Bool := false
  disableInbounds : Bool := false

/-- The result of `addClientTraffic`: the state inside the transaction, the online-client set
held by the process, and the returned error (`Err.panic` for a panic). -/
structure ClientTickOutcome where
  store : Store
  online : List String
  err : Option Err

/-- Go `addClientTraffic` at time `now`; `online` is the online-client set before the call.
With the process handle unset, `p.SetOnlineClients` on the non-empty path panics. -/
def addClientTraffic (env : Env) (faults : TickFaults) (st : Store) (online : List String)
    (now : Int) (traffics : List ClientDelta) : ClientTickOutcome :=
  if traffics.length = 0 then
    { store := st, online := if env.hasProcess then [] else online, err := none }
  else if faults.clientLoad then
    { store := st, online := online, err := some .sqlError }
  else
    let emails := traffics.map (fun t => t.email)
    let dbClientTraffics := selectRows (fun r => emails.contains r.email) st.traffics
    if dbClientTraffics.length = 0 then
      { store := st, online := online, err := none }
    else
      match adjustTraffics st.inbounds dbClientTraffics now with
      | .error e => { store := st, online := online, err := some e }
      | .ok (inbounds, rows) =>
        if env.hasProcess then
          { store :=
              { inbounds := inbounds
                traffics :=
                  if faults.clientSave then st.traffics
                  else saveRows st.traffics (applyDeltas traffics rows).1 }
            online := (applyDeltas traffics rows).2
            err := none }
        else
          { store := { inbounds := inbounds, traffics := st.traffics }
            online := online, err := some .panic }

/-- The predicate of `disableInvalidInbounds`. -/
def invalidInbound (now : Int) (ib : Inbound) : Bool :=
  ((decide (ib.total > 0) && decide (ib.up + ib.down ≥ ib.total)) ||
    (decide (ib.expiryTime > 0) && decide (ib.expiryTime ≤ now))) && ib.enable

/-- Go `disableInvalidInbounds` at time `now`. -/
def disableInvalidInbounds (env : Env) (st : Store) (now : Int) : TickOutcome :=
  let tags := if env.hasProcess then (st.inbounds.filter (invalidInbound now)).map (fun ib => ib.tag)
    else []
  let calls := tags.map (fun tag => ApiCall.delInbound tag)
  { store :=
      { inbounds := st.inbounds.map (fun ib =>
          if invalidInbound now ib then { ib with enable := false } else ib)
        traffics := st.traffics }
    calls := calls
    needRestart := calls.any (fun call => env.live call != .ok)
    count := (st.inbounds.filter (invalidInbound now)).length
    err := none }

/-- The result of one accounting tick: the store as persisted after the deferred commit or
rollback, the online-client set, the live calls, the restart-needed flag, the returned error
(`Err.panic` when the tick ended in a panic). -/
structure TickResult where
  store : Store
  online : List String
  calls : List ApiCall
  needRestart : Bool
  err : Option Err

/-- Go `AddTraffic` at time `now`.  The deferred function rolls back when the function-level
`err` is set at the end, and commits otherwise; `err` is assigned by every step in turn, so
at the end it is the error of `disableInvalidInbounds`.  A panic unwinds through the deferred
function with the `err` of the last finished step.  `none` when a renewal loop has not ended
within `fuel` rounds. -/
def AddTraffic (env : Env) (faults : TickFaults) (fuel : Nat) (st : Store)
    (online : List String) (now : Int) (inboundTraffics : List Traffic)
    (clientTraffics : List ClientDelta) : Option TickResult :=
  if faults.inboundTraffic then
    some { store := st, online := online, calls := [], needRestart := false,
           err := some .sqlError }
  else
    let st1 : Store :=
      { inbounds := addInboundTraffic st.inbounds inboundTraffics, traffics := st.traffics }
    let c := addClientTraffic env faults st1 online now clientTraffics
    match c.err with
    | some .panic =>
      some { store := c.store, online := c.online, calls := [], needRestart := false,
             err := some .panic }
    | some e =>
      some { store := st, online := c.online, calls := [], needRestart := false,
             err := some e }
    | none =>
      match (if faults.renew then
               some { store := c.store, calls := [], needRestart := false, count := 0,
                      err := some Err.sqlError }
             else autoRenewClients env fuel c.store now) with
      | none => none
      | some r =>
        if r.err = some .panic then
          some { store := c.store, online := c.online, calls := [], needRestart := false,
                 err := some .panic }
        else
          let d : TickOutcome :=
            if faults.disableClients then
              { store := r.store, calls := [], needRestart := false, count := 0,
                err := some .sqlError }
            else disableInvalidClients env r.store now
          let i : TickOutcome :=
            if faults.disableInbounds then
              { store := d.store, calls := [], needRestart := false, count := 0,
                err := some .sqlError }
            else disableInvalidInbounds env d.store now
          some { store := if i.err = none then i.store else st
                 online := c.online
                 calls := r.calls ++ d.calls ++ i.calls
                 needRestart := r.needRestart || d.needRestart || i.needRestart
                 err := none }

/-- The relation between a loaded Ledger row before and after `adjustTraffics`: same key, same
fields apart from the expiry time, and nothing changed at all when the expiry time was not
negative. -/
def AdjustedRow (a b : Nat × ClientTraffic) : Prop :=
  b.1 = a.1 ∧ { b.2 with expiryTime := a.2.expiryTime } = a.2 ∧ (0 ≤ a.2.expiryTime → b = a)

/-- The relation between a client entry before and after `adjustTraffics` on the loaded
`rows`: unchanged, unless it is an object whose email is that of a loaded row with a negative
expiry time. -/
def AdjustedClient (rows : List (Nat × ClientTraffic)) (c c' : Json) : Prop :=
  c' = c ∨ ∃ o, c = .obj o ∧ ∃ ir ∈ rows, ir.2.expiryTime < 0 ∧ emailIs o ir.2.email = true

/-- The relation between an inbound before and after `adjustTraffics`: unchanged, or its
client list rewritten entry by entry. -/
def AdjustedInbound (rows : List (Nat × ClientTraffic)) (ib ib' : Inbound) : Prop :=
  ib' = ib ∨ ∃ settings cs cs', ib.settings = some (.obj settings) ∧
    lookupKey "clients" settings = some (.arr cs) ∧
    List.Forall₂ (AdjustedClient rows) cs cs' ∧ ib' = withClients ib settings cs'

/-- A client entry that is not an object carrying the email `em`. -/
def noEmClient (em : String) (x : Json) : Prop :=
  ∀ o, x = .obj o → emailIs o em = false

/-- An inbound none of whose clients carries the email `em`. -/
def noEmInbound (em : String) (ib : Inbound) : Prop :=
  ∀ settings cs, ib.settings = some (.obj settings) →
    lookupKey "clients" settings = some (.arr cs) → ∀ x ∈ cs, noEmClient em x

/-- A tick on which no storage statement fails. -/
def noFaults : TickFaults := {}

/-- The counter update of `addClientTraffic` on one loaded row: the first batch entry with
the row's email is added. -/
def addDelta (traffics : List ClientDelta) (row : ClientTraffic) : ClientTraffic :=
  match traffics.find? (fun t => row.email == t.email) with
  | some t => { row with up := wrap64 (row.up + t.up), down := wrap64 (row.down + t.down) }
  | none => row

/-- A batch that names the email "a" twice. -/
def batchTwice : List ClientDelta :=
  [{ email := "a", up := 1, down := 1 }, { email := "a", up := 2, down := 2 }]

/-- A batch with one entry for the email "a". -/
def batchOne : List ClientDelta := [{ email := "a", up := 1, down := 1 }]

/-- A batch whose only email has no Ledger row. -/
def batchGhost : List ClientDelta := [{ email := "ghost", up := 1, down := 1 }]

/-- A Ledger row that waits for its first use: expiry five days after the first traffic. -/
def sentinelRow : ClientTraffic :=
  { inboundId := 1, enable := true, email := "a", up := 0, down := 0,
    expiryTime := -432000000, total := 0, reset := 0 }

/-- The client object of `sentinelRow`, with the same sentinel. -/
def sentinelClient : List (String × Json) :=
  [("id", .str "u1"), ("email", .str "a"), ("enable", .bool true), ("totalGB", .num 0),
   ("expiryTime", .num (-432000000)), ("reset", .num 0)]

/-- The settings object of the inbound that owns `sentinelClient`. -/
def sentinelSettings : List (String × Json) := [("clients", .arr [.obj sentinelClient])]

/-- The inbound that owns `sentinelClient`. -/
def sentinelInbound : Inbound :=
  { id := 1, port := 443, protocol := "vless", tag := "inbound-443",
    settings := some (.obj sentinelSettings) }

/-- A store whose only client has not been used yet. -/
def storeSentinel : Store := { inbounds := [sentinelInbound], traffics := [sentinelRow] }

/-- The email that `addClientTraffic` reports online for a loaded row: that of the first
batch entry with the row's email, when the entry's `up + down` is positive. -/
def onlineOf (traffics : List ClientDelta) (row : ClientTraffic) : Option String :=
  match traffics.find? (fun t => row.email == t.email) with
  | some t => if wrap64 (t.up + t.down) > 0 then some t.email else none
  | none => none

/-- A tick on which the first statement of `autoRenewClients` fails. -/
def faultRenew : TickFaults := { renew := true }

/-- A tick on which `tx.Save(dbClientTraffics)` fails. -/
def faultClientSave : TickFaults := { clientSave := true }

/-- A tick on which the first statement of `disableInvalidInbounds` fails. -/
def faultDisableInbounds : TickFaults := { disableInbounds := true }

/-- An inbound-level delta for the stored inbound. -/
def inboundDelta : List Traffic := [{ isInbound := true, tag := "inbound-443", up := 5, down := 7 }]

/-! ## Removal of depleted clients -/

/-- Go `DelInbound`: the live removal is tried when the inbound is stored and enabled; the
Ledger rows of the inbound and the inbound itself are deleted. -/
def DelInbound (env : Env) (st : Store) (id : Int) : Outcome :=
  let calls : List ApiCall :=
    match st.inbounds.find? (fun ib => ib.id == id && ib.enable) with
    | some ib => [.delInbound ib.tag]
    | none => []
  { store :=
      { inbounds := st.inbounds.filter (fun ib => !(ib.id == id))
        traffics := st.traffics.filter (fun r => !(r.inboundId == id)) }
    calls := calls
    needRestart := calls.any (fun call => env.live call != .ok)
    err := none }

/-- The text `whereText` of `DelDepletedClients` as a predicate on Ledger rows:
`reset = 0 and inbound_id > id` for a negative `id`, `reset = 0 and inbound_id = id`
otherwise. -/
def depletedScope (id : Int) (r : ClientTraffic) : Bool :=
  r.reset == 0 && (if id < 0 then decide (r.inboundId > id) else r.inboundId == id)

/-- Go `strings.Split(s, ",")` on the characters of `s`. -/
def splitChars : List Char → List (List Char)
  | [] => [[]]
  | c :: rest =>
    if c = ',' then [] :: splitChars rest
    else
      match splitChars rest with
      | [] => [[c]]
      | w :: ws => (c :: w) :: ws

/-- Go `strings.Split(s, ",")`. -/
def splitComma (s : String) : List String :=
  (splitChars s.data).map String.mk

/-- A row of the grouped query of `DelDepletedClients`: an inbound id and the
`GROUP_CONCAT` of the emails of its selected rows. -/
structure DepletedGroup where
  inboundId : Int
  email : String
  deriving DecidableEq

/-- The query `Select("inbound_id, GROUP_CONCAT(email) as email").Group("inbound_id")` over the
selected rows: one group per inbound id, in ascending order of the id, the emails joined by
commas in table order. -/
def depletedGroups (rows : List ClientTraffic) : List DepletedGroup :=
  (((rows.map (fun r => r.inboundId)).dedup).insertionSort (fun a b => a ≤ b)).map
    (fun i =>
      { inboundId := i
        email := String.intercalate ","
          ((rows.filter (fun r => r.inboundId == i)).map (fun r => r.email)) })

/-- The inner loop of `DelDepletedClients` over `emails` for one client object `c`: whether
the client is depleted; `none` when `c["email"].(string)` panics. -/
def isDepleted (c : List (String × Json)) : List String → Option Bool
  | [] => some false
  | email :: rest =>
    match lookupKey "email" c with
    | some (.str e) => if email = e then some true else isDepleted c rest
    | _ => none

/-- The loop of `DelDepletedClients` over `oldClients`, answering `newClients`; `none` when a
type assertion panics. -/
def keepClients (emails : List String) : List Json → List Json → Option (List Json)
  | newClients, [] => some newClients
  | newClients, client :: rest =>
    match client with
    | .obj c =>
      match isDepleted c emails with
      | none => none
      | some deplete =>
        keepClients emails (if deplete then newClients else newClients ++ [client]) rest
    | _ => none

/-- What the loop of `DelDepletedClients` carries: the store as the handle `db` sees it, the
store as the transaction `tx` sees it, and the live calls sent so far. -/
structure DepletedState where
  db : Store
  tx : Store
  calls : List ApiCall

/-- The loop of `DelDepletedClients` over the groups; the second component is the error that
ends it (`Err.panic` for a panic).  `GetInbound` and `DelInbound` work on the handle `db`,
outside the transaction, the save of the inbound inside it. -/
def depletedLoop (env : Env) : DepletedState → List DepletedGroup → DepletedState × Option Err
  | s, [] => (s, none)
  | s, depletedClient :: rest =>
    let emails := splitComma depletedClient.email
    match GetInbound s.db depletedClient.inboundId with
    | none => (s, some .recordNotFound)
    | some oldInbound =>
      match unmarshalMap oldInbound.settings with
      | .error e => (s, some e)
      | .ok none => (s, some .panic)
      | .ok (some oldSettings) =>
        match clientsArr (some oldSettings) with
        | .error e => (s, some e)
        | .ok oldClients =>
          match keepClients emails [] oldClients with
          | none => (s, some .panic)
          | some newClients =>
            if newClients.length > 0 then
              depletedLoop env
                { s with
                  tx := { inbounds :=
                            saveInbound s.tx.inbounds (withClients oldInbound oldSettings newClients)
                          traffics := s.tx.traffics } }
                rest
            else
              depletedLoop env
                { db := (DelInbound env s.db depletedClient.inboundId).store
                  tx := (DelInbound env s.tx depletedClient.inboundId).store
                  calls := s.calls ++ (DelInbound env s.db depletedClient.inboundId).calls }
                rest

/-- Go `DelDepletedClients` at time `now` (epoch milliseconds).  A returned error rolls the
transaction back, which leaves what went through `db`; a panic reaches the deferred function
with `err == nil`, which commits. -/
def DelDepletedClients (env : Env) (st : Store) (id : Int) (now : Int) : Outcome :=
  let thirtyDaysAgo := wrap64 (now - 30 * 24 * 60 * 60 * 1000)
  let depletedClients := depletedGroups
    (st.traffics.filter (fun r =>
      depletedScope id r && !r.enable && decide (r.expiryTime < thirtyDaysAgo)))
  match depletedLoop env { db := st, tx := st, calls := [] } depletedClients with
  | (s, some .panic) =>
    { store := s.tx, calls := s.calls, needRestart := false, err := some .panic }
  | (s, some e) =>
    { store := s.db, calls := s.calls, needRestart := false, err := some e }
  | (s, none) =>
    { store :=
        { inbounds := s.tx.inbounds
          traffics := s.tx.traffics.filter (fun r => !(depletedScope id r && !r.enable)) }
      calls := s.calls, needRestart := false, err := none }

/-- A store with two clients in one inbound; the row of "a" was disabled and its expiry time
passed one day before `tickNow`. -/
def storeDisabledRecent : Store :=
  { inbounds :=
      [{ id := 1, port := 443, protocol := "vless", tag := "inbound-443",
         settings := some (.obj [("clients", .arr
           [.obj [("id", .str "u1"), ("email", .str "a"), ("enable", .bool true),
              ("totalGB", .num 0), ("expiryTime", .num (1700000000000 - 86400000)),
              ("reset", .num 0)],
            .obj [("id", .str "u2"), ("email", .str "b"), ("enable", .bool true),
              ("totalGB", .num 0), ("expiryTime", .num 0), ("reset", .num 0)]])]) }]
    traffics :=
      [{ inboundId := 1, enable := false, email := "a", up := 10, down := 20,
         expiryTime := 1700000000000 - 86400000, total := 0, reset := 0 },
       { inboundId := 1, enable := true, email := "b", up := 0, down := 0, expiryTime := 0,
         total := 0, reset := 0 }] }

/-- The same store with the expiry time of "a" passed thirty-one days before `tickNow`. -/
def storeDisabledOld : Store :=
  { inbounds :=
      [{ id := 1, port := 443, protocol := "vless", tag := "inbound-443",
         settings := some (.obj [("clients", .arr
           [.obj [("id", .str "u1"), ("email", .str "a"), ("enable", .bool true),
              ("totalGB", .num 0), ("expiryTime", .num (1700000000000 - 31 * 86400000)),
              ("reset", .num 0)],
            .obj [("id", .str "u2"), ("email", .str "b"), ("enable", .bool true),
              ("totalGB", .num 0), ("expiryTime", .num 0), ("reset", .num 0)]])]) }]
    traffics :=
      [{ inboundId := 1, enable := false, email := "a", up := 10, down := 20,
         expiryTime := 1700000000000 - 31 * 86400000, total := 0, reset := 0 },
       { inboundId := 1, enable := true, email := "b", up := 0, down := 0, expiryTime := 0,
         total := 0, reset := 0 }] }

/-- A store whose only client carries no `id` key. -/
def storeNoId : Store :=
  { inbounds :=
      [{ id := 1, port := 443, protocol := "vless", tag := "inbound-443",
         settings := some (.obj [("clients", .arr [.obj [("email", .str "a"),
           ("enable", .bool true)]])]) }]
    traffics :=
      [{ inboundId := 1, enable := true, email := "a", up := 0, down := 0, expiryTime := 0,
         total := 0, reset := 0 }] }

/-- A request that replaces the settings of the stored inbound by a client without `id`. -/
def requestNoId : Inbound :=
  { id := 1, port := 443, protocol := "vless", tag := "inbound-443",
    settings := some (.obj [("clients", .arr [.obj [("email", .str "a"),
      ("enable", .bool true)]])]) }

/-- A batch with traffic for the stored email "a" and for an email without a Ledger row. -/
def batchMixed : List ClientDelta :=
  [{ email := "a", up := 1, down := 1 }, { email := "ghost", up := 1, down := 1 }]

/-! # Proofs -/

/-! ## Port collision -/

theorem isAnyAddr_iff (listen : String) :
    isAnyAddr listen = true ↔
      listen = "" ∨ listen = "0.0.0.0" ∨ listen = "::" ∨ listen = "::0" := by
  simp [isAnyAddr, or_assoc]

theorem filter_length_pos {α : Type} (p : α → Bool) (l : List α) :
    decide ((l.filter p).length > 0) = true ↔ ∃ a ∈ l, p a = true := by
  simp [List.length_pos, List.filter_eq_nil_iff]

theorem checkPortExist_iff (st : Store) (listen : String) (port ignoreId : Int) :
    checkPortExist st listen port ignoreId = true ↔
      ∃ a ∈ st.inbounds, collides a listen port ∧ (0 < ignoreId → a.id ≠ ignoreId) := by
  unfold checkPortExist
  simp only [filter_length_pos]
  apply exists_congr
  intro a
  apply and_congr_right
  intro _
  unfold collides
  rw [isAnyAddr_iff, isAnyAddr_iff]
  by_cases hl : listen = "" ∨ listen = "0.0.0.0" ∨ listen = "::" ∨ listen = "::0"
  · have hl' : (listen == "" || listen == "0.0.0.0" || listen == "::" || listen == "::0")
        = true := by simpa [or_assoc] using hl
    by_cases hi : 0 < ignoreId
    · simp only [hl', hi, if_true, gt_iff_lt, Bool.and_eq_true, beq_iff_eq, bne_iff_ne, ne_eq]
      tauto
    · simp only [hl', hi, if_true, if_false, gt_iff_lt, beq_iff_eq]
      tauto
  · have hl' : (listen == "" || listen == "0.0.0.0" || listen == "::" || listen == "::0")
        = false := by
      simpa [or_assoc, and_assoc] using hl
    by_cases hi : 0 < ignoreId
    · simp only [hl', hi, if_true, gt_iff_lt, Bool.and_eq_true, Bool.or_eq_true, beq_iff_eq,
        bne_iff_ne, ne_eq, Bool.false_eq_true, if_false]
      tauto
    · simp only [hl', hi, if_false, gt_iff_lt, Bool.and_eq_true, Bool.or_eq_true,
        beq_iff_eq, Bool.false_eq_true]
      tauto

/-! ## Which errors the helpers can return -/

theorem GetClients_error {ib : Inbound} {e : Err} (h : GetClients ib = .error e) :
    e = .settingIsNull := by
  unfold GetClients at h
  split at h
  · cases h; rfl
  · split at h <;> cases h
  · cases h

theorem mapE_error {α β : Type} {f : α → Except Err β} {l : List α} {e : Err}
    (h : mapE f l = .error e) : ∃ a ∈ l, f a = .error e := by
  induction l with
  | nil => cases h
  | cons a rest ih =>
    unfold mapE at h
    split at h
    · rename_i e' he
      cases h
      exact ⟨a, List.mem_cons_self _ _, he⟩
    · split at h
      · rename_i e' he
        cases h
        obtain ⟨x, hx, hfx⟩ := ih he
        exact ⟨x, List.mem_cons_of_mem _ hx, hfx⟩
      · cases h

theorem sqlEmail_error {env : Env} {j : Json} {e : Err} (h : sqlEmail env j = .error e) :
    e = .sqlError := by
  unfold sqlEmail at h
  split at h
  · split at h <;> cases h
  · cases h; rfl

theorem sqlClients_error {b : Option Json} {e : Err} (h : sqlClients b = .error e) :
    e = .sqlError := by
  unfold sqlClients at h
  split at h
  · cases h; rfl
  · split at h <;> first | cases h; rfl | cases h
  · cases h

theorem sqlEmailColumn_error {env : Env} {st : Store} {e : Err}
    (h : sqlEmailColumn env st = .error e) : e = .sqlError := by
  unfold sqlEmailColumn at h
  split at h
  · rename_i e' he
    cases h
    obtain ⟨ib, _, hib⟩ := mapE_error he
    split at hib
    · rename_i e'' hs
      cases hib
      exact sqlClients_error hs
    · obtain ⟨j, _, hj⟩ := mapE_error hib
      exact sqlEmail_error hj
  · cases h

theorem getAllEmails_error {env : Env} {st : Store} {e : Err}
    (h : getAllEmails env st = .error e) : e = .sqlError := by
  unfold getAllEmails at h
  split at h
  · rename_i e' he
    cases h
    exact sqlEmailColumn_error he
  · obtain ⟨v, _, hv⟩ := mapE_error h
    split at hv
    · cases hv
    · cases hv; rfl

theorem checkEmailsExistForClients_error {env : Env} {st : Store} {cs : List Client} {e : Err}
    (h : checkEmailsExistForClients env st cs = .error e) : e = .sqlError := by
  unfold checkEmailsExistForClients at h
  split at h
  · rename_i e' he
    cases h
    exact getAllEmails_error he
  · cases h

theorem checkEmailExistForInbound_error {env : Env} {st : Store} {ib : Inbound} {e : Err}
    (h : checkEmailExistForInbound env st ib = .error e) :
    e = .sqlError ∨ e = .settingIsNull := by
  unfold checkEmailExistForInbound at h
  split at h
  · rename_i e' he
    cases h
    exact Or.inr (GetClients_error he)
  · split at h
    · rename_i e' he
      cases h
      exact Or.inl (getAllEmails_error he)
    · cases h

theorem AddClientStat_error {tr : List ClientTraffic} {i : Int} {c : Client} {e : Err}
    (h : AddClientStat tr i c = .error e) : e = .uniqueViolation := by
  unfold AddClientStat at h
  split at h
  · cases h; rfl
  · cases h

theorem addNewStats_error {i : Int} {olds : List Client} {news : List Client}
    {tr : List ClientTraffic} {e : Err} (h : addNewStats i olds tr news = .error e) :
    e = .uniqueViolation := by
  induction news generalizing tr with
  | nil => cases h
  | cons c rest ih =>
    unfold addNewStats at h
    split at h
    · exact ih h
    · split at h
      · rename_i e' he
        cases h
        exact AddClientStat_error he
      · exact ih h

theorem updateClientTraffics_error {tr : List ClientTraffic} {o n : Inbound} {e : Err}
    (h : updateClientTraffics tr o n = .error e) :
    e = .uniqueViolation ∨ e = .settingIsNull := by
  unfold updateClientTraffics at h
  split at h
  · rename_i e' he
    cases h
    exact Or.inr (GetClients_error he)
  · split at h
    · rename_i e' he
      cases h
      exact Or.inr (GetClients_error he)
    · exact Or.inl (addNewStats_error h)

theorem AddInbound_portExists_iff (env : Env) (st : Store) (b : Inbound) :
    (AddInbound env st b).err = some (.portExists b.port) ↔
      checkPortExist st b.listen b.port 0 = true := by
  unfold AddInbound
  by_cases hc : checkPortExist st b.listen b.port 0 = true
  · simp [hc, Outcome.fail]
  · simp only [hc, Bool.false_eq_true, if_false, iff_false]
    split
    · rename_i e he
      rcases checkEmailExistForInbound_error he with h | h <;> simp [Outcome.fail, h]
    · split
      · simp [Outcome.fail]
      · split
        · rename_i e he
          simp [Outcome.fail, GetClients_error he]
        · split
          · simp [Outcome.fail]
          · split <;> simp [Outcome.fail]

theorem UpdateInbound_portExists_iff (env : Env) (st : Store) (b : Inbound) :
    (UpdateInbound env st b).err = some (.portExists b.port) ↔
      checkPortExist st b.listen b.port b.id = true := by
  unfold UpdateInbound
  by_cases hc : checkPortExist st b.listen b.port b.id = true
  · simp [hc, Outcome.fail]
  · simp only [hc, Bool.false_eq_true, if_false, iff_false]
    split
    · simp [Outcome.fail]
    · split
      · rename_i e he
        rcases updateClientTraffics_error he with h | h <;> simp [Outcome.fail, h]
      · simp

/-- C1: `checkPortExist` answers true exactly when a stored inbound (other than the one named
by a positive `ignoreId`) has the same port and an equal or wildcard listen on either side;
`AddInbound` (ignoreId 0) and `UpdateInbound` (ignoreId = own id) return the port error exactly
then. -/
theorem port_conflict_iff (env : Env) (st : Store) (b : Inbound) :
    (∀ listen port ignoreId, checkPortExist st listen port ignoreId = true ↔
      ∃ a ∈ st.inbounds, a.port = port ∧
        (a.listen = listen ∨ isAnyAddr a.listen = true ∨ isAnyAddr listen = true) ∧
        (0 < ignoreId → a.id ≠ ignoreId)) ∧
    ((AddInbound env st b).err = some (.portExists b.port) ↔
      ∃ a ∈ st.inbounds, a.port = b.port ∧
        (a.listen = b.listen ∨ isAnyAddr a.listen = true ∨ isAnyAddr b.listen = true)) ∧
    ((UpdateInbound env st b).err = some (.portExists b.port) ↔
      ∃ a ∈ st.inbounds, a.port = b.port ∧
        (a.listen = b.listen ∨ isAnyAddr a.listen = true ∨ isAnyAddr b.listen = true) ∧
        (0 < b.id → a.id ≠ b.id)) := by
  refine ⟨?_, ?_, ?_⟩
  · intro listen port ignoreId
    rw [checkPortExist_iff]
    simp only [collides, and_assoc]
  · rw [AddInbound_portExists_iff, checkPortExist_iff]
    simp [collides]
  · rw [UpdateInbound_portExists_iff, checkPortExist_iff]
    simp only [collides, and_assoc]

/-! ## Duplicate-email check -/

theorem contains_iff (env : Env) (slice : List String) (str : String) :
    contains env slice str = true ↔ env.toLower str ∈ slice.map env.toLower := by
  unfold contains
  rw [List.any_eq_true, List.mem_map]
  constructor
  · rintro ⟨x, hx, h⟩
    exact ⟨x, hx, by simpa using h⟩
  · rintro ⟨x, hx, h⟩
    exact ⟨x, hx, by simpa using h⟩

theorem nonEmptyEmails_cons (c : Client) (rest : List Client) :
    nonEmptyEmails (c :: rest) =
      if c.email = "" then nonEmptyEmails rest else c.email :: nonEmptyEmails rest := by
  unfold nonEmptyEmails
  by_cases h : c.email = "" <;> simp [List.filter_cons, h]

theorem nonEmptyEmails_append (l₁ l₂ : List Client) :
    nonEmptyEmails (l₁ ++ l₂) = nonEmptyEmails l₁ ++ nonEmptyEmails l₂ := by
  simp [nonEmptyEmails]

theorem mem_nonEmptyEmails {e : String} {clients : List Client} :
    e ∈ nonEmptyEmails clients ↔ e ≠ "" ∧ ∃ c ∈ clients, c.email = e := by
  unfold nonEmptyEmails
  simp only [List.mem_filter, List.mem_map, decide_eq_true_eq]
  tauto

theorem checkEmailsLoop_nil (env : Env) (all emails : List String) :
    checkEmailsLoop env all emails [] = "" := by
  rw [checkEmailsLoop]

theorem checkEmailsLoop_cons (env : Env) (all emails : List String) (c : Client)
    (rest : List Client) :
    checkEmailsLoop env all emails (c :: rest) =
      if c.email ≠ "" then
        if contains env emails c.email then c.email
        else if contains env all c.email then c.email
        else checkEmailsLoop env all (emails ++ [c.email]) rest
      else checkEmailsLoop env all emails rest := by
  rw [checkEmailsLoop]

/-- The loop finds nothing exactly when no non-empty email of the list matches, up to
lower-casing, an email collected before, a persisted email or another email of the list. -/
theorem checkEmailsLoop_eq_empty_iff (env : Env) (all : List String) (clients : List Client) :
    ∀ emails : List String, checkEmailsLoop env all emails clients = "" ↔
      (∀ e ∈ nonEmptyEmails clients,
        env.toLower e ∉ emails.map env.toLower ∧ env.toLower e ∉ all.map env.toLower) ∧
      ((nonEmptyEmails clients).map env.toLower).Nodup := by
  induction clients with
  | nil => intro emails; simp [checkEmailsLoop_nil, nonEmptyEmails]
  | cons c rest ih =>
    intro emails
    rw [nonEmptyEmails_cons, checkEmailsLoop_cons]
    by_cases hc : c.email = ""
    · rw [if_neg (by simpa using hc), if_pos hc]
      exact ih emails
    · rw [if_pos hc, if_neg hc]
      by_cases h1 : contains env emails c.email = true
      · rw [if_pos h1]
        rw [contains_iff] at h1
        constructor
        · intro h; exact absurd h hc
        · intro h
          exact absurd h1 (h.1 c.email (List.mem_cons_self _ _)).1
      · rw [if_neg h1]
        by_cases h2 : contains env all c.email = true
        · rw [if_pos h2]
          rw [contains_iff] at h2
          constructor
          · intro h; exact absurd h hc
          · intro h
            exact absurd h2 (h.1 c.email (List.mem_cons_self _ _)).2
        · rw [if_neg h2, ih (emails ++ [c.email])]
          rw [contains_iff] at h1 h2
          have key : ∀ e, env.toLower e ∈ (emails ++ [c.email]).map env.toLower ↔
              env.toLower e ∈ emails.map env.toLower ∨ env.toLower e = env.toLower c.email := by
            intro e
            rw [List.map_append, List.mem_append, List.map_singleton, List.mem_singleton]
          constructor
          · rintro ⟨h, hn⟩
            refine ⟨?_, ?_⟩
            · intro e he
              rcases List.mem_cons.1 he with rfl | he
              · exact ⟨h1, h2⟩
              · have := h e he
                exact ⟨fun hm => this.1 ((key e).2 (Or.inl hm)), this.2⟩
            · rw [List.map_cons, List.nodup_cons]
              refine ⟨?_, hn⟩
              intro hm
              obtain ⟨e, he, heq⟩ := List.mem_map.1 hm
              exact (h e he).1 ((key e).2 (Or.inr heq))
          · rintro ⟨h, hn⟩
            rw [List.map_cons, List.nodup_cons] at hn
            refine ⟨?_, hn.2⟩
            intro e he
            have := h e (List.mem_cons_of_mem _ he)
            refine ⟨fun hm => ?_, this.2⟩
            rcases (key e).1 hm with hm | hm
            · exact this.1 hm
            · exact hn.1 (List.mem_map.2 ⟨e, he, hm⟩)

/-- A non-empty answer is the email of the first client at which the check fails. -/
theorem checkEmailsLoop_first (env : Env) (all : List String) (clients : List Client) :
    ∀ emails : List String, checkEmailsLoop env all emails clients ≠ "" →
      ∃ pre c post, clients = pre ++ c :: post ∧
        checkEmailsLoop env all emails clients = c.email ∧ c.email ≠ "" ∧
        (env.toLower c.email ∈ (emails ++ nonEmptyEmails pre).map env.toLower ∨
          env.toLower c.email ∈ all.map env.toLower) ∧
        checkEmailsLoop env all emails pre = "" := by
  induction clients with
  | nil => intro emails h; exact absurd (checkEmailsLoop_nil env all emails) h
  | cons c rest ih =>
    intro emails h
    rw [checkEmailsLoop_cons] at h ⊢
    by_cases hc : c.email = ""
    · rw [if_neg (by simpa using hc)] at h ⊢
      obtain ⟨pre, d, post, hsplit, hr, hd, hcol, hpre⟩ := ih emails h
      refine ⟨c :: pre, d, post, by rw [hsplit]; rfl, hr, hd, ?_, ?_⟩
      · rw [nonEmptyEmails_cons, if_pos hc]; exact hcol
      · rw [checkEmailsLoop_cons, if_neg (by simpa using hc)]; exact hpre
    · rw [if_pos hc] at h ⊢
      by_cases h1 : contains env emails c.email = true
      · rw [if_pos h1]
        refine ⟨[], c, rest, rfl, rfl, hc, ?_, checkEmailsLoop_nil _ _ _⟩
        rw [contains_iff] at h1
        left
        simpa [nonEmptyEmails] using h1
      · rw [if_neg h1] at h ⊢
        by_cases h2 : contains env all c.email = true
        · rw [if_pos h2]
          refine ⟨[], c, rest, rfl, rfl, hc, ?_, checkEmailsLoop_nil _ _ _⟩
          rw [contains_iff] at h2
          exact Or.inr h2
        · rw [if_neg h2] at h ⊢
          obtain ⟨pre, d, post, hsplit, hr, hd, hcol, hpre⟩ := ih (emails ++ [c.email]) h
          refine ⟨c :: pre, d, post, by rw [hsplit]; rfl, hr, hd, ?_, ?_⟩
          · rw [nonEmptyEmails_cons, if_neg hc]
            simpa using hcol
          · rw [checkEmailsLoop_cons, if_pos hc, if_neg h1, if_neg h2]; exact hpre

theorem GetClients_ok_nonempty {ib : Inbound} {cs : List Client}
    (h : GetClients ib = .ok cs) (hne : cs ≠ []) :
    ∃ kvs xs, ib.settings = some (.obj kvs) ∧ lookupKey "clients" kvs = some (.arr xs) ∧
      cs = xs.map decodeClient := by
  unfold GetClients at h
  split at h
  · cases h
  · rename_i kvs hs
    split at h
    · rename_i xs hx
      cases h
      exact ⟨kvs, xs, hs, hx, rfl⟩
    · cases h; exact absurd rfl hne
  · cases h; exact absurd rfl hne

/-- C8 as stated fails: two clients whose emails differ only by case share no email and
nothing is persisted, yet the check answers with an email. -/
theorem duplicate_email_exact_counterexample :
    getAllEmails env0 { inbounds := [], traffics := [] } = .ok [] ∧
    checkEmailsExistForClients env0 { inbounds := [], traffics := [] }
      [clientUpper, clientLower] = .ok "a" ∧
    (nonEmptyEmails [clientUpper, clientLower]).Nodup ∧
    ¬ ∃ e ∈ nonEmptyEmails [clientUpper, clientLower], e ∈ ([] : List String) := by
  refine ⟨rfl, rfl, by decide, by decide⟩

/-- C8 (amended): with emails compared up to `strings.ToLower`, the check answers with a
non-empty email exactly when two non-empty emails of the list agree or a non-empty email of
the list agrees with a persisted one; the answer is the email of the first client, in list
order, that agrees with an earlier client or a persisted email; clients without email never
count; and a non-empty answer makes `AddInbound` and `AddInboundClient` fail with the
duplicate-email error. -/
theorem duplicate_email_check (env : Env) (st : Store) (all : List String)
    (clients : List Client) (hall : getAllEmails env st = .ok all) :
    ∃ r, checkEmailsExistForClients env st clients = .ok r ∧
      (∀ ib, GetClients ib = .ok clients → checkEmailExistForInbound env st ib = .ok r) ∧
      (r ≠ "" ↔ (¬ ((nonEmptyEmails clients).map env.toLower).Nodup ∨
        ∃ e ∈ nonEmptyEmails clients, env.toLower e ∈ all.map env.toLower)) ∧
      (r ≠ "" → ∃ pre c post, clients = pre ++ c :: post ∧ r = c.email ∧ c.email ≠ "" ∧
        (env.toLower c.email ∈ (nonEmptyEmails pre).map env.toLower ∨
          env.toLower c.email ∈ all.map env.toLower) ∧
        ((nonEmptyEmails pre).map env.toLower).Nodup ∧
        ∀ e ∈ nonEmptyEmails pre, env.toLower e ∉ all.map env.toLower) ∧
      (r ≠ "" → ∀ ib, GetClients ib = .ok clients →
        (checkPortExist st ib.listen ib.port 0 = false →
          (AddInbound env st ib).err = some (.duplicateEmail r)) ∧
        (AddInboundClient env st ib).err = some (.duplicateEmail r)) := by
  refine ⟨checkEmailsLoop env all [] clients, ?_, ?_, ?_, ?_, ?_⟩
  · simp [checkEmailsExistForClients, hall]
  · intro ib hib
    simp [checkEmailExistForInbound, hib, hall]
  · rw [ne_eq, checkEmailsLoop_eq_empty_iff]
    simp only [List.map_nil, List.not_mem_nil, not_false_eq_true, true_and]
    constructor
    · intro h
      by_contra hcon
      rw [not_or] at hcon
      apply h
      refine ⟨fun e he hm => hcon.2 ⟨e, he, hm⟩, not_not.1 hcon.1⟩
    · rintro (h | ⟨e, he, hm⟩) hcon
      · exact h hcon.2
      · exact hcon.1 e he hm
  · intro hr
    obtain ⟨pre, c, post, hsplit, hrc, hc, hcol, hpre⟩ := checkEmailsLoop_first env all clients [] hr
    rw [checkEmailsLoop_eq_empty_iff] at hpre
    refine ⟨pre, c, post, hsplit, hrc, hc, by simpa using hcol, hpre.2, fun e he => (hpre.1 e he).2⟩
  · intro hr ib hib
    have hne : clients ≠ [] := by
      rintro rfl
      exact hr (checkEmailsLoop_nil env all [])
    obtain ⟨kvs, xs, hs, hx, _⟩ := GetClients_ok_nonempty hib hne
    constructor
    · intro hport
      simp [AddInbound, hport, checkEmailExistForInbound, hib, hall, hr, Outcome.fail]
    · simp [AddInboundClient, hib, hs, unmarshalMap, clientsArr, hx, checkEmailsExistForClients,
        hall, hr, Outcome.fail]

theorem duplicate_email_check_witness :
    ∃ r, checkEmailsExistForClients env0 storeOneClient [clientUpper] = .ok r ∧ r ≠ "" := by
  obtain ⟨r, h1, _, h3, _⟩ := duplicate_email_check env0 storeOneClient ["a"] [clientUpper] rfl
  exact ⟨r, h1, h3.2 (Or.inr ⟨"A", by decide, by decide⟩)⟩

/-! ## Deletion guard -/

theorem strField_eq_of_ne {kvs : List (String × Json)} {k s : String}
    (h : strField kvs k = s) (hne : s ≠ "") : lookupKey k kvs = some (.str s) := by
  unfold strField at h
  split at h
  · rename_i s' hs
    rw [hs, h]
  · exact absurd h.symm hne

theorem clientKey_decode_obj (protocol : String) (c : List (String × Json)) :
    clientKey protocol (decodeClient (.obj c)) = strField c (clientKeyName protocol) := by
  unfold clientKey clientKeyName decodeClient
  by_cases h1 : protocol = "trojan"
  · subst h1
    simp
  · by_cases h2 : protocol = "shadowsocks"
    · subst h2
      simp
    · simp [h1, h2]

theorem clientKey_decode_ne {protocol : String} {x : Json}
    (hne : clientKey protocol (decodeClient x) ≠ "") :
    ∃ c, x = .obj c ∧
      lookupKey (clientKeyName protocol) c = some (.str (clientKey protocol (decodeClient x))) := by
  cases x with
  | obj c =>
    refine ⟨c, rfl, ?_⟩
    rw [clientKey_decode_obj] at hne ⊢
    exact strField_eq_of_ne rfl hne
  | _ =>
    exfalso
    apply hne
    unfold clientKey decodeClient
    split_ifs <;> rfl

/-! ## Atomicity of failures -/

theorem AddInbound_fail_frame (env : Env) (st : Store) (ib : Inbound) :
    (AddInbound env st ib).err = none ∨
      ((AddInbound env st ib).store = st ∧ (AddInbound env st ib).calls = []) := by
  unfold AddInbound
  iterate 3 (all_goals (try (repeat' split)); all_goals (try simp [Outcome.fail]))

theorem UpdateInbound_fail_frame (env : Env) (st : Store) (ib : Inbound) :
    (UpdateInbound env st ib).err = none ∨
      ((UpdateInbound env st ib).store = st ∧ (UpdateInbound env st ib).calls = []) := by
  unfold UpdateInbound
  iterate 3 (all_goals (try (repeat' split)); all_goals (try simp [Outcome.fail]))

theorem AddInboundClient_fail_frame (env : Env) (st : Store) (data : Inbound) :
    (AddInboundClient env st data).err = none ∨
      (AddInboundClient env st data).err = some .panic ∨
      ((AddInboundClient env st data).store = st ∧ (AddInboundClient env st data).calls = []) := by
  unfold AddInboundClient
  iterate 3 (all_goals (try (repeat' split)); all_goals (try simp [Outcome.fail]))

theorem DelInboundClient_fail_frame (env : Env) (st : Store) (inboundId : Int)
    (clientId : String) :
    (DelInboundClient env st inboundId clientId).err = none ∨
      ((DelInboundClient env st inboundId clientId).store = st ∧
        (DelInboundClient env st inboundId clientId).calls = []) := by
  unfold DelInboundClient
  iterate 3 (all_goals (try (repeat' split)); all_goals (try simp [Outcome.fail]))

theorem UpdateInboundClient_fail_frame (env : Env) (st : Store) (data : Inbound)
    (clientId : String) :
    (UpdateInboundClient env st data clientId).err = none ∨
      (UpdateInboundClient env st data clientId).err = some .panic ∨
      ((UpdateInboundClient env st data clientId).store = st ∧
        (UpdateInboundClient env st data clientId).calls = []) := by
  unfold UpdateInboundClient
  iterate 3 (all_goals (try (repeat' split)); all_goals (try simp [Outcome.fail]))

/-- C10: when one of the five mutation calls returns a validation error, the persisted
inbounds and Ledger rows are those from before the call and no live call was issued. -/
theorem validation_failure_atomic (env : Env) (st : Store) (ib : Inbound) (inboundId : Int)
    (clientId : String) (e : Err) (he : e.isValidation = true) :
    ((AddInbound env st ib).err = some e →
      (AddInbound env st ib).store = st ∧ (AddInbound env st ib).calls = []) ∧
    ((UpdateInbound env st ib).err = some e →
      (UpdateInbound env st ib).store = st ∧ (UpdateInbound env st ib).calls = []) ∧
    ((AddInboundClient env st ib).err = some e →
      (AddInboundClient env st ib).store = st ∧ (AddInboundClient env st ib).calls = []) ∧
    ((UpdateInboundClient env st ib clientId).err = some e →
      (UpdateInboundClient env st ib clientId).store = st ∧
        (UpdateInboundClient env st ib clientId).calls = []) ∧
    ((DelInboundClient env st inboundId clientId).err = some e →
      (DelInboundClient env st inboundId clientId).store = st ∧
        (DelInboundClient env st inboundId clientId).calls = []) := by
  have hp : e ≠ .panic := by
    rintro rfl
    simp [Err.isValidation] at he
  refine ⟨?_, ?_, ?_, ?_, ?_⟩
  · intro h
    rcases AddInbound_fail_frame env st ib with h' | h'
    · rw [h] at h'; cases h'
    · exact h'
  · intro h
    rcases UpdateInbound_fail_frame env st ib with h' | h'
    · rw [h] at h'; cases h'
    · exact h'
  · intro h
    rcases AddInboundClient_fail_frame env st ib with h' | h' | h'
    · rw [h] at h'; cases h'
    · rw [h] at h'; cases h'; exact absurd rfl hp
    · exact h'
  · intro h
    rcases UpdateInboundClient_fail_frame env st ib clientId with h' | h' | h'
    · rw [h] at h'; cases h'
    · rw [h] at h'; cases h'; exact absurd rfl hp
    · exact h'
  · intro h
    rcases DelInboundClient_fail_frame env st inboundId clientId with h' | h'
    · rw [h] at h'; cases h'
    · exact h'

theorem validation_failure_atomic_witness :
    (AddInbound env0 storeOneClient inboundSamePort).err = some (.portExists 443) ∧
    (AddInbound env0 storeOneClient inboundSamePort).store = storeOneClient ∧
    (AddInbound env0 storeOneClient inboundSamePort).calls = [] :=
  ⟨by decide,
    (validation_failure_atomic env0 storeOneClient inboundSamePort 1 "u1" (.portExists 443)
      rfl).1 (by decide)⟩

/-! ## Reading back a saved inbound -/

theorem lookupKey_setKey (k : String) (v : Json) (kvs : List (String × Json)) :
    lookupKey k (setKey k v kvs) = some v := by
  induction kvs with
  | nil => simp [setKey, lookupKey]
  | cons kv rest ih =>
    obtain ⟨k', v'⟩ := kv
    by_cases h : k' = k
    · simp [setKey, lookupKey, h]
    · simp [setKey, lookupKey, h, ih]

theorem lookupKey_setKey_ne {k k' : String} (h : k' ≠ k) (v : Json)
    (kvs : List (String × Json)) :
    lookupKey k' (setKey k v kvs) = lookupKey k' kvs := by
  induction kvs with
  | nil => simp [setKey, lookupKey, Ne.symm h]
  | cons kv rest ih =>
    obtain ⟨k₁, v₁⟩ := kv
    by_cases h1 : k₁ = k
    · subst h1
      simp [setKey, lookupKey, Ne.symm h]
    · by_cases h2 : k₁ = k'
      · subst h2
        simp [setKey, lookupKey, h1]
      · simp [setKey, lookupKey, h1, h2, ih]

theorem GetInbound_id {st : Store} {id : Int} {ib : Inbound} (h : GetInbound st id = some ib) :
    ib.id = id := by
  unfold GetInbound at h
  have := List.find?_some h
  simpa using this

theorem GetInbound_mem {st : Store} {id : Int} {ib : Inbound} (h : GetInbound st id = some ib) :
    ib ∈ st.inbounds := by
  unfold GetInbound at h
  exact List.mem_of_find?_eq_some h

theorem find_saveInbound (inbounds : List Inbound) (old saved : Inbound)
    (hid : saved.id = old.id)
    (h : inbounds.find? (fun ib => ib.id == old.id) = some old) :
    (saveInbound inbounds saved).find? (fun ib => ib.id == old.id) = some saved := by
  induction inbounds with
  | nil => simp at h
  | cons x rest ih =>
    unfold saveInbound
    rw [List.map_cons, List.find?_cons]
    by_cases hx : x.id = old.id
    · simp [hid, hx]
    · rw [List.find?_cons] at h
      have hx' : (x.id == old.id) = false := by simpa using hx
      rw [hx'] at h
      rw [hid, if_neg hx, hx']
      have ih' := ih h
      unfold saveInbound at ih'
      rw [hid] at ih'
      exact ih'

theorem GetInbound_saveInbound {st : Store} {id : Int} {old saved : Inbound}
    (tr : List ClientTraffic) (h : GetInbound st id = some old) (hid : saved.id = old.id) :
    GetInbound { inbounds := saveInbound st.inbounds saved, traffics := tr } id = some saved := by
  have hold := GetInbound_id h
  subst hold
  unfold GetInbound at h ⊢
  exact find_saveInbound st.inbounds old saved hid h

theorem GetClients_setClients (ib : Inbound) (kvs : List (String × Json)) (l : List Json) :
    GetClients { ib with settings := some (.obj (setKey "clients" (.arr l) kvs)) } =
      .ok (l.map decodeClient) := by
  simp [GetClients, lookupKey_setKey]

theorem rawClients_setClients (ib : Inbound) (kvs : List (String × Json)) (l : List Json) :
    rawClients { ib with settings := some (.obj (setKey "clients" (.arr l) kvs)) } = .ok l := by
  simp [rawClients, unmarshalMap, clientsArr, lookupKey_setKey]

theorem rawClients_ok {ib : Inbound} {raw : List Json} (h : rawClients ib = .ok raw) :
    ∃ kvs, ib.settings = some (.obj kvs) ∧ lookupKey "clients" kvs = some (.arr raw) := by
  unfold rawClients at h
  split at h
  · cases h
  · rename_i m hm
    unfold clientsArr at h
    split at h
    · cases h
    · rename_i kvs
      split at h
      · rename_i xs hx
        cases h
        unfold unmarshalMap at hm
        split at hm
        · cases hm
        · cases hm
        · rename_i kvs' hs
          cases hm
          exact ⟨_, hs, hx⟩
        · cases hm
      · cases h

theorem GetClients_of_rawClients {ib : Inbound} {raw : List Json} (h : rawClients ib = .ok raw) :
    GetClients ib = .ok (raw.map decodeClient) := by
  obtain ⟨kvs, hs, hx⟩ := rawClients_ok h
  simp [GetClients, hs, hx]

/-! ## Replacement by position -/

theorem findClientIndex_none (p id : String) (cs : List Client) (k : Nat) :
    findClientIndex p id k cs = none ↔ ∀ c ∈ cs, clientKey p c ≠ id := by
  induction cs generalizing k with
  | nil => simp [findClientIndex]
  | cons c rest ih =>
    unfold findClientIndex
    by_cases h : id = clientKey p c
    · simp [h]
    · simp only [h, if_false, List.mem_cons, forall_eq_or_imp, ne_eq]
      rw [ih]
      constructor
      · intro hr; exact ⟨fun h' => h h'.symm, hr⟩
      · intro hr; exact hr.2

theorem findClientIndex_some {p id : String} (cs : List Client) (k i : Nat) (e : String)
    (h : findClientIndex p id k cs = some (i, e)) :
    k ≤ i ∧ i - k < cs.length ∧ (∀ c ∈ cs.take (i - k), clientKey p c ≠ id) ∧
      ∃ c, cs[i - k]? = some c ∧ clientKey p c = id ∧ c.email = e := by
  induction cs generalizing k with
  | nil => simp [findClientIndex] at h
  | cons c rest ih =>
    unfold findClientIndex at h
    by_cases hc : id = clientKey p c
    · simp only [hc, if_true, Option.some.injEq, Prod.mk.injEq] at h
      obtain ⟨rfl, rfl⟩ := h
      simp [hc]
    · simp only [hc, if_false] at h
      obtain ⟨h1, h2, h3, c', h4, h5, h6⟩ := ih (k + 1) h
      have hik : i - k = (i - (k + 1)) + 1 := by omega
      refine ⟨by omega, ?_, ?_, c', ?_, h5, h6⟩
      · rw [hik, List.length_cons]; omega
      · rw [hik, List.take_succ_cons]
        intro x hx
        rcases List.mem_cons.1 hx with rfl | hx
        · exact fun h' => hc h'.symm
        · exact h3 x hx
      · rw [hik, List.getElem?_cons_succ]
        exact h4

theorem UpdateInboundClient_ok_shape (env : Env) (st : Store) (data : Inbound)
    (clientId : String) (o : Outcome)
    (ho : UpdateInboundClient env st data clientId = o) (herr : o.err = none) :
    ∃ newClient rest m newEntry restE old oldClients idx oldEmail kvs raw tr,
      GetClients data = .ok (newClient :: rest) ∧
      unmarshalMap data.settings = .ok m ∧ clientsArr m = .ok (newEntry :: restE) ∧
      GetInbound st data.id = some old ∧ GetClients old = .ok oldClients ∧
      findClientIndex old.protocol clientId 0 oldClients = some (idx, oldEmail) ∧
      unmarshalMap old.settings = .ok (some kvs) ∧ clientsArr (some kvs) = .ok raw ∧
      ¬ raw.length ≤ idx ∧
      o.store = { inbounds := saveInbound st.inbounds (withClients old kvs (raw.set idx newEntry)),
                  traffics := tr } := by
  unfold UpdateInboundClient at ho
  iterate 3 (all_goals (try (repeat' split at ho)); all_goals (try dsimp only at ho))
  all_goals (try (subst ho; simp [Outcome.fail] at herr; done))
  all_goals (subst ho)
  all_goals (refine ⟨_, _, _, _, _, _, _, _, _, _, _, _, by assumption, by assumption,
    by assumption, by assumption, by assumption, by assumption, by assumption, by assumption,
    by assumption, rfl⟩)

theorem UpdateInboundClient_notfound (env : Env) (st : Store) (data : Inbound)
    (clientId : String) (old : Inbound) (oldClients : List Client)
    (hget : GetInbound st data.id = some old) (hold : GetClients old = .ok oldClients)
    (hnone : ∀ c ∈ oldClients, clientKey old.protocol c ≠ clientId) :
    ∃ e, UpdateInboundClient env st data clientId = Outcome.fail st e := by
  have hf := (findClientIndex_none old.protocol clientId oldClients 0).2 hnone
  unfold UpdateInboundClient
  simp only [hget, hold]
  split
  · exact ⟨_, rfl⟩
  · split
    · exact ⟨_, rfl⟩
    · split
      · exact ⟨_, rfl⟩
      · split
        · exact ⟨_, rfl⟩
        · exact ⟨_, rfl⟩
        · rename_i h1 h2
          rw [hf]
          exact ⟨_, rfl⟩

/-- C9: `UpdateInboundClient` finds the target by protocol identifier and replaces by
position.  When no client of the stored inbound has the target identifier the call fails, the
store is unchanged and no live call is sent.  When the call succeeds, the target index is that
of the first client with the target identifier, and the stored list (raw and decoded) has the
same length, holds the new client (the first client of the request) at that index and is
unchanged at every other index. -/
theorem update_client_by_position (env : Env) (st : Store) (data : Inbound)
    (clientId : String) (old : Inbound) (oldClients : List Client)
    (hget : GetInbound st data.id = some old) (hold : GetClients old = .ok oldClients) :
    ((∀ c ∈ oldClients, clientKey old.protocol c ≠ clientId) →
      (UpdateInboundClient env st data clientId).err ≠ none ∧
      (UpdateInboundClient env st data clientId).store = st ∧
      (UpdateInboundClient env st data clientId).calls = []) ∧
    ((UpdateInboundClient env st data clientId).err = none →
      ∃ idx newClient rest saved newList raw newEntry,
        GetClients data = .ok (newClient :: rest) ∧
        idx < oldClients.length ∧
        (∀ c ∈ oldClients.take idx, clientKey old.protocol c ≠ clientId) ∧
        (∃ c, oldClients[idx]? = some c ∧ clientKey old.protocol c = clientId) ∧
        GetInbound (UpdateInboundClient env st data clientId).store data.id = some saved ∧
        GetClients saved = .ok newList ∧
        newList.length = oldClients.length ∧
        newList[idx]? = some newClient ∧
        (∀ j, j ≠ idx → newList[j]? = oldClients[j]?) ∧
        rawClients old = .ok raw ∧
        rawClients saved = .ok (raw.set idx newEntry) ∧
        decodeClient newEntry = newClient) := by
  constructor
  · intro hnone
    obtain ⟨e, he⟩ := UpdateInboundClient_notfound env st data clientId old oldClients hget hold
      hnone
    rw [he]
    simp [Outcome.fail]
  · intro herr
    obtain ⟨newClient, rest, m, newEntry, restE, old', oldClients', idx, oldEmail, kvs, raw, tr,
      h1, h2, h3, h4, h5, h6, h7, h8, h9, h10⟩ :=
      UpdateInboundClient_ok_shape env st data clientId _ rfl herr
    rw [hget] at h4
    cases h4
    rw [hold] at h5
    cases h5
    have hraw : rawClients old = .ok raw := by
      unfold rawClients
      rw [h7]
      exact h8
    have hdec := GetClients_of_rawClients hraw
    rw [hold] at hdec
    cases hdec
    obtain ⟨_, hlt, hpre, c, hc1, hc2, _⟩ := findClientIndex_some _ _ _ _ h6
    simp only [Nat.sub_zero] at hlt hpre hc1
    have hnew : decodeClient newEntry = newClient := by
      obtain ⟨kvs', xs, hs, hx, hmap⟩ := GetClients_ok_nonempty h1 (by simp)
      rw [hs] at h2
      simp only [unmarshalMap] at h2
      cases h2
      simp only [clientsArr, hx] at h3
      cases h3
      simp only [List.map_cons, List.cons.injEq] at hmap
      exact hmap.1.symm
    refine ⟨idx, newClient, rest, withClients old kvs (raw.set idx newEntry),
      (raw.map decodeClient).set idx newClient, raw, newEntry, h1, hlt, hpre, ⟨c, hc1, hc2⟩,
      ?_, ?_, ?_, ?_, ?_, hraw, ?_, hnew⟩
    · rw [h10]
      exact GetInbound_saveInbound tr hget rfl
    · unfold withClients
      rw [GetClients_setClients, List.map_set, hnew]
    · simp
    · rw [List.getElem?_set_eq_of_lt]
      simpa using hlt
    · intro j hj
      rw [List.getElem?_set_ne (Ne.symm hj)]
    · unfold withClients
      rw [rawClients_setClients]

theorem update_client_by_position_witness :
    (UpdateInboundClient env0 storeOneClient requestReplace "zz").store = storeOneClient ∧
    ∃ saved newList,
      GetInbound (UpdateInboundClient env0 storeOneClient requestReplace "u1").store 1
        = some saved ∧
      GetClients saved = .ok newList ∧ newList.length = 1 := by
  refine ⟨((update_client_by_position env0 storeOneClient requestReplace "zz" _ _ rfl rfl).1
    (by decide)).2.1, ?_⟩
  obtain ⟨idx, nc, rest, saved, newList, raw, ne, h⟩ :=
    (update_client_by_position env0 storeOneClient requestReplace "u1" _ _ rfl rfl).2
      (by decide)
  exact ⟨saved, newList, h.2.2.2.2.1, h.2.2.2.2.2.1, h.2.2.2.2.2.2.1⟩

/-! ## Round trip through the settings blob -/

/-- C4 (failing input): a row with reset 1 that expires exactly at the time of the tick is
selected for renewal, the renewal loop does not run, and the invalidation pass of the same tick
disables the row: the tick ends with `expiryTime = now` and `enable = false`. -/
theorem renew_boundary_disabled :
    ∃ o, autoRenewClients env0 10 storeRenewBoundary tickNow = some o ∧ o.err = none ∧
      o.store.traffics = [{ inboundId := 1, enable := true, email := "a", up := 0, down := 0,
                            expiryTime := tickNow, total := 0, reset := 1 }] ∧
      (disableInvalidClients env0 o.store tickNow).store.traffics =
        [{ inboundId := 1, enable := false, email := "a", up := 0, down := 0,
           expiryTime := tickNow, total := 0, reset := 1 }] ∧
      (disableInvalidClients env0 o.store tickNow).calls = [.removeUser "inbound-443" "a"] :=
  ⟨_, rfl, rfl, by decide, by decide, by decide⟩

/-- The renewal example of the spec (reset 30 days, expired 5 days ago, disabled): the tick
ends 25 days ahead with zero counters, enabled, and one add-user call queued. -/
theorem renew_example_tick :
    ∃ o, autoRenewClients env0 10 storeRenewExample tickNow = some o ∧ o.err = none ∧
      o.calls = [.addUser "vless" "inbound-443" "a"] ∧
      (disableInvalidClients env0 o.store tickNow).store.traffics =
        [{ inboundId := 1, enable := true, email := "a", up := 0, down := 0,
           expiryTime := tickNow + 25 * 86400000, total := 0, reset := 30 }] ∧
      (disableInvalidClients env0 o.store tickNow).calls = [] :=
  ⟨_, rfl, rfl, by decide, by decide, by decide⟩

/-! ## Client invalidation -/

theorem invalidClient_iff (now : Int) (r : ClientTraffic) :
    invalidClient now r = true ↔
      r.enable = true ∧ ((r.total > 0 ∧ r.up + r.down ≥ r.total) ∨
        (r.expiryTime > 0 ∧ r.expiryTime ≤ now)) := by
  simp only [invalidClient, Bool.and_eq_true, Bool.or_eq_true, decide_eq_true_eq]
  tauto

theorem filter_id_of_nodup (l : List Inbound) (k : Int)
    (h : (l.map (fun ib => ib.id)).Nodup) :
    l.filter (fun ib => ib.id == k) = (l.find? (fun ib => ib.id == k)).toList := by
  induction l with
  | nil => rfl
  | cons x rest ih =>
    rw [List.map_cons, List.nodup_cons] at h
    by_cases hx : x.id = k
    · have hx' : (x.id == k) = true := by simpa using hx
      rw [List.filter_cons, List.find?_cons, hx']
      simp only [if_true, Option.toList_some, List.cons.injEq, true_and]
      rw [List.filter_eq_nil_iff]
      intro y hy hyk
      apply h.1
      rw [List.mem_map]
      exact ⟨y, hy, by rw [hx]; simpa using hyk⟩
    · have hx' : (x.id == k) = false := by simpa using hx
      rw [List.filter_cons, List.find?_cons, hx']
      simpa using ih h.2

theorem zip_map_self {α β : Type} (f : α → β) (l : List α) :
    List.zip l (l.map f) = l.map (fun x => (x, f x)) := by
  induction l with
  | nil => rfl
  | cons x rest ih => simp [ih]

/-- C5 as stated fails: a row over quota whose `inbound_id` names no stored inbound is switched
to disabled and counted, yet no remove-user call is issued for it. -/
theorem disable_orphan_counterexample :
    (disableInvalidClients env0 storeOrphanRow tickNow).store.traffics.map (fun r => r.enable)
      = [false] ∧
    (disableInvalidClients env0 storeOrphanRow tickNow).count = 1 ∧
    (disableInvalidClients env0 storeOrphanRow tickNow).calls = [] := by
  decide

/-- C5 (amended): after `disableInvalidClients` a row is disabled exactly when it was disabled
before or met the quota or the expiry condition; no other field of any row and no inbound
changes; the count is the number of rows switched from enabled to disabled; when the process
handle is unset no live call is made, and when it is set the remove-user calls are, in Ledger
order, one for each switched row whose `inbound_id` is the id of a stored inbound (under that
inbound's tag) and none for a switched row without such an inbound. -/
theorem disable_invalid_clients (env : Env) (st : Store) (now : Int)
    (hkey : (st.inbounds.map (fun ib => ib.id)).Nodup) :
    (disableInvalidClients env st now).store.inbounds = st.inbounds ∧
    (disableInvalidClients env st now).store.traffics.length = st.traffics.length ∧
    (∀ (i : Nat) (r r' : ClientTraffic), st.traffics[i]? = some r →
      (disableInvalidClients env st now).store.traffics[i]? = some r' →
        (r'.enable = false ↔ (r.enable = false ∨ (r.total > 0 ∧ r.up + r.down ≥ r.total) ∨
          (r.expiryTime > 0 ∧ r.expiryTime ≤ now))) ∧
        r'.inboundId = r.inboundId ∧ r'.email = r.email ∧ r'.up = r.up ∧ r'.down = r.down ∧
        r'.expiryTime = r.expiryTime ∧ r'.total = r.total ∧ r'.reset = r.reset) ∧
    (disableInvalidClients env st now).count =
      (List.zip st.traffics (disableInvalidClients env st now).store.traffics).countP
        (fun p => p.1.enable && !p.2.enable) ∧
    (env.hasProcess = false → (disableInvalidClients env st now).calls = []) ∧
    (env.hasProcess = true → (disableInvalidClients env st now).calls =
      (st.traffics.filter (fun r => r.enable &&
          ((decide (r.total > 0) && decide (r.up + r.down ≥ r.total)) ||
            (decide (r.expiryTime > 0) && decide (r.expiryTime ≤ now))))).filterMap
        (fun r => (GetInbound st r.inboundId).map
          (fun ib => ApiCall.removeUser ib.tag r.email))) := by
  refine ⟨rfl, by simp [disableInvalidClients], ?_, ?_, ?_, ?_⟩
  · intro i r r' hr hr'
    simp only [disableInvalidClients, List.getElem?_map, hr, Option.map_some',
      Option.some.injEq] at hr'
    subst hr'
    by_cases hinv : invalidClient now r = true
    · rw [if_pos hinv]
      have := (invalidClient_iff now r).1 hinv
      simp only [true_iff, and_self, and_true]
      exact Or.inr this.2
    · rw [if_neg hinv]
      simp only [and_self, and_true]
      rw [invalidClient_iff] at hinv
      constructor
      · intro h; exact Or.inl h
      · intro h
        by_contra hne
        have he : r.enable = true := by simpa using hne
        rcases h with h | h
        · exact hne h
        · exact hinv ⟨he, h⟩
  · simp only [disableInvalidClients]
    rw [zip_map_self, List.countP_map, List.countP_eq_length_filter]
    congr 1
    apply List.filter_congr
    intro r _
    by_cases hinv : invalidClient now r = true
    · have := (invalidClient_iff now r).1 hinv
      simp [hinv, this.1]
    · have hinv' : invalidClient now r = false := by simpa using hinv
      simp [hinv']
  · intro hp
    simp [disableInvalidClients, hp]
  · intro hp
    have hf : (fun r : ClientTraffic => r.enable &&
          ((decide (r.total > 0) && decide (r.up + r.down ≥ r.total)) ||
            (decide (r.expiryTime > 0) && decide (r.expiryTime ≤ now)))) = invalidClient now := by
      funext r
      simp only [invalidClient]
      rw [Bool.and_comm]
    rw [hf]
    simp only [disableInvalidClients, hp, if_true, invalidClientPairs]
    generalize st.traffics.filter (invalidClient now) = rows
    induction rows with
    | nil => rfl
    | cons r rest ih =>
      rw [List.flatMap_cons, List.map_append, ih, List.filterMap_cons,
        filter_id_of_nodup _ _ hkey]
      unfold GetInbound
      cases List.find? (fun ib => ib.id == r.inboundId) st.inbounds <;> simp

theorem disable_invalid_clients_witness :
    (disableInvalidClients env0 storeOverQuota tickNow).count = 1 ∧
    (disableInvalidClients env0 storeOverQuota tickNow).calls
      = [.removeUser "inbound-443" "a"] := by
  have h := disable_invalid_clients env0 storeOverQuota tickNow (by decide)
  exact ⟨by rw [h.2.2.2.1]; decide, by rw [h.2.2.2.2.2 rfl]; decide⟩

/-! ## Ledger and client set after `UpdateInbound` -/

/-- C2 (failing input): `UpdateInbound` with the stored client kept under its email and its
quota raised from 0 to 100 succeeds, the stored client then has `totalGB = 100`, and the
Ledger row of that email still has `total = 0`. -/
theorem update_inbound_keeps_stale_row :
    (UpdateInbound env0 storeOneClient requestQuota).err = none ∧
    (∃ saved, GetInbound (UpdateInbound env0 storeOneClient requestQuota).store 1 = some saved ∧
      (GetClients saved).toOption.map (fun cs => cs.map (fun c => (c.email, c.totalGB)))
        = some [("a", 100)]) ∧
    (UpdateInbound env0 storeOneClient requestQuota).store.traffics.map
      (fun r => (r.email, r.total)) = [("a", 0)] := by
  refine ⟨by decide, ⟨_, rfl, by decide⟩, by decide⟩

/-! ## Maintenance passes -/

/-- C7 (failing input): on a store whose client has its only Ledger row under
`inbound_id = 0`, the first run of `MigrationRequirements` deletes that row and the second
run creates a new one: the second run changes what the first run left. -/
theorem migration_second_run_changes :
    (MigrationRequirements storeLegacyRow).err = none ∧
    (MigrationRequirements storeLegacyRow).store.traffics = [] ∧
    (MigrationRequirements (MigrationRequirements storeLegacyRow).store).err = none ∧
    (MigrationRequirements (MigrationRequirements storeLegacyRow).store).store.traffics =
      [{ inboundId := 5, enable := true, email := "e", up := 0, down := 0, expiryTime := 0,
         total := 0, reset := 0 }] := by
  decide

/-- The orphan sweep is idempotent: a second run deletes nothing. -/
theorem orphan_sweep_idempotent (env : Env) (st : Store) :
    MigrationRemoveOrphanedTraffics env (MigrationRemoveOrphanedTraffics env st) =
      MigrationRemoveOrphanedTraffics env st := by
  have hcol : ∀ tr, sqlEmailColumn env { inbounds := st.inbounds, traffics := tr } =
      sqlEmailColumn env st := fun _ => rfl
  unfold MigrationRemoveOrphanedTraffics
  cases h : sqlEmailColumn env st with
  | error e => simp [h]
  | ok col =>
    simp only [hcol, h, List.filter_filter, Bool.and_self]

/-! ## Decoding the client list -/

/-- C13 as stated fails: a settings blob that is a JSON object without a "clients" entry is
decoded without error, to no clients. -/
theorem get_clients_missing_counterexample :
    GetClients { id := 1, port := 443, protocol := "vless", settings := some (.obj []) }
      = .ok [] := rfl

/-- C13 (amended): `GetClients` answers the decoded list, in order and without error, for a
JSON object whose "clients" entry is a list; it answers no clients and no error for a JSON
object whose "clients" entry is missing or null; it answers an error for the document
`null`. -/
theorem get_clients_decode (ib : Inbound) :
    (∀ kvs xs, ib.settings = some (.obj kvs) → lookupKey "clients" kvs = some (.arr xs) →
      GetClients ib = .ok (xs.map decodeClient)) ∧
    (∀ kvs, ib.settings = some (.obj kvs) →
      (lookupKey "clients" kvs = none ∨ lookupKey "clients" kvs = some .null) →
      GetClients ib = .ok []) ∧
    (ib.settings = some .null → GetClients ib = .error .settingIsNull) := by
  refine ⟨?_, ?_, ?_⟩
  · intro kvs xs hs hx
    simp [GetClients, hs, hx]
  · intro kvs hs hx
    rcases hx with hx | hx <;> simp [GetClients, hs, hx]
  · intro hs
    simp [GetClients, hs]

/-! ## Ledger rows created by `AddInbound` -/

/-- C14 (failing input): `AddInbound` of an inbound whose only client has an empty email
succeeds and creates a Ledger row with the empty email. -/
theorem add_inbound_creates_empty_email_row :
    (AddInbound env0 storeEmpty inboundNoEmail).err = none ∧
    (AddInbound env0 storeEmpty inboundNoEmail).store.traffics =
      [{ inboundId := 1, enable := true, email := "", up := 0, down := 0, expiryTime := 0,
         total := 0, reset := 0 }] := by
  decide

/-! ## Live sync of `UpdateInbound` -/

/-- C15 as stated fails: the remove-inbound call fails, the add-inbound call succeeds, and
restart-needed is false. -/
theorem update_inbound_remove_fails_counterexample :
    (UpdateInbound envRemoveFails storeOneClient requestQuota).err = none ∧
    (UpdateInbound envRemoveFails storeOneClient requestQuota).calls =
      [.delInbound "inbound-443", .addInbound "inbound-443"] ∧
    envRemoveFails.live (.delInbound "inbound-443") = .failed ∧
    (UpdateInbound envRemoveFails storeOneClient requestQuota).needRestart = false := by
  decide

/-- C15 (amended): a call of `UpdateInbound` that passes the port check, finds the stored
inbound and updates the Ledger returns no error whatever the live engine answers; it always
calls remove-inbound under the old tag, calls add-inbound under the recomputed tag exactly
when the new inbound is enabled and its engine configuration could be encoded, and returns
restart-needed exactly when the new inbound is enabled and the encoding or the add-inbound
call failed.  The answer of remove-inbound does not enter the flag. -/
theorem update_inbound_live_sync (env : Env) (st : Store) (inbound old : Inbound)
    (tr : List ClientTraffic)
    (hport : checkPortExist st inbound.listen inbound.port inbound.id = false)
    (hget : GetInbound st inbound.id = some old)
    (htr : updateClientTraffics st.traffics old inbound = .ok tr) :
    (UpdateInbound env st inbound).err = none ∧
    (UpdateInbound env st inbound).calls =
      .delInbound old.tag ::
        (if inbound.enable = true ∧ env.configFails (genTag inbound.listen inbound.port) = false
         then [.addInbound (genTag inbound.listen inbound.port)] else []) ∧
    ((UpdateInbound env st inbound).needRestart = true ↔
      inbound.enable = true ∧
        (env.configFails (genTag inbound.listen inbound.port) = true ∨
          env.live (.addInbound (genTag inbound.listen inbound.port)) ≠ .ok)) := by
  simp only [UpdateInbound, hport, hget, htr]
  refine ⟨rfl, ?_, ?_⟩
  · cases inbound.enable <;> cases env.configFails (genTag inbound.listen inbound.port) <;> simp
  · cases inbound.enable <;> cases env.configFails (genTag inbound.listen inbound.port) <;> simp

theorem update_inbound_live_sync_witness :
    (UpdateInbound envRemoveFails storeOneClient requestQuota).err = none ∧
    ((UpdateInbound envRemoveFails storeOneClient requestQuota).needRestart = true ↔
      requestQuota.enable = true ∧
        (envRemoveFails.configFails (genTag requestQuota.listen requestQuota.port) = true ∨
          envRemoveFails.live (.addInbound (genTag requestQuota.listen requestQuota.port))
            ≠ .ok)) :=
  have h := update_inbound_live_sync envRemoveFails storeOneClient requestQuota _ _
    (by decide) rfl rfl
  ⟨h.1, h.2.2⟩
/-! ## Live sync of `UpdateInboundClient` -/

theorem UpdateInboundClient_ok_calls (env : Env) (st : Store) (data : Inbound)
    (clientId : String) (o : Outcome)
    (ho : UpdateInboundClient env st data clientId = o) (herr : o.err = none) :
    ∃ newClient rest old oldClients idx oldEmail,
      GetClients data = .ok (newClient :: rest) ∧
      GetInbound st data.id = some old ∧ GetClients old = .ok oldClients ∧
      findClientIndex old.protocol clientId 0 oldClients = some (idx, oldEmail) ∧
      o.calls =
        (if oldEmail ≠ "" ∧ (oldClients.getD idx {}).enable = true
          then [ApiCall.removeUser old.tag oldEmail] else []) ++
        (if oldEmail ≠ "" ∧ newClient.enable = true
          then [ApiCall.addUser old.protocol old.tag newClient.email] else []) ∧
      (oldEmail = "" → o.needRestart = true) := by
  unfold UpdateInboundClient at ho
  iterate 3 (all_goals (try (repeat' split at ho)); all_goals (try dsimp only at ho))
  all_goals (try (subst ho; simp [Outcome.fail] at herr; done))
  all_goals (subst ho)
  all_goals (refine ⟨_, _, _, _, _, _, by assumption, by assumption, by assumption,
    by assumption, ?_, ?_⟩)
  all_goals (simp_all)

/-- C16 as stated fails: the old client has no email, the new client is enabled and has the
email "b"; the call succeeds and no add-user call is issued. -/
theorem update_client_no_add_counterexample :
    (UpdateInboundClient env0 storeNoEmail requestGiveEmail "u1").err = none ∧
    (GetClients requestGiveEmail).toOption.map
      (fun cs => cs.map (fun c => (c.email, c.enable))) = some [("b", true)] ∧
    (UpdateInboundClient env0 storeNoEmail requestGiveEmail "u1").calls = [] := by
  decide

/-- C16 (amended): on every successful `UpdateInboundClient`, with the old client the first
stored client that carries the target identifier and the new client the first client of the
request: a remove-user call for the old email is issued exactly when the old client was
enabled and had a non-empty email; when the new client has a non-empty email, an add-user
call for it is issued exactly when the new client is enabled and the old client had a
non-empty email; no other call is issued; and when the old client had no email no call is
issued and restart-needed is true. -/
theorem update_client_live_sync (env : Env) (st : Store) (data : Inbound) (clientId : String)
    (herr : (UpdateInboundClient env st data clientId).err = none) :
    ∃ old oldClients idx oldClient newClient rest,
      GetInbound st data.id = some old ∧ GetClients old = .ok oldClients ∧
      (∀ c ∈ oldClients.take idx, clientKey old.protocol c ≠ clientId) ∧
      oldClients[idx]? = some oldClient ∧ clientKey old.protocol oldClient = clientId ∧
      GetClients data = .ok (newClient :: rest) ∧
      (ApiCall.removeUser old.tag oldClient.email ∈
          (UpdateInboundClient env st data clientId).calls ↔
        oldClient.enable = true ∧ oldClient.email ≠ "") ∧
      (newClient.email ≠ "" →
        (ApiCall.addUser old.protocol old.tag newClient.email ∈
            (UpdateInboundClient env st data clientId).calls ↔
          newClient.enable = true ∧ oldClient.email ≠ "")) ∧
      (∀ call ∈ (UpdateInboundClient env st data clientId).calls,
        call = ApiCall.removeUser old.tag oldClient.email ∨
        call = ApiCall.addUser old.protocol old.tag newClient.email) ∧
      (oldClient.email = "" →
        (UpdateInboundClient env st data clientId).calls = [] ∧
        (UpdateInboundClient env st data clientId).needRestart = true) := by
  obtain ⟨newClient, rest, old, oldClients, idx, oldEmail, h1, h2, h3, h4, h5, h6⟩ :=
    UpdateInboundClient_ok_calls env st data clientId _ rfl herr
  obtain ⟨_, _, hpre, c, hc1, hc2, hc3⟩ := findClientIndex_some _ _ _ _ h4
  simp only [Nat.sub_zero] at hpre hc1
  have hgetD : oldClients.getD idx {} = c := by
    rw [List.getD_eq_getElem?_getD, hc1]
    rfl
  rw [hgetD] at h5
  subst hc3
  refine ⟨old, oldClients, idx, c, newClient, rest, h2, h3, hpre, hc1, hc2, h1, ?_, ?_, ?_, ?_⟩
  · rw [h5]
    by_cases he : c.email = "" <;> cases hen : c.enable <;> cases hn : newClient.enable <;>
      simp [he, hen, hn]
  · intro hne
    rw [h5]
    by_cases he : c.email = "" <;> cases hen : c.enable <;> cases hn : newClient.enable <;>
      simp [he, hen, hn]
  · intro call hcall
    rw [h5] at hcall
    by_cases he : c.email = "" <;> cases hen : c.enable <;> cases hn : newClient.enable <;>
      simp [he, hen, hn] at hcall <;> tauto
  · intro he
    refine ⟨?_, h6 he⟩
    rw [h5]
    simp [he]

theorem update_client_live_sync_witness :
    (UpdateInboundClient env0 storeOneClient requestReplace "u1").err = none ∧
    ∃ old newClient rest,
      GetInbound storeOneClient requestReplace.id = some old ∧
      GetClients requestReplace = .ok (newClient :: rest) := by
  obtain ⟨old, _, _, _, newClient, rest, h1, _, _, _, _, h6, _⟩ :=
    update_client_live_sync env0 storeOneClient requestReplace "u1" (by decide)
  exact ⟨by decide, old, newClient, rest, h1, h6⟩

/-! ## Renewal arithmetic -/

theorem wrap64_of_range {x : Int} (h1 : -(2 ^ 63) ≤ x) (h2 : x < 2 ^ 63) : wrap64 x = x := by
  unfold wrap64
  norm_num at h1 h2 ⊢
  omega

theorem renewLoop_zero_step (fuel : Nat) (e now reset : Int) (hlt : e < now)
    (hstep : wrap64 (reset * 86400000) = 0) (hrange : wrap64 e = e) :
    renewLoop fuel e now reset = none := by
  induction fuel with
  | zero => rfl
  | succ f ih =>
    unfold renewLoop
    rw [if_pos hlt, hstep, add_zero, hrange]
    exact ih

/-- C19 as stated fails: with `reset = 2 ^ 54` days the `int64` product
`reset * 86400000` is 0, so the loop never advances an expiry time that lies before `now`
and does not end for any amount of fuel. -/
theorem renew_loop_diverges_counterexample :
    (0 : Int) < 2 ^ 54 ∧ (0 : Int) < tickNow - 1 ∧ tickNow - 1 ≤ tickNow ∧
    ¬ ∃ fuel, (renewLoop fuel (tickNow - 1) tickNow (2 ^ 54)).isSome = true := by
  refine ⟨by norm_num, by decide, by decide, ?_⟩
  rintro ⟨fuel, h⟩
  rw [renewLoop_zero_step fuel (tickNow - 1) tickNow (2 ^ 54) (by decide) (by decide)
    (by decide)] at h
  simp at h

theorem renewLoop_steps (now reset : Int) (hr : 0 < reset) (hnow : 0 < now)
    (hb : now + reset * 86400000 < 2 ^ 63) :
    ∀ (n : Nat) (x : Int), 0 < x → now ≤ x + n * (reset * 86400000) →
      (∀ j : Nat, j < n → x + j * (reset * 86400000) < now) →
      ∀ fuel, n < fuel → renewLoop fuel x now reset = some (x + n * (reset * 86400000)) := by
  have hstep : wrap64 (reset * 86400000) = reset * 86400000 := by
    apply wrap64_of_range <;> norm_num at hb ⊢ <;> omega
  intro n
  induction n with
  | zero =>
    intro x _ hge _ fuel hf
    obtain ⟨f, rfl⟩ : ∃ f, fuel = f + 1 := ⟨fuel - 1, by omega⟩
    unfold renewLoop
    simp only [Nat.cast_zero, zero_mul, add_zero] at hge ⊢
    rw [if_neg (by omega)]
  | succ n ih =>
    intro x hx hge hlt fuel hf
    obtain ⟨f, rfl⟩ : ∃ f, fuel = f + 1 := ⟨fuel - 1, by omega⟩
    have h0 : x < now := by simpa using hlt 0 (by omega)
    unfold renewLoop
    rw [if_pos h0, hstep]
    have hw : wrap64 (x + reset * 86400000) = x + reset * 86400000 := by
      apply wrap64_of_range <;> norm_num at hb ⊢ <;> omega
    rw [hw]
    have := ih (x + reset * 86400000) (by positivity) (by push_cast at hge ⊢; linarith)
      (fun j hj => by have := hlt (j + 1) (by omega); push_cast at this ⊢; linarith) f
      (by omega)
    rw [this]
    push_cast
    ring_nf

/-- C19 (amended): for a row with `reset > 0` and `0 < expiryTime <= now`, provided
`now + reset * 86400000` fits `int64`, the renewal loop ends (with any fuel above `k`) and the
new expiry time is the old one plus `k * reset * 86400000` for the least natural `k` that
makes it not earlier than `now`. -/
theorem renew_loop_terminates (e now reset : Int) (hr : 0 < reset) (he : 0 < e)
    (hen : e ≤ now) (hb : now + reset * 86400000 < 2 ^ 63) :
    ∃ k : Nat,
      (∀ fuel, k < fuel → renewLoop fuel e now reset = some (e + k * (reset * 86400000))) ∧
      now ≤ e + k * (reset * 86400000) ∧
      (∀ j : Nat, j < k → e + j * (reset * 86400000) < now) ∧
      (0 < k → e + k * (reset * 86400000) - reset * 86400000 < now) := by
  have hex : ∃ k : Nat, now ≤ e + k * (reset * 86400000) := by
    refine ⟨(now - e).toNat, ?_⟩
    have h1 : ((now - e).toNat : Int) = now - e := Int.toNat_of_nonneg (by omega)
    rw [h1]
    nlinarith
  classical
  refine ⟨Nat.find hex, ?_, Nat.find_spec hex, ?_, ?_⟩
  · exact renewLoop_steps now reset hr (by omega) hb (Nat.find hex) e he (Nat.find_spec hex)
      (fun j hj => by simpa using Nat.find_min hex hj)
  · intro j hj
    simpa using Nat.find_min hex hj
  · intro hk
    have := Nat.find_min hex (Nat.sub_lt hk Nat.one_pos)
    have h1 : ((Nat.find hex - 1 : Nat) : Int) = (Nat.find hex : Int) - 1 := by omega
    rw [h1] at this
    linarith

theorem renew_loop_terminates_witness :
    ∃ k : Nat,
      (∀ fuel, k < fuel → renewLoop fuel (tickNow - 5 * 86400000) tickNow 30 =
        some (tickNow - 5 * 86400000 + k * (30 * 86400000))) ∧
      tickNow ≤ tickNow - 5 * 86400000 + k * (30 * 86400000) := by
  obtain ⟨k, h1, h2, _⟩ := renew_loop_terminates (tickNow - 5 * 86400000) tickNow 30
    (by decide) (by decide) (by decide) (by decide)
  exact ⟨k, h1, h2⟩
/-! ## Tags -/

/-- The value of a decimal digit character. -/
theorem digitChar_val (k : Nat) (hk : k < 10) : (Nat.digitChar k).toNat - 48 = k := by
  interval_cases k <;> rfl

theorem digitChar_isDigit (k : Nat) (hk : k < 10) :
    Nat.digitChar k ≠ ':' ∧ Nat.digitChar k ≠ '-' := by
  interval_cases k <;> decide

theorem toDigitsCore_value (fuel : Nat) :
    ∀ (n : Nat) (ds : List Char), n < fuel →
      (Nat.toDigitsCore 10 fuel n ds).foldl (fun a c => 10 * a + (c.toNat - 48)) 0 =
        ds.foldl (fun a c => 10 * a + (c.toNat - 48)) n := by
  induction fuel with
  | zero => intro n ds h; omega
  | succ f ih =>
    intro n ds h
    unfold Nat.toDigitsCore
    simp only
    by_cases hn : n / 10 = 0
    · rw [if_pos hn]
      have hlt : n < 10 := by omega
      have hmod : n % 10 = n := Nat.mod_eq_of_lt hlt
      rw [hmod, List.foldl_cons, digitChar_val n hlt]
      simp
    · rw [if_neg hn, ih (n / 10) _ (by omega), List.foldl_cons,
        digitChar_val (n % 10) (Nat.mod_lt _ (by norm_num))]
      congr 1
      omega

theorem toDigitsCore_chars (fuel : Nat) :
    ∀ (n : Nat) (ds : List Char) (c : Char), c ∈ Nat.toDigitsCore 10 fuel n ds →
      c ∈ ds ∨ (c ≠ ':' ∧ c ≠ '-') := by
  induction fuel with
  | zero => intro n ds c h; exact Or.inl h
  | succ f ih =>
    intro n ds c h
    unfold Nat.toDigitsCore at h
    simp only at h
    have hd := digitChar_isDigit (n % 10) (Nat.mod_lt _ (by norm_num))
    by_cases hn : n / 10 = 0
    · rw [if_pos hn] at h
      rcases List.mem_cons.1 h with rfl | h
      · exact Or.inr hd
      · exact Or.inl h
    · rw [if_neg hn] at h
      rcases ih _ _ _ h with h | h
      · rcases List.mem_cons.1 h with rfl | h
        · exact Or.inr hd
        · exact Or.inl h
      · exact Or.inr h

theorem natRepr_data (n : Nat) : (toString n).data = Nat.toDigits 10 n := rfl

theorem natRepr_injective {n m : Nat} (h : Nat.toDigits 10 n = Nat.toDigits 10 m) : n = m := by
  have h1 := toDigitsCore_value (n + 1) n [] (by omega)
  have h2 := toDigitsCore_value (m + 1) m [] (by omega)
  simp only [List.foldl_nil] at h1 h2
  unfold Nat.toDigits at h
  rw [← h1, ← h2, h]

theorem natRepr_chars (n : Nat) (c : Char) (h : c ∈ Nat.toDigits 10 n) : c ≠ ':' ∧ c ≠ '-' := by
  rcases toDigitsCore_chars _ _ _ _ h with h | h
  · simp at h
  · exact h

theorem intRepr_data (p : Int) :
    (toString p).data =
      match p with
      | Int.ofNat m => Nat.toDigits 10 m
      | Int.negSucc m => '-' :: Nat.toDigits 10 (m + 1) := by
  cases p <;> rfl

theorem intRepr_no_colon (p : Int) : ':' ∉ (toString p).data := by
  rw [intRepr_data]
  cases p with
  | ofNat m => exact fun h => (natRepr_chars m _ h).1 rfl
  | negSucc m =>
    intro h
    rcases List.mem_cons.1 h with h | h
    · exact absurd h (by decide)
    · exact (natRepr_chars _ _ h).1 rfl

theorem intRepr_injective {p q : Int} (h : (toString p).data = (toString q).data) : p = q := by
  rw [intRepr_data, intRepr_data] at h
  cases p with
  | ofNat m =>
    cases q with
    | ofNat k => simp only at h; rw [natRepr_injective h]
    | negSucc k =>
      simp only at h
      have : '-' ∈ Nat.toDigits 10 m := by rw [h]; exact List.mem_cons_self _ _
      exact absurd rfl (natRepr_chars _ _ this).2
  | negSucc m =>
    cases q with
    | ofNat k =>
      simp only at h
      have : '-' ∈ Nat.toDigits 10 k := by rw [← h]; exact List.mem_cons_self _ _
      exact absurd rfl (natRepr_chars _ _ this).2
    | negSucc k =>
      simp only [List.cons.injEq, true_and] at h
      have := natRepr_injective h
      have hk : m = k := by omega
      rw [hk]

theorem split_at_last_colon (a b s t : List Char) (hs : ':' ∉ s) (ht : ':' ∉ t)
    (h : a ++ ':' :: s = b ++ ':' :: t) : a = b ∧ s = t := by
  induction a generalizing b with
  | nil =>
    cases b with
    | nil => simpa using h
    | cons x b =>
      simp only [List.nil_append, List.cons_append, List.cons.injEq] at h
      exact absurd (h.2 ▸ List.mem_append_right b (List.mem_cons_self _ _)) hs
  | cons x a ih =>
    cases b with
    | nil =>
      simp only [List.nil_append, List.cons_append, List.cons.injEq] at h
      exact absurd (h.2 ▸ List.mem_append_right a (List.mem_cons_self _ _)) ht
    | cons y b =>
      simp only [List.cons_append, List.cons.injEq] at h
      obtain ⟨rfl, rfl⟩ := ih b h.2
      exact ⟨by rw [h.1], rfl⟩

theorem genTag_data (listen : String) (port : Int) :
    (genTag listen port).data =
      if isAnyAddr listen = true then "inbound-".data ++ (toString port).data
      else "inbound-".data ++ (listen.data ++ ':' :: (toString port).data) := by
  unfold genTag isAnyAddr
  split <;> simp [String.data_append]

theorem genTag_eq_iff (l1 l2 : String) (p1 p2 : Int) :
    genTag l1 p1 = genTag l2 p2 ↔
      p1 = p2 ∧ ((isAnyAddr l1 = true ∧ isAnyAddr l2 = true) ∨ l1 = l2) := by
  rw [String.ext_iff, genTag_data, genTag_data]
  by_cases h1 : isAnyAddr l1 = true <;> by_cases h2 : isAnyAddr l2 = true
  · simp only [h1, h2, if_true, List.append_cancel_left_eq, and_self, true_or, and_true]
    exact ⟨intRepr_injective, fun h => by rw [h]⟩
  · simp only [h1, h2, if_true, if_false, List.append_cancel_left_eq, Bool.false_eq_true,
      and_false, false_or]
    constructor
    · intro h
      exact absurd (h ▸ List.mem_append_right _ (List.mem_cons_self _ _))
        (intRepr_no_colon p1)
    · rintro ⟨_, rfl⟩
      exact absurd h1 h2
  · simp only [h1, h2, if_true, if_false, List.append_cancel_left_eq, Bool.false_eq_true,
      false_and, false_or]
    constructor
    · intro h
      exact absurd (h ▸ List.mem_append_right _ (List.mem_cons_self _ _))
        (intRepr_no_colon p2)
    · rintro ⟨_, rfl⟩
      exact absurd h2 h1
  · simp only [h1, h2, if_false, List.append_cancel_left_eq, Bool.false_eq_true, false_and,
      false_or]
    constructor
    · intro h
      obtain ⟨ha, hs⟩ := split_at_last_colon _ _ _ _ (intRepr_no_colon p1)
        (intRepr_no_colon p2) h
      exact ⟨intRepr_injective hs, String.ext ha⟩
    · rintro ⟨rfl, rfl⟩
      rfl

/-- C20: the tag that `UpdateInbound` computes is the same for two (listen, port) pairs
exactly when the ports are equal and either both listens are wildcards or the listens are
equal; so two inbounds that do not collide under the port check get different tags. -/
theorem tag_unique (l1 l2 : String) (p1 p2 : Int) :
    (genTag l1 p1 = genTag l2 p2 ↔
      p1 = p2 ∧ ((isAnyAddr l1 = true ∧ isAnyAddr l2 = true) ∨ l1 = l2)) ∧
    (∀ a b : Inbound,
      ¬ (a.port = b.port ∧
          (a.listen = b.listen ∨ isAnyAddr a.listen = true ∨ isAnyAddr b.listen = true)) →
      genTag a.listen a.port ≠ genTag b.listen b.port) ∧
    (∀ a b : Inbound,
      checkPortExist { inbounds := [a], traffics := [] } b.listen b.port 0 = false →
      genTag a.listen a.port ≠ genTag b.listen b.port) := by
  have key : ∀ a b : Inbound,
      ¬ (a.port = b.port ∧
          (a.listen = b.listen ∨ isAnyAddr a.listen = true ∨ isAnyAddr b.listen = true)) →
      genTag a.listen a.port ≠ genTag b.listen b.port := by
    intro a b hn ht
    rw [genTag_eq_iff] at ht
    apply hn
    refine ⟨ht.1, ?_⟩
    rcases ht.2 with h | h
    · exact Or.inr (Or.inl h.1)
    · exact Or.inl h
  refine ⟨genTag_eq_iff l1 l2 p1 p2, key, ?_⟩
  intro a b hc
  apply key
  intro hcol
  have := (checkPortExist_iff { inbounds := [a], traffics := [] } b.listen b.port 0).2
    ⟨a, List.mem_singleton.2 rfl, hcol, fun h => absurd h (lt_irrefl 0)⟩
  rw [hc] at this
  cases this

/-! ## First-use sentinel -/

theorem AdjustedRow.refl (a : Nat × ClientTraffic) : AdjustedRow a a :=
  ⟨rfl, rfl, fun _ => rfl⟩

theorem AdjustedRow.trans {a b c : Nat × ClientTraffic} (h1 : AdjustedRow a b)
    (h2 : AdjustedRow b c) : AdjustedRow a c := by
  obtain ⟨h11, h12, h13⟩ := h1
  obtain ⟨h21, h22, h23⟩ := h2
  refine ⟨h21.trans h11, ?_, ?_⟩
  · rw [← h12, ← h22]
  · intro h
    have hb := h13 h
    subst hb
    exact h23 h

theorem adjustedRows_refl (rows : List (Nat × ClientTraffic)) :
    List.Forall₂ AdjustedRow rows rows :=
  List.forall₂_same.2 (fun a _ => AdjustedRow.refl a)

theorem adjustedRows_trans {r1 r2 r3 : List (Nat × ClientTraffic)}
    (h1 : List.Forall₂ AdjustedRow r1 r2) (h2 : List.Forall₂ AdjustedRow r2 r3) :
    List.Forall₂ AdjustedRow r1 r3 := by
  induction h1 generalizing r3 with
  | nil => cases h2; exact List.Forall₂.nil
  | cons hab _ ih =>
    cases h2 with
    | cons hbc hrest => exact List.Forall₂.cons (hab.trans hbc) (ih hrest)

/-- What the inner loop does: either no row is negative under the client's email, or the
first such row is resolved. -/
theorem adjustRows_spec (now : Int) (c : List (String × Json)) :
    ∀ (rows : List (Nat × ClientTraffic)) (res : Option (List (Nat × ClientTraffic) × Int)),
      adjustRows now c rows = .ok res →
      (res = none ∧ ∀ ir ∈ rows, ¬ (ir.2.expiryTime < 0 ∧ emailIs c ir.2.email = true)) ∨
      (∃ pre i t post e, rows = pre ++ (i, t) :: post ∧
        (∀ ir ∈ pre, ¬ (ir.2.expiryTime < 0 ∧ emailIs c ir.2.email = true)) ∧
        t.expiryTime < 0 ∧ emailIs c t.email = true ∧
        lookupKey "expiryTime" c = some (.num e) ∧
        res = some (pre ++ (i, { t with expiryTime := wrap64 (now - e) }) :: post,
                    wrap64 (now - e))) := by
  intro rows
  induction rows with
  | nil =>
    intro res h
    simp only [adjustRows] at h
    cases h
    exact Or.inl ⟨rfl, by simp⟩
  | cons ir rest ih =>
    obtain ⟨i, t⟩ := ir
    intro res h
    unfold adjustRows at h
    by_cases hm : t.expiryTime < 0 ∧ emailIs c t.email = true
    · rw [if_pos hm] at h
      split at h
      · rename_i e he
        cases h
        exact Or.inr ⟨[], i, t, rest, e, rfl, by simp, hm.1, hm.2, he, rfl⟩
      · cases h
    · rw [if_neg hm] at h
      split at h
      · cases h
      · rename_i hrest
        cases h
        rcases ih none hrest with ⟨_, hall⟩ | ⟨pre, j, t', post, e, _, _, _, _, _, hres⟩
        · refine Or.inl ⟨rfl, ?_⟩
          intro x hx
          rcases List.mem_cons.1 hx with rfl | hx
          · exact hm
          · exact hall x hx
        · cases hres
      · rename_i rest' w hrest
        cases h
        rcases ih _ hrest with ⟨hnone, _⟩ | ⟨pre, j, t', post, e, hsplit, hpre, hneg, hem, he, hres⟩
        · cases hnone
        · simp only [Option.some.injEq, Prod.mk.injEq] at hres
          obtain ⟨rfl, rfl⟩ := hres
          refine Or.inr ⟨(i, t) :: pre, j, t', post, e, by rw [hsplit]; rfl, ?_, hneg, hem, he,
            rfl⟩
          intro x hx
          rcases List.mem_cons.1 hx with rfl | hx
          · exact hm
          · exact hpre x hx

theorem adjustRows_some_rel {now : Int} {c : List (String × Json)}
    {rows rows' : List (Nat × ClientTraffic)} {w : Int}
    (h : adjustRows now c rows = .ok (some (rows', w))) :
    List.Forall₂ AdjustedRow rows rows' ∧
      ∃ ir ∈ rows, ir.2.expiryTime < 0 ∧ emailIs c ir.2.email = true := by
  rcases adjustRows_spec now c rows _ h with ⟨hn, _⟩ | ⟨pre, i, t, post, e, hsplit, _, hneg, hem,
    _, hres⟩
  · cases hn
  · simp only [Option.some.injEq, Prod.mk.injEq] at hres
    obtain ⟨rfl, rfl⟩ := hres
    subst hsplit
    refine ⟨?_, (i, t), by simp, hneg, hem⟩
    apply List.rel_append (adjustedRows_refl pre)
    refine List.Forall₂.cons ⟨rfl, rfl, ?_⟩ (adjustedRows_refl post)
    intro h0
    exact absurd hneg (not_lt.2 h0)

theorem forall₂_mem_right {α β : Type} {R : α → β → Prop} {l1 : List α} {l2 : List β}
    (h : List.Forall₂ R l1 l2) {b : β} (hb : b ∈ l2) : ∃ a ∈ l1, R a b := by
  induction h with
  | nil => cases hb
  | cons hab _ ih =>
    rcases List.mem_cons.1 hb with rfl | hb
    · exact ⟨_, List.mem_cons_self _ _, hab⟩
    · obtain ⟨a, ha, hr⟩ := ih hb
      exact ⟨a, List.mem_cons_of_mem _ ha, hr⟩

theorem forall₂_mem_left {α β : Type} {R : α → β → Prop} {l1 : List α} {l2 : List β}
    (h : List.Forall₂ R l1 l2) {a : α} (ha : a ∈ l1) : ∃ b ∈ l2, R a b := by
  induction h with
  | nil => cases ha
  | cons hab _ ih =>
    rcases List.mem_cons.1 ha with rfl | ha
    · exact ⟨_, List.mem_cons_self _ _, hab⟩
    · obtain ⟨b, hb, hr⟩ := ih ha
      exact ⟨b, List.mem_cons_of_mem _ hb, hr⟩

theorem AdjustedRow.neg_of_neg {a b : Nat × ClientTraffic} (h : AdjustedRow a b)
    (hb : b.2.expiryTime < 0) : a.2.expiryTime < 0 ∧ a.2.email = b.2.email := by
  obtain ⟨_, h2, h3⟩ := h
  refine ⟨?_, ?_⟩
  · by_contra hn
    have := h3 (not_lt.1 hn)
    rw [this] at hb
    exact hn hb
  · rw [← h2]

theorem adjustedClient_mono {rows rows1 : List (Nat × ClientTraffic)}
    (h : List.Forall₂ AdjustedRow rows rows1) {c c' : Json}
    (hc : AdjustedClient rows1 c c') : AdjustedClient rows c c' := by
  rcases hc with hc | ⟨o, ho, ir1, hir1, hneg, hem⟩
  · exact Or.inl hc
  · obtain ⟨ir, hir, hr⟩ := forall₂_mem_right h hir1
    obtain ⟨hn, he⟩ := hr.neg_of_neg hneg
    exact Or.inr ⟨o, ho, ir, hir, hn, by rw [he]; exact hem⟩

theorem adjustClients_rel (now : Int) :
    ∀ (cs : List Json) (rows rows' : List (Nat × ClientTraffic)) (cs' : List Json),
      adjustClients now rows cs = .ok (rows', cs') →
      List.Forall₂ AdjustedRow rows rows' ∧ List.Forall₂ (AdjustedClient rows) cs cs' := by
  intro cs
  induction cs with
  | nil =>
    intro rows rows' cs' h
    simp only [adjustClients] at h
    cases h
    exact ⟨adjustedRows_refl rows, List.Forall₂.nil⟩
  | cons client rest ih =>
    intro rows rows' cs' h
    unfold adjustClients at h
    split at h
    · rename_i c
      split at h
      · cases h
      · split at h
        · cases h
        · rename_i rows2 rest' hrest
          cases h
          obtain ⟨h1, h2⟩ := ih _ _ _ hrest
          exact ⟨h1, List.Forall₂.cons (Or.inl rfl) h2⟩
      · rename_i rows1 w hadj
        split at h
        · cases h
        · rename_i rows2 rest' hrest
          cases h
          obtain ⟨hrel, ir, hir, hneg, hem⟩ := adjustRows_some_rel hadj
          obtain ⟨h1, h2⟩ := ih _ _ _ hrest
          refine ⟨adjustedRows_trans hrel h1, List.Forall₂.cons ?_ ?_⟩
          · exact Or.inr ⟨c, rfl, ir, hir, hneg, hem⟩
          · exact h2.imp (fun _ _ hc => adjustedClient_mono hrel hc)
    · cases h

theorem adjustedInbound_mono {rows rows1 : List (Nat × ClientTraffic)}
    (h : List.Forall₂ AdjustedRow rows rows1) {ib ib' : Inbound}
    (hi : AdjustedInbound rows1 ib ib') : AdjustedInbound rows ib ib' := by
  rcases hi with hi | ⟨settings, cs, cs', h1, h2, h3, h4⟩
  · exact Or.inl hi
  · exact Or.inr ⟨settings, cs, cs', h1, h2,
      h3.imp (fun _ _ hc => adjustedClient_mono h hc), h4⟩

theorem adjustInbounds_rel (now : Int) (inboundIds : List Int) :
    ∀ (inbounds : List Inbound) (rows rows' : List (Nat × ClientTraffic))
      (inbounds' : List Inbound),
      adjustInbounds now inboundIds rows inbounds = .ok (rows', inbounds') →
      List.Forall₂ AdjustedRow rows rows' ∧
        List.Forall₂ (AdjustedInbound rows) inbounds inbounds' := by
  intro inbounds
  induction inbounds with
  | nil =>
    intro rows rows' inbounds' h
    simp only [adjustInbounds] at h
    cases h
    exact ⟨adjustedRows_refl rows, List.Forall₂.nil⟩
  | cons ib rest ih =>
    intro rows rows' inbounds' h
    unfold adjustInbounds at h
    split at h
    · cases h
    · rename_i rows1 ib' hstep
      split at h
      · cases h
      · rename_i rows2 rest' hrest
        cases h
        obtain ⟨h1, h2⟩ := ih _ _ _ hrest
        have hone : List.Forall₂ AdjustedRow rows rows1 ∧ AdjustedInbound rows ib ib' := by
          split at hstep
          · split at hstep
            · rename_i settings hs
              split at hstep
              · rename_i cs hcs
                split at hstep
                · cases hstep
                · rename_i rows3 cs' hadj
                  cases hstep
                  obtain ⟨ha, hb⟩ := adjustClients_rel now _ _ _ _ hadj
                  exact ⟨ha, Or.inr ⟨settings, cs, cs', hs, hcs, hb, rfl⟩⟩
              · cases hstep
                exact ⟨adjustedRows_refl rows, Or.inl rfl⟩
            · cases hstep
              exact ⟨adjustedRows_refl rows, Or.inl rfl⟩
          · cases hstep
            exact ⟨adjustedRows_refl rows, Or.inl rfl⟩
        exact ⟨adjustedRows_trans hone.1 h1,
          List.Forall₂.cons hone.2 (h2.imp (fun _ _ hi => adjustedInbound_mono hone.1 hi))⟩

theorem adjustTraffics_rel {inbounds inbounds' : List Inbound}
    {rows rows' : List (Nat × ClientTraffic)} {now : Int}
    (h : adjustTraffics inbounds rows now = .ok (inbounds', rows')) :
    List.Forall₂ AdjustedRow rows rows' ∧
      List.Forall₂ (AdjustedInbound rows) inbounds inbounds' := by
  unfold adjustTraffics at h
  simp only at h
  split at h
  · split at h
    · cases h
    · rename_i rows2 inbounds2 hadj
      cases h
      exact adjustInbounds_rel now _ _ _ _ _ hadj
  · cases h
    exact ⟨adjustedRows_refl rows, List.forall₂_same.2 (fun _ _ => Or.inl rfl)⟩

theorem emailIs_unique {o : List (String × Json)} {a b : String}
    (ha : emailIs o a = true) (hb : emailIs o b = true) : a = b := by
  unfold emailIs at ha hb
  split at ha
  · rename_i e he
    simp only [he] at hb
    have h1 : e = a := by simpa using ha
    have h2 : e = b := by simpa using hb
    rw [← h1, ← h2]
  · cases ha

theorem adjustRows_frame {now : Int} {o : List (String × Json)}
    {rows rows1 : List (Nat × ClientTraffic)} {w : Int} {em : String}
    (h : adjustRows now o rows = .ok (some (rows1, w))) (hno : emailIs o em = false)
    (ir : Nat × ClientTraffic) (hir : ir.2.email = em) : ir ∈ rows ↔ ir ∈ rows1 := by
  rcases adjustRows_spec now o rows _ h with ⟨hn, _⟩ | ⟨pre, i, t, post, e, hsplit, _, _, hem,
    _, hres⟩
  · cases hn
  · simp only [Option.some.injEq, Prod.mk.injEq] at hres
    obtain ⟨rfl, rfl⟩ := hres
    subst hsplit
    have hne : t.email ≠ em := by
      rintro rfl
      rw [hem] at hno
      cases hno
    simp only [List.mem_append, List.mem_cons]
    constructor
    · rintro (h1 | rfl | h1)
      · exact Or.inl h1
      · exact absurd hir hne
      · exact Or.inr (Or.inr h1)
    · rintro (h1 | rfl | h1)
      · exact Or.inl h1
      · exact absurd hir hne
      · exact Or.inr (Or.inr h1)

theorem adjustClients_frame (now : Int) (em : String) :
    ∀ (cs : List Json) (rows rows' : List (Nat × ClientTraffic)) (cs' : List Json),
      (∀ x ∈ cs, noEmClient em x) →
      adjustClients now rows cs = .ok (rows', cs') →
      ∀ ir : Nat × ClientTraffic, ir.2.email = em → (ir ∈ rows ↔ ir ∈ rows') := by
  intro cs
  induction cs with
  | nil =>
    intro rows rows' cs' _ h ir _
    simp only [adjustClients] at h
    cases h
    exact Iff.rfl
  | cons client rest ih =>
    intro rows rows' cs' hno h ir hir
    have hrestno : ∀ x ∈ rest, noEmClient em x := fun x hx => hno x (List.mem_cons_of_mem _ hx)
    unfold adjustClients at h
    split at h
    · rename_i c
      split at h
      · cases h
      · split at h
        · cases h
        · rename_i rows2 rest' hrest
          cases h
          exact ih _ _ _ hrestno hrest ir hir
      · rename_i rows1 w hadj
        split at h
        · cases h
        · rename_i rows2 rest' hrest
          cases h
          have h1 := adjustRows_frame hadj (hno _ (List.mem_cons_self _ _) c rfl) ir hir
          exact h1.trans (ih _ _ _ hrestno hrest ir hir)
    · cases h

theorem adjustClients_length (now : Int) :
    ∀ (cs : List Json) (rows rows' : List (Nat × ClientTraffic)) (cs' : List Json),
      adjustClients now rows cs = .ok (rows', cs') → cs'.length = cs.length := by
  intro cs rows rows' cs' h
  exact ((adjustClients_rel now cs rows rows' cs' h).2.length_eq).symm

theorem nodup_fst_of_rel {rows rows' : List (Nat × ClientTraffic)}
    (h : List.Forall₂ AdjustedRow rows rows') : rows'.map Prod.fst = rows.map Prod.fst := by
  induction h with
  | nil => rfl
  | cons hab _ ih => simp [hab.1, ih]

theorem unique_index_of_rel {rows rows' : List (Nat × ClientTraffic)} {em : String} {i : Nat}
    (h : List.Forall₂ AdjustedRow rows rows')
    (hu : ∀ ir ∈ rows, ir.2.email = em → ir.1 = i) :
    ∀ ir ∈ rows', ir.2.email = em → ir.1 = i := by
  intro ir hir hem
  obtain ⟨a, ha, hr⟩ := forall₂_mem_right h hir
  have he : a.2.email = ir.2.email := by rw [← hr.2.1]
  rw [hr.1]
  exact hu a ha (he.trans hem)

theorem mem_unique_of_nodup {rows : List (Nat × ClientTraffic)}
    (hnd : (rows.map Prod.fst).Nodup) {i : Nat} {r r2 : ClientTraffic}
    (h1 : (i, r) ∈ rows) (h2 : (i, r2) ∈ rows) : r = r2 := by
  induction rows with
  | nil => cases h1
  | cons x rest ih =>
    rw [List.map_cons, List.nodup_cons] at hnd
    rcases List.mem_cons.1 h1 with h1 | h1 <;> rcases List.mem_cons.1 h2 with h2 | h2
    · rw [← h1] at h2
      exact (Prod.mk.inj h2).2.symm
    · exfalso
      apply hnd.1
      rw [← h1]
      exact List.mem_map.2 ⟨(i, r2), h2, rfl⟩
    · exfalso
      apply hnd.1
      rw [← h2]
      exact List.mem_map.2 ⟨(i, r), h1, rfl⟩
    · exact ih hnd.2 h1 h2

/-- The client loop resolves the target row at the one client that carries its email. -/
theorem adjustClients_target (now : Int) (em : String) (i : Nat) (r : ClientTraffic)
    (c : List (String × Json)) (e : Int) (post : List Json)
    (hem : emailIs c em = true) (he : lookupKey "expiryTime" c = some (.num e))
    (hr : r.email = em) (hneg : r.expiryTime < 0)
    (hpost : ∀ x ∈ post, noEmClient em x) :
    ∀ (pre : List Json) (rows rows' : List (Nat × ClientTraffic)) (cs' : List Json),
      (∀ x ∈ pre, noEmClient em x) →
      (i, r) ∈ rows → (rows.map Prod.fst).Nodup →
      (∀ ir ∈ rows, ir.2.email = em → ir.1 = i) →
      adjustClients now rows (pre ++ .obj c :: post) = .ok (rows', cs') →
      (i, { r with expiryTime := wrap64 (now - e) }) ∈ rows' ∧
      ∃ pre' post', cs' = pre' ++
          .obj (setKey "expiryTime" (.num (wrap64 (now - e))) c) :: post' ∧
        pre'.length = pre.length := by
  intro pre
  induction pre with
  | nil =>
    intro rows rows' cs' _ hmem hnd hu h
    rw [List.nil_append] at h
    unfold adjustClients at h
    simp only at h
    split at h
    · cases h
    · rename_i hnone
      exfalso
      rcases adjustRows_spec now c rows _ hnone with ⟨_, hall⟩ | ⟨_, _, _, _, _, _, _, _, _, _, hres⟩
      · exact hall (i, r) hmem ⟨hneg, by rw [hr]; exact hem⟩
      · cases hres
    · rename_i rows1 w hadj
      split at h
      · cases h
      · rename_i rows2 post' hrest
        cases h
        rcases adjustRows_spec now c rows _ hadj with ⟨hn, _⟩ | ⟨p, j, t, q, e', hsplit, _, _,
          hemt, he', hres⟩
        · cases hn
        · simp only [Option.some.injEq, Prod.mk.injEq] at hres
          obtain ⟨rfl, rfl⟩ := hres
          rw [he] at he'
          cases he'
          have htem : t.email = em := emailIs_unique hemt hem
          have hj : j = i := hu (j, t) (by rw [hsplit]; simp) htem
          subst hj
          have ht : t = r := mem_unique_of_nodup hnd (by rw [hsplit]; simp) hmem
          subst ht
          refine ⟨?_, [], post', rfl, rfl⟩
          exact (adjustClients_frame now em post _ _ _ hpost hrest
            (j, { t with expiryTime := wrap64 (now - e) }) hr).1 (by simp)
  | cons x pre0 ih =>
    intro rows rows' cs' hpre hmem hnd hu h
    have hpre0 : ∀ y ∈ pre0, noEmClient em y := fun y hy => hpre y (List.mem_cons_of_mem _ hy)
    rw [List.cons_append] at h
    unfold adjustClients at h
    split at h
    · rename_i o
      split at h
      · cases h
      · split at h
        · cases h
        · rename_i rows2 rest' hrest
          cases h
          obtain ⟨h1, pre', post', h2, h3⟩ := ih _ _ _ hpre0 hmem hnd hu hrest
          exact ⟨h1, .obj o :: pre', post', by rw [h2]; rfl, by simp [h3]⟩
      · rename_i rows1 w hadj
        split at h
        · cases h
        · rename_i rows2 rest' hrest
          cases h
          have hrel := (adjustRows_some_rel hadj).1
          have hmem1 : (i, r) ∈ rows1 :=
            (adjustRows_frame hadj (hpre _ (List.mem_cons_self _ _) o rfl) (i, r) hr).1 hmem
          have hnd1 : (rows1.map Prod.fst).Nodup := by rw [nodup_fst_of_rel hrel]; exact hnd
          obtain ⟨h1, pre', post', h2, h3⟩ := ih _ _ _ hpre0 hmem1 hnd1
            (unique_index_of_rel hrel hu) hrest
          exact ⟨h1, _ :: pre', post', by rw [h2]; rfl, by simp [h3]⟩
    · cases h

theorem adjustInbounds_cons {now : Int} {ids : List Int} {rows rows' : List (Nat × ClientTraffic)}
    {ib : Inbound} {rest out : List Inbound}
    (h : adjustInbounds now ids rows (ib :: rest) = .ok (rows', out)) :
    ∃ rows1 ib' rest', out = ib' :: rest' ∧
      adjustInbounds now ids rows1 rest = .ok (rows', rest') ∧
      ((ib' = ib ∧ rows1 = rows ∧
          (ids.contains ib.id = true → ∀ settings cs, ib.settings = some (.obj settings) →
            lookupKey "clients" settings = some (.arr cs) → False)) ∨
        (ids.contains ib.id = true ∧ ∃ settings cs cs', ib.settings = some (.obj settings) ∧
          lookupKey "clients" settings = some (.arr cs) ∧
          adjustClients now rows cs = .ok (rows1, cs') ∧ ib' = withClients ib settings cs')) := by
  unfold adjustInbounds at h
  split at h
  · cases h
  · rename_i rows1 ib' hstep
    split at h
    · cases h
    · rename_i rows2 rest' hrest
      cases h
      refine ⟨rows1, ib', rest', rfl, hrest, ?_⟩
      split at hstep
      · rename_i hin
        split at hstep
        · rename_i settings hs
          split at hstep
          · rename_i cs hcs
            split at hstep
            · cases hstep
            · rename_i rows3 cs' hadj
              cases hstep
              exact Or.inr ⟨hin, settings, cs, cs', hs, hcs, hadj, rfl⟩
          · rename_i hno
            cases hstep
            refine Or.inl ⟨rfl, rfl, ?_⟩
            intro _ settings2 cs hs2 hcs
            rw [hs] at hs2
            cases hs2
            exact hno cs hcs
        · rename_i hno
          cases hstep
          refine Or.inl ⟨rfl, rfl, ?_⟩
          intro _ settings2 cs hs2 _
          exact hno settings2 hs2
      · rename_i hin
        cases hstep
        exact Or.inl ⟨rfl, rfl, fun h1 => absurd h1 hin⟩

theorem adjustInbounds_frame (now : Int) (ids : List Int) (em : String) :
    ∀ (inbounds : List Inbound) (rows rows' : List (Nat × ClientTraffic))
      (inbounds' : List Inbound),
      (∀ b ∈ inbounds, noEmInbound em b) →
      adjustInbounds now ids rows inbounds = .ok (rows', inbounds') →
      ∀ ir : Nat × ClientTraffic, ir.2.email = em → (ir ∈ rows ↔ ir ∈ rows') := by
  intro inbounds
  induction inbounds with
  | nil =>
    intro rows rows' inbounds' _ h ir _
    simp only [adjustInbounds] at h
    cases h
    exact Iff.rfl
  | cons ib rest ih =>
    intro rows rows' inbounds' hno h ir hir
    have hrestno : ∀ b ∈ rest, noEmInbound em b := fun b hb => hno b (List.mem_cons_of_mem _ hb)
    obtain ⟨rows1, ib', rest', _, hrest, hstep⟩ := adjustInbounds_cons h
    rcases hstep with ⟨_, rfl, _⟩ | ⟨_, settings, cs, cs', hs, hcs, hadj, _⟩
    · exact ih _ _ _ hrestno hrest ir hir
    · have h1 := adjustClients_frame now em cs _ _ _
        (hno ib (List.mem_cons_self _ _) settings cs hs hcs) hadj ir hir
      exact h1.trans (ih _ _ _ hrestno hrest ir hir)

/-- The inbound loop resolves the target row at the one inbound whose settings carry its
email. -/
theorem adjustInbounds_target (now : Int) (ids : List Int) (em : String) (i : Nat)
    (r : ClientTraffic) (ib : Inbound) (settings : List (String × Json))
    (pre post : List Json) (c : List (String × Json)) (e : Int) (postI : List Inbound)
    (hin : ids.contains ib.id = true)
    (hs : ib.settings = some (.obj settings))
    (hcs : lookupKey "clients" settings = some (.arr (pre ++ .obj c :: post)))
    (hem : emailIs c em = true) (he : lookupKey "expiryTime" c = some (.num e))
    (hr : r.email = em) (hneg : r.expiryTime < 0)
    (hpre : ∀ x ∈ pre, noEmClient em x) (hpost : ∀ x ∈ post, noEmClient em x)
    (hpostI : ∀ b ∈ postI, noEmInbound em b) :
    ∀ (preI : List Inbound) (rows rows' : List (Nat × ClientTraffic)) (out : List Inbound),
      (∀ b ∈ preI, noEmInbound em b) →
      (i, r) ∈ rows → (rows.map Prod.fst).Nodup →
      (∀ ir ∈ rows, ir.2.email = em → ir.1 = i) →
      adjustInbounds now ids rows (preI ++ ib :: postI) = .ok (rows', out) →
      (i, { r with expiryTime := wrap64 (now - e) }) ∈ rows' ∧
      ∃ preI' postI' pre' post', out = preI' ++
          withClients ib settings
            (pre' ++ .obj (setKey "expiryTime" (.num (wrap64 (now - e))) c) :: post') :: postI' ∧
        preI'.length = preI.length ∧ pre'.length = pre.length := by
  intro preI
  induction preI with
  | nil =>
    intro rows rows' out _ hmem hnd hu h
    rw [List.nil_append] at h
    obtain ⟨rows1, ib', rest', rfl, hrest, hstep⟩ := adjustInbounds_cons h
    rcases hstep with ⟨_, _, hno⟩ | ⟨_, settings2, cs, cs', hs2, hcs2, hadj, rfl⟩
    · exact (hno hin settings _ hs hcs).elim
    · rw [hs] at hs2
      cases hs2
      rw [hcs] at hcs2
      cases hcs2
      obtain ⟨h1, pre', post', rfl, h3⟩ := adjustClients_target now em i r c e post hem he hr hneg
        hpost pre rows rows1 cs' hpre hmem hnd hu hadj
      refine ⟨?_, [], rest', pre', post', rfl, rfl, h3⟩
      exact (adjustInbounds_frame now ids em postI _ _ _ hpostI hrest
        (i, { r with expiryTime := wrap64 (now - e) }) hr).1 h1
  | cons b preI0 ih =>
    intro rows rows' out hpreI hmem hnd hu h
    have hpreI0 : ∀ y ∈ preI0, noEmInbound em y :=
      fun y hy => hpreI y (List.mem_cons_of_mem _ hy)
    rw [List.cons_append] at h
    obtain ⟨rows1, b', rest', rfl, hrest, hstep⟩ := adjustInbounds_cons h
    rcases hstep with ⟨_, rfl, _⟩ | ⟨_, settings2, cs, cs', hs2, hcs2, hadj, _⟩
    · obtain ⟨h1, preI', postI', pre', post', h2, h3, h4⟩ := ih _ _ _ hpreI0 hmem hnd hu hrest
      exact ⟨h1, b' :: preI', postI', pre', post', by rw [h2]; rfl, by simp [h3], h4⟩
    · have hrel := (adjustClients_rel now _ _ _ _ hadj).1
      have hmem1 : (i, r) ∈ rows1 :=
        (adjustClients_frame now em cs _ _ _
          (hpreI b (List.mem_cons_self _ _) settings2 cs hs2 hcs2) hadj (i, r) hr).1 hmem
      have hnd1 : (rows1.map Prod.fst).Nodup := by rw [nodup_fst_of_rel hrel]; exact hnd
      obtain ⟨h1, preI', postI', pre', post', h2, h3, h4⟩ := ih _ _ _ hpreI0 hmem1 hnd1
        (unique_index_of_rel hrel hu) hrest
      exact ⟨h1, b' :: preI', postI', pre', post', by rw [h2]; rfl, by simp [h3], h4⟩

theorem adjustTraffics_target {inbounds inbounds' : List Inbound}
    {rows rows' : List (Nat × ClientTraffic)} {now : Int}
    (h : adjustTraffics inbounds rows now = .ok (inbounds', rows'))
    (i : Nat) (r : ClientTraffic) (preI : List Inbound) (ib : Inbound) (postI : List Inbound)
    (settings : List (String × Json)) (pre : List Json) (c : List (String × Json))
    (post : List Json) (e : Int)
    (hmem : (i, r) ∈ rows) (hneg : r.expiryTime < 0)
    (hnd : (rows.map Prod.fst).Nodup)
    (hu : ∀ ir ∈ rows, ir.2.email = r.email → ir.1 = i)
    (hsplit : inbounds = preI ++ ib :: postI) (hid : ib.id = r.inboundId)
    (hs : ib.settings = some (.obj settings))
    (hcs : lookupKey "clients" settings = some (.arr (pre ++ .obj c :: post)))
    (hem : emailIs c r.email = true) (he : lookupKey "expiryTime" c = some (.num e))
    (hcl : ∀ x ∈ pre ++ post, noEmClient r.email x)
    (hib : ∀ b ∈ preI ++ postI, noEmInbound r.email b) :
    (i, { r with expiryTime := wrap64 (now - e) }) ∈ rows' ∧
      ∃ preI' postI' pre' post', inbounds' = preI' ++
          withClients ib settings
            (pre' ++ .obj (setKey "expiryTime" (.num (wrap64 (now - e))) c) :: post') :: postI' ∧
        preI'.length = preI.length ∧ pre'.length = pre.length := by
  have hin : (List.map (fun ir : Nat × ClientTraffic => ir.2.inboundId)
      (List.filter (fun ir => decide (ir.2.expiryTime < 0)) rows)).contains ib.id = true := by
    rw [List.contains_iff_exists_mem_beq]
    refine ⟨r.inboundId, List.mem_map.2 ⟨(i, r), List.mem_filter.2 ⟨hmem, by simpa using hneg⟩,
      rfl⟩, by simp [hid]⟩
  have hlen : (List.map (fun ir : Nat × ClientTraffic => ir.2.inboundId)
      (List.filter (fun ir => decide (ir.2.expiryTime < 0)) rows)).length > 0 := by
    apply List.length_pos_of_mem
    exact List.mem_map.2 ⟨(i, r), List.mem_filter.2 ⟨hmem, by simpa using hneg⟩, rfl⟩
  unfold adjustTraffics at h
  simp only at h
  rw [if_pos hlen] at h
  split at h
  · cases h
  · rename_i rows2 inbounds2 hadj
    cases h
    subst hsplit
    exact adjustInbounds_target now _ r.email i r ib settings pre post c e postI hin hs hcs hem he
      rfl hneg (fun x hx => hcl x (List.mem_append_left _ hx))
      (fun x hx => hcl x (List.mem_append_right _ hx))
      (fun b hb => hib b (List.mem_append_right _ hb)) preI rows _ _
      (fun b hb => hib b (List.mem_append_left _ hb)) hmem hnd hu hadj

/-! ## Client-level accounting -/

theorem saveRows_length (rows : List (Nat × ClientTraffic)) :
    ∀ tr : List ClientTraffic, (saveRows tr rows).length = tr.length := by
  induction rows with
  | nil => intro tr; rfl
  | cons x rest ih =>
    intro tr
    have h := ih (tr.set x.1 x.2)
    simp only [saveRows, List.foldl_cons] at h ⊢
    rw [h, List.length_set]

theorem saveRows_not_mem (rows : List (Nat × ClientTraffic)) (i : Nat) :
    ∀ tr : List ClientTraffic, i ∉ rows.map Prod.fst → (saveRows tr rows)[i]? = tr[i]? := by
  induction rows with
  | nil => intro tr _; rfl
  | cons x rest ih =>
    intro tr hni
    rw [List.map_cons, List.mem_cons, not_or] at hni
    have h := ih (tr.set x.1 x.2) hni.2
    simp only [saveRows, List.foldl_cons] at h ⊢
    rw [h, List.getElem?_set_ne (Ne.symm hni.1)]

theorem saveRows_mem (rows : List (Nat × ClientTraffic)) (i : Nat) (x : ClientTraffic) :
    ∀ tr : List ClientTraffic, (rows.map Prod.fst).Nodup → (i, x) ∈ rows → i < tr.length →
      (saveRows tr rows)[i]? = some x := by
  induction rows with
  | nil => intro tr _ h; cases h
  | cons y rest ih =>
    intro tr hnd hmem hlt
    rw [List.map_cons, List.nodup_cons] at hnd
    rcases List.mem_cons.1 hmem with h | h
    · subst h
      have h1 := saveRows_not_mem rest i (tr.set i x) hnd.1
      simp only [saveRows, List.foldl_cons] at h1 ⊢
      rw [h1, List.getElem?_set_self hlt]
    · have h1 := ih (tr.set y.1 y.2) hnd.2 h (by rw [List.length_set]; exact hlt)
      simp only [saveRows, List.foldl_cons] at h1 ⊢
      exact h1

theorem selectRows_mem (p : ClientTraffic → Bool) (tr : List ClientTraffic) (i : Nat)
    (r : ClientTraffic) : (i, r) ∈ selectRows p tr ↔ tr[i]? = some r ∧ p r = true := by
  unfold selectRows
  rw [List.mem_filter, List.mk_mem_enum_iff_getElem?]

theorem selectRows_nodup (p : ClientTraffic → Bool) (tr : List ClientTraffic) :
    ((selectRows p tr).map Prod.fst).Nodup := by
  unfold selectRows
  have h : ((tr.enum.filter (fun ir => p ir.2)).map Prod.fst).Sublist (tr.enum.map Prod.fst) :=
    (List.filter_sublist _).map _
  apply h.nodup
  rw [List.enum_map_fst]
  exact List.nodup_range _

theorem applyDeltas_fst (traffics : List ClientDelta) :
    ∀ rows : List (Nat × ClientTraffic),
      (applyDeltas traffics rows).1 = rows.map (fun ir => (ir.1, addDelta traffics ir.2)) := by
  intro rows
  induction rows with
  | nil => rfl
  | cons x rest ih =>
    obtain ⟨i, row⟩ := x
    unfold applyDeltas
    rw [List.map_cons, ← ih]
    simp only [addDelta]
    split <;> rfl

theorem find_none_iff (traffics : List ClientDelta) (email : String) :
    traffics.find? (fun t => email == t.email) = none ↔
      (traffics.map (fun t => t.email)).contains email = false := by
  rw [List.find?_eq_none]
  constructor
  · intro h
    rw [Bool.eq_false_iff]
    intro hc
    rw [List.contains_iff_exists_mem_beq] at hc
    obtain ⟨e, he, heq⟩ := hc
    obtain ⟨t, ht, rfl⟩ := List.mem_map.1 he
    exact h t ht heq
  · intro h t ht heq
    rw [Bool.eq_false_iff] at h
    apply h
    rw [List.contains_iff_exists_mem_beq]
    exact ⟨t.email, List.mem_map.2 ⟨t, ht, rfl⟩, heq⟩

theorem addDelta_of_none {batch : List ClientDelta} {r : ClientTraffic}
    (h : batch.find? (fun t => r.email == t.email) = none) : addDelta batch r = r := by
  unfold addDelta
  rw [h]

theorem addDelta_congr (batch : List ClientDelta) (a b : ClientTraffic)
    (h : { b with expiryTime := a.expiryTime } = a) :
    { addDelta batch b with expiryTime := a.expiryTime } = addDelta batch a := by
  have he : b.email = a.email := by rw [← h]
  unfold addDelta
  rw [he]
  split
  · rw [← h]
  · exact h

/-- The shape of a successful `addClientTraffic` on a tick without storage faults: the Ledger
is left as it was, or the loaded rows were adjusted, grown and saved. -/
theorem addClientTraffic_ok_shape (env : Env) (st : Store) (online : List String) (now : Int)
    (batch : List ClientDelta)
    (hok : (addClientTraffic env noFaults st online now batch).err = none) :
    ((addClientTraffic env noFaults st online now batch).store.traffics = st.traffics ∧
      (batch = [] ∨
        selectRows (fun r => (batch.map (fun t => t.email)).contains r.email) st.traffics = [])) ∨
    (env.hasProcess = true ∧ ∃ inbounds rows,
      adjustTraffics st.inbounds
        (selectRows (fun r => (batch.map (fun t => t.email)).contains r.email) st.traffics)
        now = .ok (inbounds, rows) ∧
      (addClientTraffic env noFaults st online now batch).store.traffics =
        saveRows st.traffics (applyDeltas batch rows).1 ∧
      (addClientTraffic env noFaults st online now batch).online =
        (applyDeltas batch rows).2) := by
  unfold addClientTraffic at hok ⊢
  simp only [noFaults] at hok ⊢
  split
  · rename_i h0
    exact Or.inl ⟨rfl, Or.inl (List.length_eq_zero.1 h0)⟩
  · rename_i h0
    rw [if_neg h0] at hok
    simp only [Bool.false_eq_true, if_false] at hok ⊢
    split
    · rename_i h1
      exact Or.inl ⟨rfl, Or.inr (List.length_eq_zero.1 h1)⟩
    · rename_i h1
      rw [if_neg h1] at hok
      split
      · rename_i e he
        rw [he] at hok
        cases hok
      · rename_i inbounds rows he
        rw [he] at hok
        simp only at hok
        split
        · rename_i hp
          exact Or.inr ⟨hp, inbounds, rows, he, rfl, rfl⟩
        · rename_i hp
          rw [if_neg hp] at hok
          cases hok

/-- C11 (counterexample): a batch that names the email "a" twice, with deltas 1 and 2, leaves
the row of "a" at up = 1 and down = 1: only the first entry is added. -/
theorem client_accounting_counterexample :
    (addClientTraffic env0 noFaults storeOneClient [] tickNow batchTwice).err = none ∧
    (addClientTraffic env0 noFaults storeOneClient [] tickNow batchTwice).store.traffics =
      [{ inboundId := 1, enable := true, email := "a", up := 1, down := 1, expiryTime := 0,
         total := 0, reset := 0 }] := by
  decide

/-- C11 (amended): after a successful `addClientTraffic` without storage faults the Ledger has
as many rows as before, and the row at every position is the old row with the deltas of the
first batch entry that carries its email added in `int64` arithmetic (`addDelta`), the expiry
time apart; a row whose email is not in the batch is unchanged. -/
theorem client_accounting (env : Env) (st : Store) (online : List String) (now : Int)
    (batch : List ClientDelta)
    (hok : (addClientTraffic env noFaults st online now batch).err = none) :
    (addClientTraffic env noFaults st online now batch).store.traffics.length
        = st.traffics.length ∧
      ∀ (i : Nat) (r : ClientTraffic), st.traffics[i]? = some r →
        ∃ r', (addClientTraffic env noFaults st online now batch).store.traffics[i]? = some r' ∧
          { r' with expiryTime := r.expiryTime } = addDelta batch r ∧
          (batch.find? (fun t => r.email == t.email) = none → r' = r) := by
  rcases addClientTraffic_ok_shape env st online now batch hok with
    ⟨hst, hcase⟩ | ⟨_, inbounds, rows, hadj, hst, _⟩
  · rw [hst]
    refine ⟨rfl, fun i r hr => ⟨r, hr, ?_, fun _ => rfl⟩⟩
    have hnone : batch.find? (fun t => r.email == t.email) = none := by
      rcases hcase with rfl | hsel
      · rfl
      · rw [find_none_iff]
        by_contra hc
        have hc2 : (batch.map (fun t => t.email)).contains r.email = true := by
          simpa using hc
        have hmem : (i, r) ∈ selectRows
            (fun r => (batch.map (fun t => t.email)).contains r.email) st.traffics :=
          (selectRows_mem _ _ _ _).2 ⟨hr, hc2⟩
        rw [hsel] at hmem
        cases hmem
    rw [addDelta_of_none hnone]
  · rw [hst]
    have hrel := (adjustTraffics_rel hadj).1
    have hfst : ((applyDeltas batch rows).1).map Prod.fst =
        (selectRows (fun r => (batch.map (fun t => t.email)).contains r.email)
          st.traffics).map Prod.fst := by
      rw [applyDeltas_fst, List.map_map, ← nodup_fst_of_rel hrel]
      rfl
    refine ⟨saveRows_length _ _, fun i r hr => ?_⟩
    have hlt : i < st.traffics.length := (List.getElem?_eq_some_iff.1 hr).1
    by_cases hc : (batch.map (fun t => t.email)).contains r.email = true
    · have hmem : (i, r) ∈ selectRows
          (fun r => (batch.map (fun t => t.email)).contains r.email) st.traffics :=
        (selectRows_mem _ _ _ _).2 ⟨hr, hc⟩
      obtain ⟨b, hb, hab⟩ := forall₂_mem_left hrel hmem
      obtain ⟨j, r1⟩ := b
      have hj : j = i := hab.1
      subst hj
      have hmem2 : (j, addDelta batch r1) ∈ (applyDeltas batch rows).1 := by
        rw [applyDeltas_fst]
        exact List.mem_map.2 ⟨(j, r1), hb, rfl⟩
      refine ⟨addDelta batch r1, saveRows_mem _ _ _ _ ?_ hmem2 hlt,
        addDelta_congr batch r r1 hab.2.1, ?_⟩
      · rw [hfst]
        exact selectRows_nodup _ _
      · intro hnone
        rw [find_none_iff] at hnone
        rw [hnone] at hc
        cases hc
    · have hnone : batch.find? (fun t => r.email == t.email) = none := by
        rw [find_none_iff]
        simpa using hc
      refine ⟨r, ?_, by rw [addDelta_of_none hnone], fun _ => rfl⟩
      rw [saveRows_not_mem _ _ _ ?_]
      · exact hr
      · rw [hfst]
        intro hin
        obtain ⟨x, hx, hxi⟩ := List.mem_map.1 hin
        obtain ⟨k, y⟩ := x
        simp only at hxi
        subst hxi
        have h2 := (selectRows_mem _ _ _ _).1 hx
        rw [hr] at h2
        have hy : r = y := Option.some.inj h2.1
        subst hy
        exact hc h2.2

/-- C11 (witness): the batch with one entry for "a" on the store with one client. -/
theorem client_accounting_witness :
    (addClientTraffic env0 noFaults storeOneClient [] tickNow batchOne).err = none ∧
    (addClientTraffic env0 noFaults storeOneClient [] tickNow batchOne).store.traffics.length
        = storeOneClient.traffics.length ∧
    (addClientTraffic env0 noFaults storeOneClient [] tickNow batchOne).store.traffics =
      [{ inboundId := 1, enable := true, email := "a", up := 1, down := 1, expiryTime := 0,
         total := 0, reset := 0 }] :=
  ⟨by decide, (client_accounting env0 storeOneClient [] tickNow batchOne (by decide)).1,
    by decide⟩

/-! ## First-use sentinel: the claim -/

/-- C12 (counterexample): a row and its client carry the sentinel -432000000 (five days); the
tick at `tickNow` sets both to `tickNow + 432000000`, not to `tickNow - 432000000`. -/
theorem sentinel_counterexample :
    (addClientTraffic env0 noFaults storeSentinel [] tickNow batchOne).err = none ∧
    (addClientTraffic env0 noFaults storeSentinel [] tickNow batchOne).store.traffics =
      [{ sentinelRow with up := 1, down := 1, expiryTime := 1700432000000 }] ∧
    (addClientTraffic env0 noFaults storeSentinel [] tickNow batchOne).store.inbounds =
      [withClients sentinelInbound sentinelSettings
        [.obj (setKey "expiryTime" (.num 1700432000000) sentinelClient)]] ∧
    (1700432000000 : Int) = tickNow + 432000000 ∧
    (1700432000000 : Int) ≠ tickNow - 432000000 :=
  ⟨by decide, by decide, rfl, by decide, by decide⟩

/-- C12 (amended): when `adjustTraffics` succeeds at time `now` on the loaded rows,
(1) every loaded row keeps its key and all fields but the expiry time, and a row whose expiry
time is not negative is unchanged (`AdjustedRow`);
(2) every inbound is unchanged or has its client list rewritten entry by entry, an entry
being touched only if it carries the email of a loaded row with a negative expiry time
(`AdjustedInbound`);
(3) for a loaded row `r` with a negative expiry time whose email is carried by no other loaded
row, and by exactly one client object `c` among all inbounds, held by the inbound with id
`r.inboundId` and with a numeric `expiryTime` of `e`: the row's expiry time and the client's
`expiryTime` are both `now - e` in `int64` arithmetic, i.e. `now` plus the magnitude of the
sentinel when `e` is the sentinel. -/
theorem sentinel_resolution (inbounds inbounds' : List Inbound)
    (rows rows' : List (Nat × ClientTraffic)) (now : Int)
    (hok : adjustTraffics inbounds rows now = .ok (inbounds', rows')) :
    List.Forall₂ AdjustedRow rows rows' ∧
    List.Forall₂ (AdjustedInbound rows) inbounds inbounds' ∧
    ∀ (i : Nat) (r : ClientTraffic) (preI : List Inbound) (ib : Inbound)
      (postI : List Inbound) (settings : List (String × Json)) (pre : List Json)
      (c : List (String × Json)) (post : List Json) (e : Int),
      (i, r) ∈ rows → r.expiryTime < 0 → (rows.map Prod.fst).Nodup →
      (∀ ir ∈ rows, ir.2.email = r.email → ir.1 = i) →
      inbounds = preI ++ ib :: postI → ib.id = r.inboundId →
      ib.settings = some (.obj settings) →
      lookupKey "clients" settings = some (.arr (pre ++ .obj c :: post)) →
      emailIs c r.email = true → lookupKey "expiryTime" c = some (.num e) →
      (∀ x ∈ pre ++ post, noEmClient r.email x) →
      (∀ b ∈ preI ++ postI, noEmInbound r.email b) →
      (i, { r with expiryTime := wrap64 (now - e) }) ∈ rows' ∧
      (e < 0 → now - e < 2 ^ 63 → 0 ≤ now → wrap64 (now - e) = now + e.natAbs) ∧
      ∃ preI' postI' pre' post', inbounds' = preI' ++
          withClients ib settings
            (pre' ++ .obj (setKey "expiryTime" (.num (wrap64 (now - e))) c) :: post') :: postI' ∧
        preI'.length = preI.length ∧ pre'.length = pre.length := by
  refine ⟨(adjustTraffics_rel hok).1, (adjustTraffics_rel hok).2, ?_⟩
  intro i r preI ib postI settings pre c post e hmem hneg hnd hu hsplit hid hs hcs hem he hcl hib
  obtain ⟨h1, h2⟩ := adjustTraffics_target hok i r preI ib postI settings pre c post e hmem hneg
    hnd hu hsplit hid hs hcs hem he hcl hib
  refine ⟨h1, ?_, h2⟩
  intro he0 hlt hnow
  unfold wrap64
  rw [Int.emod_eq_of_lt (by omega) (by omega)]
  omega

/-- C12 (witness): the sentinel store at `tickNow`. -/
theorem sentinel_resolution_witness :
    adjustTraffics [sentinelInbound] [(0, sentinelRow)] tickNow =
      .ok ([withClients sentinelInbound sentinelSettings
              [.obj (setKey "expiryTime" (.num 1700432000000) sentinelClient)]],
           [(0, { sentinelRow with expiryTime := 1700432000000 })]) ∧
    List.Forall₂ AdjustedRow [(0, sentinelRow)]
      [(0, { sentinelRow with expiryTime := 1700432000000 })] ∧
    (0, { sentinelRow with expiryTime := wrap64 (tickNow - (-432000000)) }) ∈
      [(0, { sentinelRow with expiryTime := 1700432000000 })] :=
  ⟨rfl, (sentinel_resolution _ _ _ _ tickNow (rfl : adjustTraffics [sentinelInbound]
      [(0, sentinelRow)] tickNow =
      .ok ([withClients sentinelInbound sentinelSettings
              [.obj (setKey "expiryTime" (.num 1700432000000) sentinelClient)]],
           [(0, { sentinelRow with expiryTime := 1700432000000 })]))).1,
    ((sentinel_resolution _ _ _ _ tickNow (rfl : adjustTraffics [sentinelInbound]
      [(0, sentinelRow)] tickNow =
      .ok ([withClients sentinelInbound sentinelSettings
              [.obj (setKey "expiryTime" (.num 1700432000000) sentinelClient)]],
           [(0, { sentinelRow with expiryTime := 1700432000000 })]))).2.2
      0 sentinelRow [] sentinelInbound [] sentinelSettings [] sentinelClient [] (-432000000)
      (by decide) (by decide) (by decide) (by decide) rfl rfl rfl rfl rfl rfl
      (by simp) (by simp)).1⟩

/-! ## Online set -/

theorem addClientTraffic_err_online (env : Env) (faults : TickFaults) (st : Store)
    (online1 online2 : List String) (now : Int) (batch : List ClientDelta) :
    (addClientTraffic env faults st online1 now batch).err =
      (addClientTraffic env faults st online2 now batch).err := by
  unfold addClientTraffic
  simp only
  split_ifs <;> try rfl
  all_goals (split <;> rfl)

theorem applyDeltas_snd (traffics : List ClientDelta) :
    ∀ rows : List (Nat × ClientTraffic),
      (applyDeltas traffics rows).2 = (rows.map Prod.snd).filterMap (onlineOf traffics) := by
  intro rows
  induction rows with
  | nil => rfl
  | cons x rest ih =>
    obtain ⟨i, row⟩ := x
    unfold applyDeltas
    rw [List.map_cons, List.filterMap_cons, ← ih]
    simp only [onlineOf]
    split
    · rename_i t ht
      split <;> rfl
    · rfl

theorem onlineOf_congr (batch : List ClientDelta) (a b : Nat × ClientTraffic)
    (h : AdjustedRow a b) : onlineOf batch b.2 = onlineOf batch a.2 := by
  have he : b.2.email = a.2.email := by rw [← h.2.1]
  unfold onlineOf
  rw [he]

theorem filterMap_onlineOf_rel (batch : List ClientDelta)
    {rows rows' : List (Nat × ClientTraffic)} (h : List.Forall₂ AdjustedRow rows rows') :
    (rows'.map Prod.snd).filterMap (onlineOf batch) =
      (rows.map Prod.snd).filterMap (onlineOf batch) := by
  induction h with
  | nil => rfl
  | cons hab _ ih =>
    rw [List.map_cons, List.map_cons, List.filterMap_cons, List.filterMap_cons, ih,
      onlineOf_congr batch _ _ hab]

theorem selectRows_snd (p : ClientTraffic → Bool) (tr : List ClientTraffic) :
    (selectRows p tr).map Prod.snd = tr.filter p := by
  unfold selectRows
  have h : ∀ (l : List ClientTraffic) (n : Nat),
      ((l.enumFrom n).filter (fun ir => p ir.2)).map Prod.snd = l.filter p := by
    intro l
    induction l with
    | nil => intro n; rfl
    | cons x rest ih =>
      intro n
      simp only [List.enumFrom_cons, List.filter_cons]
      split
      · rw [List.map_cons, ih]
      · exact ih _
  exact h tr 0

theorem addClientTraffic_online (env : Env) (st : Store) (online : List String) (now : Int)
    (batch : List ClientDelta) (hp : env.hasProcess = true)
    (hok : (addClientTraffic env noFaults st online now batch).err = none)
    (hrow : batch = [] ∨
      ∃ r ∈ st.traffics, (batch.map (fun t => t.email)).contains r.email = true) :
    (addClientTraffic env noFaults st online now batch).online =
      (st.traffics.filter (fun r => (batch.map (fun t => t.email)).contains r.email)).filterMap
        (onlineOf batch) := by
  rcases hrow with rfl | ⟨r, hr, hc⟩
  · simp [addClientTraffic, hp]
  · rcases addClientTraffic_ok_shape env st online now batch hok with
      ⟨_, hcase⟩ | ⟨_, inbounds, rows, hadj, _, hon⟩
    · exfalso
      have hmem : r ∈ st.traffics.filter
          (fun r => (batch.map (fun t => t.email)).contains r.email) :=
        List.mem_filter.2 ⟨hr, hc⟩
      rcases hcase with rfl | hsel
      · simp at hc
      · rw [← selectRows_snd, hsel] at hmem
        cases hmem
    · rw [hon, applyDeltas_snd, filterMap_onlineOf_rel batch (adjustTraffics_rel hadj).1,
        selectRows_snd]

/-! ## Tick atomicity -/

/-- C18 (failing input): three ticks on the store with one client, each with a failing step
and the returned error `nil`.  When `autoRenewClients` fails, the client deltas of the tick
are committed; when the save of the client rows fails, the inbound deltas of the tick are
committed without the client deltas; only a failure of the last step rolls the tick back. -/
theorem tick_commits_after_failed_step :
    (AddTraffic env0 faultRenew 1 storeOneClient [] tickNow [] batchOne).map
        (fun t => (t.store.traffics, t.err)) =
      some ([{ inboundId := 1, enable := true, email := "a", up := 1, down := 1,
               expiryTime := 0, total := 0, reset := 0 }], none) ∧
    (AddTraffic env0 faultClientSave 1 storeOneClient [] tickNow inboundDelta batchOne).map
        (fun t => (t.store.inbounds.map (fun ib => (ib.up, ib.down)), t.store.traffics, t.err)) =
      some ([(5, 7)], storeOneClient.traffics, none) ∧
    (AddTraffic env0 faultDisableInbounds 1 storeOneClient [] tickNow inboundDelta batchOne).map
        (fun t => (t.store.inbounds.map (fun ib => (ib.up, ib.down)), t.store.traffics, t.err)) =
      some ([(0, 0)], storeOneClient.traffics, none) := by
  decide

/-! ## Removal of depleted clients -/

theorem depletedGroups_nil : depletedGroups [] = [] := rfl

/-- When no disabled row in scope is older than thirty days, the grouped query is empty: the
inbounds are left as they are, and every disabled row in scope is deleted. -/
theorem DelDepletedClients_no_group (env : Env) (st : Store) (id now : Int)
    (h : ∀ r ∈ st.traffics, depletedScope id r = true → r.enable = false →
      wrap64 (now - 30 * 24 * 60 * 60 * 1000) ≤ r.expiryTime) :
    (DelDepletedClients env st id now).err = none ∧
    (DelDepletedClients env st id now).calls = [] ∧
    (DelDepletedClients env st id now).store.inbounds = st.inbounds ∧
    (DelDepletedClients env st id now).store.traffics =
      st.traffics.filter (fun r => !(depletedScope id r && !r.enable)) := by
  have hsel : st.traffics.filter (fun r => depletedScope id r && !r.enable &&
      decide (r.expiryTime < wrap64 (now - 30 * 24 * 60 * 60 * 1000))) = [] := by
    rw [List.filter_eq_nil_iff]
    intro r hr hc
    simp only [Bool.and_eq_true, Bool.not_eq_true', decide_eq_true_eq] at hc
    have := h r hr hc.1.1 hc.1.2
    omega
  unfold DelDepletedClients
  simp only [hsel, depletedGroups_nil, depletedLoop]
  exact ⟨trivial, trivial, trivial, trivial⟩

/-- C21 (failing input): the row of "a" is disabled and expired one day before `tickNow`.
`DelDepletedClients` at `tickNow`, for all inbounds and for inbound 1 alike, returns no
error and deletes the row of "a", while the inbound is stored as before and its settings
still hold the client "a". -/
theorem del_depleted_drops_row_of_kept_client :
    (DelDepletedClients env0 storeDisabledRecent (-1) tickNow).err = none ∧
    (DelDepletedClients env0 storeDisabledRecent (-1) tickNow).store.traffics =
      [{ inboundId := 1, enable := true, email := "b", up := 0, down := 0, expiryTime := 0,
         total := 0, reset := 0 }] ∧
    (DelDepletedClients env0 storeDisabledRecent (-1) tickNow).store.inbounds =
      storeDisabledRecent.inbounds ∧
    (DelDepletedClients env0 storeDisabledRecent (-1) tickNow).store.inbounds.map
        (fun ib => (GetClients ib).toOption.map (fun cs => cs.map (fun c => c.email))) =
      [some ["a", "b"]] ∧
    (DelDepletedClients env0 storeDisabledRecent 1 tickNow).err = none ∧
    (DelDepletedClients env0 storeDisabledRecent 1 tickNow).store.traffics.map
        (fun r => r.email) = ["b"] ∧
    (DelDepletedClients env0 storeDisabledRecent 1 tickNow).store.inbounds =
      storeDisabledRecent.inbounds :=
  ⟨by decide, by decide, rfl, by decide, by decide, by decide, rfl⟩

/-- The same store with the expiry time of "a" thirty-one days back: the client "a" leaves
the settings together with its row. -/
theorem del_depleted_old_example :
    (DelDepletedClients env0 storeDisabledOld (-1) tickNow).err = none ∧
    (DelDepletedClients env0 storeDisabledOld (-1) tickNow).store.traffics.map
        (fun r => r.email) = ["b"] ∧
    (DelDepletedClients env0 storeDisabledOld (-1) tickNow).store.inbounds.map
        (fun ib => (GetClients ib).toOption.map (fun cs => cs.map (fun c => c.email))) =
      [some ["b"]] := by
  decide

/-! ## Deletion guard on the stored client objects -/

/-- On an inbound whose stored client list holds exactly one client object, with the string
`clientId` under the protocol's identifier key (the empty string included), deleting
`clientId` fails with "no client remained in Inbound"; the stored inbounds and the Ledger are
unchanged and no live call is made. -/
theorem del_last_client_guard (env : Env) (st : Store) (inboundId : Int) (clientId : String)
    (ib : Inbound) (kvs c : List (String × Json))
    (hget : GetInbound st inboundId = some ib)
    (hs : ib.settings = some (.obj kvs))
    (hx : lookupKey "clients" kvs = some (.arr [.obj c]))
    (hkey : lookupKey (clientKeyName ib.protocol) c = some (.str clientId)) :
    (DelInboundClient env st inboundId clientId).err = some .noClientRemained ∧
    (DelInboundClient env st inboundId clientId).store = st ∧
    (DelInboundClient env st inboundId clientId).calls = [] := by
  simp [DelInboundClient, hget, hs, unmarshalMap, clientsArr, hx, delClientLoop, hkey,
    Outcome.fail]

theorem del_last_client_guard_witness :
    (DelInboundClient env0 storeOneClient 1 "u1").err = some .noClientRemained ∧
    (DelInboundClient env0 storeOneClient 1 "u1").store = storeOneClient ∧
    (DelInboundClient env0 storeOneClient 1 "u1").calls = [] :=
  del_last_client_guard env0 storeOneClient 1 "u1" _ _ _ rfl rfl rfl rfl

/-- A single stored client object without a string under the protocol's identifier key makes
`DelInboundClient` panic, whatever identifier is asked for. -/
theorem del_last_client_no_key (env : Env) (st : Store) (inboundId : Int) (clientId : String)
    (ib : Inbound) (kvs c : List (String × Json))
    (hget : GetInbound st inboundId = some ib)
    (hs : ib.settings = some (.obj kvs))
    (hx : lookupKey "clients" kvs = some (.arr [.obj c]))
    (hkey : ∀ v, lookupKey (clientKeyName ib.protocol) c ≠ some (.str v)) :
    (DelInboundClient env st inboundId clientId).err = some .panic := by
  have hloop : delClientLoop (clientKeyName ib.protocol) clientId
      { newClients := [], email := "", needApiDel := false } [.obj c] = none := by
    cases hl : lookupKey (clientKeyName ib.protocol) c with
    | none => simp [delClientLoop, hl]
    | some v =>
      cases v with
      | str w => exact absurd hl (hkey w)
      | _ => simp [delClientLoop, hl]
  simp [DelInboundClient, hget, hs, unmarshalMap, clientsArr, hx, hloop, Outcome.fail]

/-- C3 (failing input): the stored inbound holds exactly one client, an object without the
key `id`, whose protocol identifier therefore reads as the empty string.  `UpdateInbound`
stores these settings without an error.  `DelInboundClient` for the identifier "" then ends
in the panic of `c[client_key].(string)` and not in "no client remained in Inbound". -/
theorem del_last_client_panics :
    storeNoId.inbounds.map
        (fun ib => (GetClients ib).toOption.map
          (fun cs => cs.map (fun c => (clientKey ib.protocol c, c.email)))) =
      [some [("", "a")]] ∧
    (DelInboundClient env0 storeNoId 1 "").err = some .panic ∧
    (DelInboundClient env0 storeNoId 1 "").err ≠ some .noClientRemained ∧
    (UpdateInbound env0 storeOneClient requestNoId).err = none ∧
    (UpdateInbound env0 storeOneClient requestNoId).store.inbounds.map
        (fun ib => ib.settings) = storeNoId.inbounds.map (fun ib => ib.settings) ∧
    (DelInboundClient env0 (UpdateInbound env0 storeOneClient requestNoId).store 1 "").err =
      some .panic :=
  ⟨by decide, by decide, by decide, by decide, rfl, by decide⟩

/-! ## Online set: the claim -/

/-- The early return of `addClientTraffic` when no batch email has a Ledger row leaves the
online set of the tick before in place, while the empty batch clears it. -/
theorem online_set_stale_example :
    (addClientTraffic env0 noFaults storeOneClient ["a"] tickNow batchGhost).err = none ∧
    (addClientTraffic env0 noFaults storeOneClient ["a"] tickNow batchGhost).online = ["a"] ∧
    (addClientTraffic env0 noFaults storeOneClient [] tickNow batchGhost).online = [] ∧
    (addClientTraffic env0 noFaults storeOneClient ["a"] tickNow []).online = [] := by
  decide

/-- C17 (counterexample): the batch carries traffic (up + down = 2) for "a", which has a
Ledger row, and for "ghost", which has none; the online set reported is ["a"] for either
prior set, so "ghost" received nonzero traffic and is not reported. -/
theorem online_set_counterexample :
    (addClientTraffic env0 noFaults storeOneClient [] tickNow batchMixed).err = none ∧
    (addClientTraffic env0 noFaults storeOneClient [] tickNow batchMixed).online = ["a"] ∧
    (addClientTraffic env0 noFaults storeOneClient ["zz"] tickNow batchMixed).online = ["a"] ∧
    batchMixed.map (fun t => (t.email, decide (wrap64 (t.up + t.down) > 0))) =
      [("a", true), ("ghost", true)] := by
  decide

/-- C17 (amended): with the process handle set, on a successful `addClientTraffic` whose batch
is empty or names the email of at least one Ledger row, the online set reported does not
depend on the set from before, and an email is in it exactly when it is the email of a Ledger
row whose first batch entry with that email has `up + down > 0` in `int64` arithmetic. -/
theorem online_set_replaced (env : Env) (st : Store) (online1 online2 : List String)
    (now : Int) (batch : List ClientDelta) (hp : env.hasProcess = true)
    (hok : (addClientTraffic env noFaults st online1 now batch).err = none)
    (hrow : batch = [] ∨
      ∃ r ∈ st.traffics, (batch.map (fun t => t.email)).contains r.email = true) :
    (addClientTraffic env noFaults st online1 now batch).online =
        (addClientTraffic env noFaults st online2 now batch).online ∧
      ∀ e : String, e ∈ (addClientTraffic env noFaults st online1 now batch).online ↔
        ∃ r ∈ st.traffics, ∃ t, batch.find? (fun t => r.email == t.email) = some t ∧
          wrap64 (t.up + t.down) > 0 ∧ r.email = e := by
  have hok2 : (addClientTraffic env noFaults st online2 now batch).err = none := by
    rw [addClientTraffic_err_online env noFaults st online2 online1]
    exact hok
  rw [addClientTraffic_online env st online1 now batch hp hok hrow,
    addClientTraffic_online env st online2 now batch hp hok2 hrow]
  refine ⟨rfl, fun e => ?_⟩
  rw [List.mem_filterMap]
  constructor
  · rintro ⟨r, hr, hon⟩
    have hr2 := (List.mem_filter.1 hr).1
    unfold onlineOf at hon
    split at hon
    · rename_i t ht
      split at hon
      · rename_i hpos
        have hte : t.email = e := Option.some.inj hon
        have hrt : r.email = t.email := by
          have := List.find?_some ht
          simpa using this
        exact ⟨r, hr2, t, ht, hpos, hrt.trans hte⟩
      · cases hon
    · cases hon
  · rintro ⟨r, hr, t, ht, hpos, hre⟩
    have hrt : r.email = t.email := by
      have := List.find?_some ht
      simpa using this
    refine ⟨r, List.mem_filter.2 ⟨hr, ?_⟩, ?_⟩
    · by_contra hc
      have hnone := (find_none_iff batch r.email).2 (by simpa using hc)
      rw [hnone] at ht
      cases ht
    · unfold onlineOf
      rw [ht]
      simp only
      rw [if_pos hpos, ← hrt, hre]

/-- C17 (witness): a batch for the stored client, with two different prior online sets. -/
theorem online_set_replaced_witness :
    (addClientTraffic env0 noFaults storeOneClient ["zz"] tickNow batchMixed).err = none ∧
    (addClientTraffic env0 noFaults storeOneClient ["zz"] tickNow batchMixed).online =
      (addClientTraffic env0 noFaults storeOneClient [] tickNow batchMixed).online ∧
    ¬ ("zz" ∈ (addClientTraffic env0 noFaults storeOneClient ["zz"] tickNow batchMixed).online) ∧
    "a" ∈ (addClientTraffic env0 noFaults storeOneClient ["zz"] tickNow batchMixed).online :=
  ⟨by decide,
    (online_set_replaced env0 storeOneClient ["zz"] [] tickNow batchMixed rfl (by decide)
      (Or.inr (by decide))).1,
    by decide,
    ((online_set_replaced env0 storeOneClient ["zz"] [] tickNow batchMixed rfl (by decide)
      (Or.inr (by decide))).2 "a").2
      ⟨_, List.mem_cons_self _ _, { email := "a", up := 1, down := 1 }, by decide, by decide,
        rfl⟩⟩

end XUI
